import Mathlib

/-!
The reference-counted handle `smart_ptr<T>` of src/smart_ptr/smart_ptr.cpp.

Shallow embedding of the class template `smart_ptr<T>`.

* A raw pointer is an `Option Nat`: `none` is `nullptr`, `some a` an address.
* The free store is split in two address spaces, one for payload objects
  (`objs`) and one for the `int` counters (`cnts`).  A cell holding `none`
  is not allocated (never allocated, or deleted).  `new` takes the next
  unused address, so an address is never handed out twice.
* The handle objects themselves live in `handles`; a constructor appends a
  handle object and returns its index, the destructor ends its lifetime.
  Operations take the indices of `this` and `rhs`, so `x = x` is expressible.
* Dereferencing `nullptr` or a deleted cell, deleting a cell twice, and using
  a handle outside its lifetime are undefined behaviour: the operation
  returns `none`.
* `new` can fail: every allocating operation takes the outcome of each of its
  allocations as a `Bool` and throws `bad_alloc` on `false`.
* The counter is a C++ `int` of 32 bits: a cell holds an `Int`, and every
  `+ 1`, `- 1` and `- 2` of the source is followed by `wrap_int`, which
  reduces the result modulo 2^32 into the range from -2^31 to 2^31 - 1 (the
  two's complement result of the machine addition).
* The text written to `cout` by `clone` is not modelled.
-/

namespace SmartPtr

/-- The two exception types the class can let escape. -/
inductive Exn where
  | bad_alloc
  | null_ptr_exception
deriving DecidableEq, Repr

/-- How a call ends: it returns a value or an exception escapes. -/
inductive Outcome (α : Type) where
  | ok (a : α)
  | error (e : Exn)
deriving DecidableEq, Repr

/-- The private members of `smart_ptr<T>`: `T* ptr_` and `int* ref_`. -/
structure smart_ptr where
  ptr_ : Option Nat
  ref_ : Option Nat
deriving DecidableEq, Repr

/-- Program state: payload cells, counter cells, the handle objects in their
lifetime, and the handle objects that `clone` allocates with `new` and never
deletes. -/
structure State (T : Type) where
  objs : List (Option T)
  cnts : List (Option Int)
  handles : List (Option smart_ptr)
  leaked : List smart_ptr
deriving DecidableEq, Repr

/-- The state of a program that has not allocated anything yet. -/
def State.init (T : Type) : State T := ⟨[], [], [], []⟩

/-- Content of cell `a`; `none` when the cell is not allocated. -/
def load {α : Type} (m : List (Option α)) (a : Nat) : Option α :=
  match m[a]? with
  | some (some v) => some v
  | _ => none

/-- The expression `delete p`: nothing for `nullptr`, undefined for a cell that is not
allocated, otherwise the cell is released. -/
def free {α : Type} (m : List (Option α)) (p : Option Nat) : Option (List (Option α)) :=
  match p with
  | none => some m
  | some a =>
    match load m a with
    | none => none
    | some _ => some (m.set a none)

variable {T : Type}

/-- The handle object with index `h`, when it is in its lifetime. -/
def State.handle (s : State T) (h : Nat) : Option smart_ptr := load s.handles h

/-- The caller's `new T(v)`: returns the state and the address of the object. -/
def new_obj (s : State T) (v : T) : State T × Nat :=
  ({ s with objs := s.objs ++ [some v] }, s.objs.length)

/-- Default constructor `smart_ptr()`: both members are `nullptr`.  Returns the new handle. -/
def default_ctor (s : State T) : State T × Nat :=
  ({ s with handles := s.handles ++ [some ⟨none, none⟩] }, s.handles.length)

/-- Outcome of an adopting constructor: the new handle or the exception, the
caller's pointer variable afterwards, and the state. -/
structure Adopted (T : Type) where
  result : Outcome Nat
  raw_ptr : Option Nat
  state : State T
deriving DecidableEq

/-- Constructor `smart_ptr(T*& raw_ptr)`: `ptr_ = raw_ptr; ref_ = new int(1);`. -/
def ctor_lref (s : State T) (raw_ptr : Option Nat) (alloc_ok : Bool) : Adopted T :=
  if alloc_ok then
    { result := .ok s.handles.length
      raw_ptr := raw_ptr
      state := { s with cnts := s.cnts ++ [some 1]
                        handles := s.handles ++ [some ⟨raw_ptr, some s.cnts.length⟩] } }
  else
    { result := .error .bad_alloc, raw_ptr := raw_ptr, state := s }

/-- Constructor `smart_ptr(T*&& raw_ptr)`: as above, but a failed `new int(1)` deletes
`raw_ptr` and rethrows, and a successful one ends with `raw_ptr = nullptr`. -/
def ctor_rref (s : State T) (raw_ptr : Option Nat) (alloc_ok : Bool) : Option (Adopted T) :=
  if alloc_ok then
    some { result := .ok s.handles.length
           raw_ptr := none
           state := { s with cnts := s.cnts ++ [some 1]
                             handles := s.handles ++ [some ⟨raw_ptr, some s.cnts.length⟩] } }
  else
    match free s.objs raw_ptr with
    | none => none
    | some objs => some { result := .error .bad_alloc, raw_ptr := raw_ptr
                          state := { s with objs := objs } }

/-- Result of an arithmetic operation on the 32-bit `int` counter: the value
modulo 2^32, between -2147483648 and 2147483647. -/
def wrap_int (x : Int) : Int := (x + 2147483648) % 4294967296 - 2147483648

/-- Body of the copy constructor for a source with members `r`: the members
of the constructed handle and the counter cells afterwards. -/
def copy_members (cnts : List (Option Int)) (r : smart_ptr) :
    Option (smart_ptr × List (Option Int)) :=
  match r.ptr_ with
  | none => some (⟨none, none⟩, cnts)
  | some p =>
    match r.ref_ with
    | none => none
    | some c =>
      match load cnts c with
      | none => none
      | some k => some (⟨some p, some c⟩, cnts.set c (some (wrap_int (k + 1))))

/-- Copy constructor `smart_ptr(const smart_ptr& rhs)`.  Returns the new handle. -/
def copy_ctor (s : State T) (rhs : Nat) : Option (State T × Nat) :=
  match s.handle rhs with
  | none => none
  | some r =>
    match copy_members s.cnts r with
    | none => none
    | some (t, cnts) =>
      some ({ s with cnts := cnts, handles := s.handles ++ [some t] }, s.handles.length)

/-- Move constructor `smart_ptr(smart_ptr&& rhs)`: take the members when `rhs.ptr_` is not
null, then null both members of `rhs`.  Returns the new handle. -/
def move_ctor (s : State T) (rhs : Nat) : Option (State T × Nat) :=
  match s.handle rhs with
  | none => none
  | some r =>
    let t : smart_ptr := match r.ptr_ with
      | none => ⟨none, none⟩
      | some p => ⟨some p, r.ref_⟩
    some ({ s with handles := (s.handles.set rhs (some ⟨none, none⟩)) ++ [some t] },
          s.handles.length)

/-- Copy assignment `operator=(const smart_ptr& rhs)` on the handle `lhs`. -/
def copy_assign (s : State T) (lhs rhs : Nat) : Option (State T) :=
  match s.handle lhs, s.handle rhs with
  | some l, some r =>
    if l.ptr_ = r.ptr_ then some s
    else
      -- if (ptr_ != nullptr) *ref_ = *ref_ - 1;
      let dec : Option (List (Option Int)) :=
        match l.ptr_ with
        | none => some s.cnts
        | some _ =>
          match l.ref_ with
          | none => none
          | some c =>
            match load s.cnts c with
            | none => none
            | some k => some (s.cnts.set c (some (wrap_int (k - 1))))
      match dec with
      | none => none
      | some cnts1 =>
        match r.ptr_ with
        | none => some { s with cnts := cnts1, handles := s.handles.set lhs (some ⟨none, none⟩) }
        | some p =>
          match r.ref_ with
          | none => none
          | some c =>
            match load cnts1 c with
            | none => none
            | some k =>
              some { s with cnts := cnts1.set c (some (wrap_int (k + 1)))
                            handles := s.handles.set lhs (some ⟨some p, some c⟩) }
  | _, _ => none

/-- Move assignment `operator=(smart_ptr&& rhs)` on the handle `lhs`: the members of `lhs`
are overwritten first, then both members of `rhs` are nulled. -/
def move_assign (s : State T) (lhs rhs : Nat) : Option (State T) :=
  match s.handle lhs, s.handle rhs with
  | some _, some r =>
    let t : smart_ptr := match r.ptr_ with
      | none => ⟨none, none⟩
      | some p => ⟨some p, r.ref_⟩
    some { s with handles := (s.handles.set lhs (some t)).set rhs (some ⟨none, none⟩) }
  | _, _ => none

/-- Member `clone()` on the handle `h`.  `alloc1` is the outcome of
`new smart_ptr(*this)`, `alloc2` that of `new int(1)`. -/
def clone (s : State T) (h : Nat) (alloc1 alloc2 : Bool) :
    Option (Outcome Bool × State T) :=
  match s.handle h with
  | none => none
  | some t =>
    match t.ptr_ with
    | none => some (.ok false, s)
    | some _ =>
      match t.ref_ with
      | none => none
      | some c =>
        match load s.cnts c with
        | none => none
        | some k =>
          if k = 1 then some (.ok false, s)
          else if alloc1 = false then some (.error .bad_alloc, s)
          else
            -- smart_ptr<T>* deepCopy = new smart_ptr(*this);
            match copy_members s.cnts t with
            | none => none
            | some (deepCopy, cnts1) =>
              -- *ref_ = *ref_ - 2;
              match load cnts1 c with
              | none => none
              | some k1 =>
                let cnts2 := cnts1.set c (some (wrap_int (k1 - 2)))
                -- this->ptr_ = deepCopy->ptr_;
                let s3 : State T :=
                  { s with cnts := cnts2
                           handles := s.handles.set h (some ⟨deepCopy.ptr_, some c⟩)
                           leaked := s.leaked ++ [deepCopy] }
                -- this->ref_ = new int(1);
                if alloc2 = false then some (.error .bad_alloc, s3)
                else
                  some (.ok true,
                    { s3 with cnts := cnts2 ++ [some 1]
                              handles := s.handles.set h
                                (some ⟨deepCopy.ptr_, some cnts2.length⟩) })

/-- Member `ref_count()`: 0 when `ref_` is null, otherwise `*ref_`. -/
def ref_count (s : State T) (h : Nat) : Option Int :=
  match s.handle h with
  | none => none
  | some t =>
    match t.ref_ with
    | none => some 0
    | some c => load s.cnts c

/-- Member `operator*()`: throws when `ptr_` is null, otherwise the reference
`*ptr_`, given as the address of the object. -/
def operator_star (s : State T) (h : Nat) : Option (Outcome Nat) :=
  match s.handle h with
  | none => none
  | some t =>
    match t.ptr_ with
    | none => some (.error .null_ptr_exception)
    | some p => some (.ok p)

/-- Member `operator->()`: throws when `ptr_` or `ref_` is null, otherwise `ptr_`. -/
def operator_arrow (s : State T) (h : Nat) : Option (Outcome Nat) :=
  match s.handle h with
  | none => none
  | some t =>
    if t.ptr_ = none ∨ t.ref_ = none then some (.error .null_ptr_exception)
    else
      match t.ptr_ with
      | none => none
      | some p => some (.ok p)

/-- Reading the object through `*h`. -/
def read_star (s : State T) (h : Nat) : Option (Outcome T) :=
  match operator_star s h with
  | none => none
  | some (.error e) => some (.error e)
  | some (.ok p) =>
    match load s.objs p with
    | none => none
    | some v => some (.ok v)

/-- The assignment `*h = v`. -/
def write_star (s : State T) (h : Nat) (v : T) : Option (Outcome Unit × State T) :=
  match operator_star s h with
  | none => none
  | some (.error e) => some (.error e, s)
  | some (.ok p) =>
    match load s.objs p with
    | none => none
    | some _ => some (.ok (), { s with objs := s.objs.set p (some v) })

/-- Destructor `~smart_ptr()` on the handle `h`; the lifetime of `h` ends. -/
def dtor (s : State T) (h : Nat) : Option (State T) :=
  match s.handle h with
  | none => none
  | some t =>
    if t.ref_ = none ∨ t.ptr_ = none then
      -- delete ref_; delete ptr_; return;
      match free s.cnts t.ref_ with
      | none => none
      | some cnts =>
        match free s.objs t.ptr_ with
        | none => none
        | some objs => some { s with objs := objs, cnts := cnts, handles := s.handles.set h none }
    else
      match t.ref_ with
      | none => none
      | some c =>
        match load s.cnts c with
        | none => none
        | some k =>
          if k ≠ 1 then
            some { s with cnts := s.cnts.set c (some (wrap_int (k - 1)))
                          handles := s.handles.set h none }
          else
            -- delete ptr_; delete ref_;
            match free s.objs t.ptr_ with
            | none => none
            | some objs =>
              match free s.cnts t.ref_ with
              | none => none
              | some cnts =>
                some { s with objs := objs, cnts := cnts, handles := s.handles.set h none }

/-! ## Programs over the public operations -/

/-- One call made by client code: the caller's `new T(v)`, a constructor, an
assignment, `clone`, a write `*h = v`, or the end of a handle's lifetime.
Allocating calls carry the outcome of each `new`. -/
inductive Op (T : Type) where
  | new_obj (v : T)
  | default_ctor
  | ctor_lref (raw_ptr : Option Nat) (alloc_ok : Bool)
  | ctor_rref (raw_ptr : Option Nat) (alloc_ok : Bool)
  | copy_ctor (rhs : Nat)
  | move_ctor (rhs : Nat)
  | copy_assign (lhs rhs : Nat)
  | move_assign (lhs rhs : Nat)
  | clone (h : Nat) (alloc1 alloc2 : Bool)
  | write_star (h : Nat) (v : T)
  | dtor (h : Nat)
deriving DecidableEq

/-- State after one call, whether it returned or threw; `none` when the call
has undefined behaviour. -/
def exec (s : State T) : Op T → Option (State T)
  | .new_obj v => some (new_obj s v).1
  | .default_ctor => some (default_ctor s).1
  | .ctor_lref raw_ptr alloc_ok => some (ctor_lref s raw_ptr alloc_ok).state
  | .ctor_rref raw_ptr alloc_ok => (ctor_rref s raw_ptr alloc_ok).map (fun a => a.state)
  | .copy_ctor rhs => (copy_ctor s rhs).map (fun x => x.1)
  | .move_ctor rhs => (move_ctor s rhs).map (fun x => x.1)
  | .copy_assign lhs rhs => copy_assign s lhs rhs
  | .move_assign lhs rhs => move_assign s lhs rhs
  | .clone h alloc1 alloc2 => (clone s h alloc1 alloc2).map (fun x => x.2)
  | .write_star h v => (write_star s h v).map (fun x => x.2)
  | .dtor h => dtor s h

/-- State after a sequence of calls. -/
def run (s : State T) : List (Op T) → Option (State T)
  | [] => some s
  | o :: os =>
    match exec s o with
    | none => none
    | some s' => run s' os

/-- A state some program reaches from the empty state without undefined
behaviour. -/
def Reachable (s : State T) : Prop := ∃ ops, run (State.init T) ops = some s

/-- Whether the slot `x` of the handle table is a living handle whose counter
member is `c`. -/
def holds_counter (c : Nat) (x : Option smart_ptr) : Bool :=
  match x with
  | some t => decide (t.ref_ = some c)
  | none => false

/-- Whether the slot `x` of the handle table is a living handle whose payload
member is `p`. -/
def holds_payload (p : Nat) (x : Option smart_ptr) : Bool :=
  match x with
  | some t => decide (t.ptr_ = some p)
  | none => false

/-- Number of living handles whose counter member is `c`. -/
def counter_holders (s : State T) (c : Nat) : Nat := s.handles.countP (holds_counter c)

/-- Number of living handles whose payload member is `p`. -/
def payload_holders (s : State T) (p : Nat) : Nat := s.handles.countP (holds_payload p)

/-- The object at `p` is allocated and no living handle refers to it. -/
def unowned (s : State T) (p : Nat) : Bool :=
  (load s.objs p).isSome && s.handles.all (fun x => !holds_payload p x)

/-- Calls of a program that adopts only objects no living handle refers to
(such as a fresh one) and does not call `clone`. -/
def admissible (s : State T) : Op T → Bool
  | .ctor_lref (some p) _ => unowned s p
  | .ctor_lref none _ => false
  | .ctor_rref (some p) _ => unowned s p
  | .ctor_rref none _ => false
  | .clone _ _ _ => false
  | _ => true

/-- Every allocated counter cell reads less than 2147483647, the largest
`int`. -/
def counters_below_max (s : State T) : Bool :=
  s.cnts.all (fun x =>
    match x with
    | some k => decide (k < 2147483647)
    | none => true)

/-- State after a sequence of calls, each of them admissible and made while
no counter has reached the largest `int`. -/
def run_admissible (s : State T) : List (Op T) → Option (State T)
  | [] => some s
  | o :: os =>
    if counters_below_max s && admissible s o then
      match exec s o with
      | none => none
      | some s' => run_admissible s' os
    else none

/-- Every allocated counter cell holds a value of the 32-bit `int`. -/
def CellsInRange (s : State T) : Prop :=
  ∀ c k, load s.cnts c = some k → -2147483648 ≤ k ∧ k ≤ 2147483647

/-- The invariant of the data model that every program keeps: a handle with
a payload has a counter; handles with the same counter have the same payload,
and a counter held with a null payload has a single holder and reads 1; every
counter member is an address that was allocated. -/
structure WF (s : State T) : Prop where
  has_counter : ∀ i t, s.handle i = some t → t.ptr_ ≠ none → t.ref_ ≠ none
  same_counter : ∀ i j ti tj c, s.handle i = some ti → s.handle j = some tj →
    ti.ref_ = some c → tj.ref_ = some c → ti.ptr_ = tj.ptr_ ∧ (ti.ptr_ = none → i = j)
  counter_bound : ∀ i t c, s.handle i = some t → t.ref_ = some c → c < s.cnts.length
  null_count : ∀ i t c, s.handle i = some t → t.ptr_ = none → t.ref_ = some c →
    load s.cnts c = some 1

/-- No counter undercounts: a counter cell with at least one living holder is
allocated and reads at least the number of its living holders. -/
def Counted (s : State T) : Prop :=
  ∀ c, counter_holders s c = 0 ∨
    ∃ k, load s.cnts c = some k ∧ (counter_holders s c : Int) ≤ k

/-- Living handles with the same payload have the same counter. -/
def PayloadHasOneCounter (s : State T) : Prop :=
  ∀ i j ti tj p, s.handle i = some ti → s.handle j = some tj →
    ti.ptr_ = some p → tj.ptr_ = some p → ti.ref_ = tj.ref_

/-- Calls other than a `clone` whose first allocation succeeds and whose
second fails. -/
def Op.counts_kept : Op T → Bool
  | .clone _ true false => false
  | _ => true

/-- State after a sequence of calls, none of them a `clone` that fails at its
second allocation, each made while no counter has reached the largest
`int`. -/
def run_counting (s : State T) : List (Op T) → Option (State T)
  | [] => some s
  | o :: os =>
    if counters_below_max s && o.counts_kept then
      match exec s o with
      | none => none
      | some s' => run_counting s' os
    else none

/-- The handle table of `s'` holds only handles with a null payload and
handles whose two members are those of a living handle of `s`. -/
def Copies (s s' : State T) : Prop :=
  ∀ g t', s'.handle g = some t' → t'.ptr_ = none ∨ ∃ j, s.handle j = some t'

/-- Adopting constructors called with a null pointer. -/
def Op.adopts_null : Op T → Bool
  | .ctor_lref none _ => true
  | .ctor_rref none _ => true
  | _ => false

/-- The two members of every living handle are null together. -/
def Lockstep (s : State T) : Prop :=
  ∀ i t, s.handle i = some t → (t.ptr_ = none ↔ t.ref_ = none)

/-- The program `ops` repeated `n` times. -/
def repeat_ops : Nat → List (Op T) → List (Op T)
  | 0, _ => []
  | n + 1, ops => ops ++ repeat_ops n ops

/-- Handle 0 owns an object with value `v` and its counter reads `k`;
handles 1 and 2 have both members null. -/
def owner_and_two_empty (v : T) (k : Int) : State T :=
  ⟨[some v], [some k], [some ⟨some 0, some 0⟩, some ⟨none, none⟩, some ⟨none, none⟩], []⟩

/-- A adopts a fresh 10, B is copy-constructed from A, B is cloned, 20 is
written through B.  Returns the counts of A and B after the copy, the result
of `clone`, the counts of A and B after it, the members of A and B after it,
and the values read through A and B after the write. -/
def clone_scenario : Option (Option Int × Option Int × Outcome Bool × Option Int × Option Int
    × Option smart_ptr × Option smart_ptr × Outcome Int × Outcome Int) :=
  let (s1, p) := new_obj (State.init Int) 10
  let a := ctor_lref s1 (some p) true
  match copy_ctor a.state 0 with
  | none => none
  | some (s3, b) =>
    match clone s3 b true true with
    | none => none
    | some (res, s4) =>
      match write_star s4 b 20 with
      | none => none
      | some (_, s5) =>
        match read_star s5 0, read_star s5 b with
        | some va, some vb =>
          some (ref_count s3 0, ref_count s3 b, res, ref_count s4 0, ref_count s4 b,
                s4.handle 0, s4.handle b, va, vb)
        | _, _ => none

/-! ## Cells -/

theorem load_eq_some {α : Type} {m : List (Option α)} {a : Nat} {v : α} :
    load m a = some v ↔ m[a]? = some (some v) := by
  unfold load
  split
  · next w hw => rw [hw]; simp
  · next hw =>
    constructor
    · intro h; cases h
    · intro h; exact absurd h (hw v)

theorem load_lt {α : Type} {m : List (Option α)} {a : Nat} {v : α}
    (h : load m a = some v) : a < m.length := by
  rw [load_eq_some] at h
  by_contra hn
  rw [List.getElem?_eq_none (by omega)] at h
  cases h

theorem load_set {α : Type} (m : List (Option α)) (a b : Nat) (x : Option α) :
    load (m.set a x) b = if a = b ∧ a < m.length then x else load m b := by
  unfold load
  rw [List.getElem?_set]
  by_cases hab : a = b
  · subst hab
    by_cases hlt : a < m.length
    · simp [hlt]; cases x <;> rfl
    · have : m[a]? = none := List.getElem?_eq_none (by omega)
      simp [hlt, this]
  · simp [hab]

theorem load_set_self {α : Type} {m : List (Option α)} {a : Nat} (x : Option α)
    (h : a < m.length) : load (m.set a x) a = x := by
  simp [load_set, h]

theorem load_set_ne {α : Type} (m : List (Option α)) {a b : Nat} (x : Option α)
    (h : a ≠ b) : load (m.set a x) b = load m b := by
  simp [load_set, h]

theorem load_append {α : Type} (m : List (Option α)) (x : Option α) (b : Nat) :
    load (m ++ [x]) b = if b = m.length then x else load m b := by
  unfold load
  by_cases hb : b = m.length
  · subst hb
    simp; cases x <;> rfl
  · simp only [hb, if_false]
    by_cases hlt : b < m.length
    · rw [List.getElem?_append_left hlt]
    · have h1 : (m ++ [x])[b]? = none := List.getElem?_eq_none (by simp; omega)
      have h2 : m[b]? = none := List.getElem?_eq_none (by omega)
      rw [h1, h2]

theorem load_append_new {α : Type} (m : List (Option α)) (x : Option α) :
    load (m ++ [x]) m.length = x := by
  simp [load_append]

theorem load_append_old {α : Type} (m : List (Option α)) (x : Option α) {b : Nat}
    (h : b < m.length) : load (m ++ [x]) b = load m b := by
  simp [load_append, Nat.ne_of_lt h]

/-! ## The counter as a 32-bit integer -/

theorem wrap_int_range (x : Int) : -2147483648 ≤ wrap_int x ∧ wrap_int x ≤ 2147483647 := by
  unfold wrap_int; omega

theorem wrap_int_eq {x : Int} (h1 : -2147483648 ≤ x) (h2 : x ≤ 2147483647) :
    wrap_int x = x := by
  unfold wrap_int; omega

/-- Adding one and then subtracting one restores a counter, also when the
addition wraps. -/
theorem wrap_int_add_sub_one {k : Int} (h1 : -2147483648 ≤ k) (h2 : k ≤ 2147483647) :
    wrap_int (wrap_int (k + 1) - 1) = k := by
  unfold wrap_int; omega

theorem wrap_int_succ_eq_one {k : Int} (h1 : -2147483648 ≤ k) (h2 : k ≤ 2147483647) :
    wrap_int (k + 1) = 1 ↔ k = 0 := by
  unfold wrap_int; omega

/-- The largest `int` plus one is the smallest `int`. -/
theorem wrap_int_max : wrap_int (2147483647 + 1) = -2147483648 := by
  unfold wrap_int; omega

theorem CellsInRange_init : CellsInRange (State.init T) := by
  intro c k h
  simp [State.init, load] at h

theorem CellsInRange.set_cell {s : State T} (r : CellsInRange s) (c : Nat) (v : Option Int)
    (hv : ∀ k, v = some k → -2147483648 ≤ k ∧ k ≤ 2147483647)
    (objs' : List (Option T)) (hs' : List (Option smart_ptr)) (leaked' : List smart_ptr) :
    CellsInRange (⟨objs', s.cnts.set c v, hs', leaked'⟩ : State T) := by
  intro b k hb
  have hb' : load (s.cnts.set c v) b = some k := hb
  rw [load_set] at hb'
  split at hb'
  · exact hv k hb'
  · exact r b k hb'

theorem CellsInRange.set_wrapped {s : State T} (r : CellsInRange s) (c : Nat) (x : Int)
    (objs' : List (Option T)) (hs' : List (Option smart_ptr)) (leaked' : List smart_ptr) :
    CellsInRange (⟨objs', s.cnts.set c (some (wrap_int x)), hs', leaked'⟩ : State T) :=
  r.set_cell c _ (fun k hk => by cases hk; exact wrap_int_range x) _ _ _

theorem CellsInRange.set_free {s : State T} (r : CellsInRange s) (c : Nat)
    (objs' : List (Option T)) (hs' : List (Option smart_ptr)) (leaked' : List smart_ptr) :
    CellsInRange (⟨objs', s.cnts.set c none, hs', leaked'⟩ : State T) :=
  r.set_cell c _ (fun k hk => by cases hk) _ _ _

theorem CellsInRange.append_one {s : State T} (r : CellsInRange s)
    (objs' : List (Option T)) (hs' : List (Option smart_ptr)) (leaked' : List smart_ptr) :
    CellsInRange (⟨objs', s.cnts ++ [some 1], hs', leaked'⟩ : State T) := by
  intro b k hb
  have hb' : load (s.cnts ++ [some 1]) b = some k := hb
  rw [load_append] at hb'
  split at hb'
  · cases hb'; omega
  · exact r b k hb'

theorem CellsInRange.same_cells {s : State T} (r : CellsInRange s)
    (objs' : List (Option T)) (hs' : List (Option smart_ptr)) (leaked' : List smart_ptr) :
    CellsInRange (⟨objs', s.cnts, hs', leaked'⟩ : State T) :=
  fun c k h => r c k h

theorem CellsInRange_copy_ctor {s : State T} (r : CellsInRange s) (rhs : Nat)
    (x : State T × Nat) (h : copy_ctor s rhs = some x) : CellsInRange x.1 := by
  unfold copy_ctor at h
  split at h
  · cases h
  · next t ht =>
    obtain ⟨rp, rc⟩ := t
    unfold copy_members at h
    cases rp with
    | none => simp only at h; cases h; exact r.same_cells _ _ _
    | some p =>
      cases rc with
      | none => simp at h
      | some c =>
        cases hk : load s.cnts c with
        | none => simp [hk] at h
        | some k =>
          simp only [hk] at h
          cases h
          exact r.set_wrapped _ _ _ _ _

theorem CellsInRange_copy_assign {s : State T} (r : CellsInRange s) (lhs rhs : Nat)
    (s' : State T) (h : copy_assign s lhs rhs = some s') : CellsInRange s' := by
  unfold copy_assign at h
  split at h
  · next l t hl hr =>
    split at h
    · cases h; exact r
    · have hdec : ∀ cnts1, (match l.ptr_ with
          | none => some s.cnts
          | some _ =>
            match l.ref_ with
            | none => none
            | some c =>
              match load s.cnts c with
              | none => none
              | some k => some (s.cnts.set c (some (wrap_int (k - 1))))) = some cnts1 →
          CellsInRange (⟨s.objs, cnts1, s.handles, s.leaked⟩ : State T) := by
        intro cnts1 hc
        obtain ⟨lp, lc⟩ := l
        cases lp with
        | none => simp only at hc; cases hc; exact r
        | some p =>
          cases lc with
          | none => simp at hc
          | some c =>
            cases hk : load s.cnts c with
            | none => simp [hk] at hc
            | some k =>
              simp only [hk] at hc
              cases hc
              exact r.set_wrapped _ _ _ _ _
      simp only at h
      split at h
      · cases h
      · next cnts1 hc1 =>
        have r1 := hdec cnts1 hc1
        obtain ⟨rp, rc⟩ := t
        cases rp with
        | none =>
          simp only at h
          cases h
          exact r1.same_cells _ _ _
        | some p =>
          cases rc with
          | none => simp at h
          | some c =>
            cases hk : load cnts1 c with
            | none => simp [hk] at h
            | some k =>
              simp only [hk] at h
              cases h
              exact r1.set_wrapped _ _ _ _ _
  · cases h

theorem CellsInRange_clone {s : State T} (r : CellsInRange s) (h : Nat) (a1 a2 : Bool)
    (x : Outcome Bool × State T) (hx : clone s h a1 a2 = some x) : CellsInRange x.2 := by
  unfold clone at hx
  split at hx
  · cases hx
  · next t ht =>
    obtain ⟨tp, tc⟩ := t
    cases tp with
    | none => simp only at hx; cases hx; exact r
    | some p =>
      cases tc with
      | none => simp at hx
      | some c =>
        cases hk : load s.cnts c with
        | none => simp [hk] at hx
        | some k =>
          have hcl := load_lt hk
          have hc1 : load (s.cnts.set c (some (wrap_int (k + 1)))) c = some (wrap_int (k + 1)) :=
            load_set_self _ hcl
          simp only [hk, copy_members, hc1] at hx
          split at hx
          · cases hx; exact r
          · split at hx
            · cases hx; exact r
            · have r1 := r.set_wrapped c (k + 1) s.objs s.handles s.leaked
              have r2 := r1.set_wrapped c (wrap_int (k + 1) - 2) s.objs s.handles s.leaked
              split at hx
              · cases hx
                exact r2.same_cells _ _ _
              · cases hx
                exact r2.append_one _ _ _

theorem CellsInRange_dtor {s : State T} (r : CellsInRange s) (h : Nat) (s' : State T)
    (hx : dtor s h = some s') : CellsInRange s' := by
  unfold dtor at hx
  split at hx
  · cases hx
  · next t ht =>
    have hfree : ∀ (q : Option Nat) cnts, free s.cnts q = some cnts →
        ∀ objs' hs', CellsInRange (⟨objs', cnts, hs', s.leaked⟩ : State T) := by
      intro q cnts hq objs' hs'
      unfold free at hq
      cases q with
      | none => cases hq; exact r.same_cells _ _ _
      | some c =>
        simp only at hq
        split at hq
        · cases hq
        · cases hq; exact r.set_free _ _ _ _
    split at hx
    · split at hx
      · cases hx
      · next cnts hc =>
        split at hx
        · cases hx
        · cases hx; exact hfree _ _ hc _ _
    · split at hx
      · cases hx
      · split at hx
        · cases hx
        · split at hx
          · cases hx; exact r.set_wrapped _ _ _ _ _
          · split at hx
            · cases hx
            · split at hx
              · cases hx
              · next cnts hc => cases hx; exact hfree _ _ hc _ _

/-- Every call leaves values of the 32-bit `int` in the counter cells. -/
theorem CellsInRange_exec {s s' : State T} (r : CellsInRange s) (o : Op T)
    (h : exec s o = some s') : CellsInRange s' := by
  cases o with
  | new_obj v => cases h; exact r.same_cells _ _ _
  | default_ctor => cases h; exact r.same_cells _ _ _
  | ctor_lref raw ok =>
    cases h
    cases ok
    · exact r
    · exact r.append_one _ _ _
  | ctor_rref raw ok =>
    simp only [exec, Option.map_eq_some'] at h
    obtain ⟨a, ha, rfl⟩ := h
    cases ok
    · simp only [ctor_rref, Bool.false_eq_true, if_false] at ha
      split at ha
      · cases ha
      · cases ha
        exact r.same_cells _ _ _
    · simp only [ctor_rref, if_true] at ha
      cases ha
      exact r.append_one _ _ _
  | copy_ctor rhs =>
    simp only [exec, Option.map_eq_some'] at h
    obtain ⟨a, ha, rfl⟩ := h
    exact CellsInRange_copy_ctor r rhs a ha
  | move_ctor rhs =>
    simp only [exec, Option.map_eq_some'] at h
    obtain ⟨a, ha, rfl⟩ := h
    unfold move_ctor at ha
    split at ha
    · cases ha
    · cases ha; exact r.same_cells _ _ _
  | copy_assign lhs rhs => exact CellsInRange_copy_assign r lhs rhs s' h
  | move_assign lhs rhs =>
    simp only [exec] at h
    unfold move_assign at h
    split at h
    · cases h; exact r.same_cells _ _ _
    · cases h
  | clone g a1 a2 =>
    simp only [exec, Option.map_eq_some'] at h
    obtain ⟨a, ha, rfl⟩ := h
    exact CellsInRange_clone r g a1 a2 a ha
  | write_star g v =>
    simp only [exec, Option.map_eq_some'] at h
    obtain ⟨a, ha, rfl⟩ := h
    unfold write_star at ha
    split at ha
    · cases ha
    · cases ha; exact r
    · split at ha
      · cases ha
      · cases ha; exact r.same_cells _ _ _
  | dtor g => exact CellsInRange_dtor r g s' h

theorem CellsInRange_run {s s' : State T} (r : CellsInRange s) (ops : List (Op T))
    (h : run s ops = some s') : CellsInRange s' := by
  induction ops generalizing s with
  | nil => cases h; exact r
  | cons o os ih =>
    simp only [run] at h
    split at h
    · cases h
    · next s1 h1 => exact ih (CellsInRange_exec r o h1) h

/-- In every reachable state the counter cells hold values of the 32-bit
`int`. -/
theorem CellsInRange_of_reachable {s : State T} (h : Reachable s) : CellsInRange s := by
  obtain ⟨ops, hops⟩ := h
  exact CellsInRange_run CellsInRange_init ops hops

/-! ## A counter can reach the largest int -/

theorem run_append (s : State T) (a b : List (Op T)) :
    run s (a ++ b) = (run s a).bind (fun s' => run s' b) := by
  induction a generalizing s with
  | nil => rfl
  | cons o os ih =>
    simp only [List.cons_append, run]
    cases exec s o with
    | none => rfl
    | some s1 => exact ih s1

/-- One round: handle 1 is copy-assigned from the owner, which adds one to
the counter, and then move-assigned from the empty handle 2, which empties it
again without touching the counter. -/
theorem run_round (v : T) (k : Int) :
    run (owner_and_two_empty v k) [.copy_assign 1 0, .move_assign 1 2]
      = some (owner_and_two_empty v (wrap_int (k + 1))) := rfl

theorem run_rounds (v : T) (n : Nat) :
    ∀ k : Int, -2147483648 ≤ k → k + n ≤ 2147483647 →
      run (owner_and_two_empty v k) (repeat_ops n [.copy_assign 1 0, .move_assign 1 2])
        = some (owner_and_two_empty v (k + n)) := by
  induction n with
  | zero => intro k _ _; simp [repeat_ops, run]
  | succ n ih =>
    intro k h1 h2
    simp only [repeat_ops]
    rw [run_append, run_round, wrap_int_eq (by omega) (by push_cast at h2; omega)]
    simp only [Option.bind]
    rw [ih (k + 1) (by omega) (by push_cast at h2 ⊢; omega)]
    congr 2
    push_cast
    ring

/-- Public operations on three handles bring a counter to any positive value
of the `int`. -/
theorem reachable_counter (v : T) (n : Nat) (hn : (1 : Int) + n ≤ 2147483647) :
    Reachable (owner_and_two_empty v (1 + n)) := by
  refine ⟨[.new_obj v, .ctor_lref (some 0) true, .default_ctor, .default_ctor]
    ++ repeat_ops n [.copy_assign 1 0, .move_assign 1 2], ?_⟩
  rw [run_append]
  have h0 : run (State.init T) [.new_obj v, .ctor_lref (some 0) true, .default_ctor,
      .default_ctor] = some (owner_and_two_empty v 1) := rfl
  rw [h0]
  exact run_rounds v n 1 (by omega) hn

/-- Public operations on three handles bring a counter to 2147483647. -/
theorem reachable_counter_max (v : T) : Reachable (owner_and_two_empty v 2147483647) := by
  have e : (1 : Int) + ((2147483646 : Nat) : Int) = 2147483647 := by norm_num
  have h := reachable_counter v 2147483646 (by norm_num)
  rw [e] at h
  exact h

/-! ## The end-to-end scenario of the specification -/

/-- C1 (evaluation of the code): in the scenario of the specification the
copy reports count 2 on both handles and `clone` returns true with both
counts 1, but B keeps the address of A's object (no object is allocated), so
after 20 is written through B the value read through A is 20, not 10. -/
theorem clone_scenario_shares_payload :
    clone_scenario = some (some 2, some 2, .ok true, some 1, some 1,
      some ⟨some 0, some 0⟩, some ⟨some 0, some 1⟩, .ok 20, .ok 20) := by
  rfl

/-! ## Destroy -/

/-- C4 (counterexample): two programs after which a living handle has a
payload member, a counter that reads 1, and a payload cell that is already
deallocated, so that destroying it deletes the object a second time, which is
undefined.  In the first, A adopts a fresh 10, B is a copy of A, B is cloned
(B gets a counter of its own and keeps the payload of A) and B is destroyed.
In the second, the same pointer is adopted by two handles and the first is
destroyed.  In a third program the same pointer is adopted by A and B, C is a
copy of B and A is destroyed: the counter of B reads 2, destroying B leaves
it at 1, and the payload is not allocated afterwards, since it was not
before. -/
theorem destroy_with_deallocated_payload :
    (run (State.init Int) [.new_obj 10, .ctor_lref (some 0) true, .copy_ctor 0,
        .clone 1 true true, .dtor 1]
      = some ⟨[none], [some 1, none], [some ⟨some 0, some 0⟩, none], [⟨some 0, some 0⟩]⟩ ∧
     ref_count (⟨[none], [some 1, none], [some ⟨some 0, some 0⟩, none],
        [⟨some 0, some 0⟩]⟩ : State Int) 0 = some 1 ∧
     dtor (⟨[none], [some 1, none], [some ⟨some 0, some 0⟩, none],
        [⟨some 0, some 0⟩]⟩ : State Int) 0 = none) ∧
    (run (State.init Int) [.new_obj 10, .ctor_lref (some 0) true, .ctor_lref (some 0) true,
        .dtor 0]
      = some ⟨[none], [none, some 1], [none, some ⟨some 0, some 1⟩], []⟩ ∧
     ref_count (⟨[none], [none, some 1], [none, some ⟨some 0, some 1⟩], []⟩ : State Int) 1
      = some 1 ∧
     dtor (⟨[none], [none, some 1], [none, some ⟨some 0, some 1⟩], []⟩ : State Int) 1
      = none) ∧
    (run (State.init Int) [.new_obj 10, .ctor_lref (some 0) true, .ctor_lref (some 0) true,
        .copy_ctor 1, .dtor 0]
      = some ⟨[none], [none, some 2], [none, some ⟨some 0, some 1⟩, some ⟨some 0, some 1⟩],
          []⟩ ∧
     dtor (⟨[none], [none, some 2], [none, some ⟨some 0, some 1⟩, some ⟨some 0, some 1⟩],
          []⟩ : State Int) 1
      = some ⟨[none], [none, some 1], [none, none, some ⟨some 0, some 1⟩], []⟩ ∧
     read_star (⟨[none], [none, some 1], [none, none, some ⟨some 0, some 1⟩], []⟩ :
        State Int) 2 = none) := by
  refine ⟨⟨rfl, rfl, rfl⟩, ⟨rfl, rfl, rfl⟩, ⟨rfl, rfl, rfl⟩⟩

/-- C4 (amended): in a reachable state, destroying a non-empty handle whose
counter reads 1 and whose payload is still allocated deallocates the payload
and the counter; when the counter reads k > 1 nothing is deallocated, the
counter becomes k-1, the payload cells and the other handles are unchanged
(so a payload that was allocated stays allocated with the same value, and is
read as before through the remaining holders); and destroying an empty handle
changes no payload cell and no counter cell. -/
theorem dtor_spec (s : State T) (h : Nat) (t : smart_ptr) (hs : Reachable s)
    (hh : s.handle h = some t) :
    (∀ p c v, t = ⟨some p, some c⟩ → load s.cnts c = some 1 → load s.objs p = some v →
      ∃ s', dtor s h = some s' ∧ load s'.objs p = none ∧ load s'.cnts c = none ∧
        (∀ p', p' ≠ p → load s'.objs p' = load s.objs p') ∧
        (∀ c', c' ≠ c → load s'.cnts c' = load s.cnts c') ∧ s'.handle h = none) ∧
    (∀ p c k, t = ⟨some p, some c⟩ → load s.cnts c = some k → 1 < k →
      ∃ s', dtor s h = some s' ∧ s'.objs = s.objs ∧ load s'.cnts c = some (k - 1) ∧
        (∀ v, load s.objs p = some v → load s'.objs p = some v) ∧
        (∀ c', c' ≠ c → load s'.cnts c' = load s.cnts c') ∧
        (∀ g, g ≠ h → s'.handle g = s.handle g ∧ read_star s' g = read_star s g) ∧
        s'.handle h = none) ∧
    (t = ⟨none, none⟩ →
      ∃ s', dtor s h = some s' ∧ s'.objs = s.objs ∧ s'.cnts = s.cnts ∧
        (∀ g, g ≠ h → s'.handle g = s.handle g) ∧ s'.handle h = none) := by
  have hlt : h < s.handles.length := load_lt hh
  have hrng := CellsInRange_of_reachable hs
  refine ⟨?_, ?_, ?_⟩
  · intro p c v ht hc hp
    subst ht
    have hcl := load_lt hc
    have hpl := load_lt hp
    have hd : dtor s h = some ⟨s.objs.set p none, s.cnts.set c none,
        s.handles.set h none, s.leaked⟩ := by
      simp [dtor, hh, hc, hp, free]
    refine ⟨_, hd, ?_, ?_, ?_, ?_, ?_⟩
    · simp [load_set, hpl]
    · simp [load_set, hcl]
    · intro p' hp'; simp [load_set, Ne.symm hp']
    · intro c' hc'; simp [load_set, Ne.symm hc']
    · simp [State.handle, load_set, hlt]
  · intro p c k ht hc hk
    subst ht
    have hcl := load_lt hc
    have hk1 : k ≠ 1 := by omega
    have hw : wrap_int (k - 1) = k - 1 :=
      wrap_int_eq (by omega) (by have := (hrng c k hc).2; omega)
    have hd : dtor s h = some ⟨s.objs, s.cnts.set c (some (k - 1)),
        s.handles.set h none, s.leaked⟩ := by
      simp [dtor, hh, hc, hk1, hw]
    refine ⟨_, hd, rfl, ?_, fun v hv => hv, ?_, ?_, ?_⟩
    · simp [load_set, hcl]
    · intro c' hc'; simp [load_set, Ne.symm hc']
    · intro g hg
      have hg' : load (s.handles.set h none) g = load s.handles g := by
        simp [load_set, Ne.symm hg]
      refine ⟨hg', ?_⟩
      simp only [read_star, operator_star, State.handle]
      rw [hg']
    · simp [State.handle, load_set, hlt]
  · intro ht
    subst ht
    have hd : dtor s h = some { s with handles := s.handles.set h none } := by
      simp [dtor, hh, free]
    refine ⟨_, hd, rfl, rfl, ?_, ?_⟩
    · intro g hg; simp [State.handle, load_set, Ne.symm hg]
    · simp [State.handle, load_set, hlt]

/-- Witness of C4 (amended) on two handles sharing an object with value 7
and count 2, and on the only handle of an object with count 1. -/
theorem dtor_spec_witness :
    (∃ s', dtor (⟨[some 7], [some 2], [some ⟨some 0, some 0⟩, some ⟨some 0, some 0⟩], []⟩ :
        State Int) 0 = some s' ∧ s'.objs = [some 7] ∧ load s'.cnts 0 = some (2 - 1) ∧
        (∀ v, load [some (7 : Int)] 0 = some v → load s'.objs 0 = some v) ∧
        (∀ c', c' ≠ 0 → load s'.cnts c' = load [some (2 : Int)] c') ∧
        (∀ g, g ≠ 0 → s'.handle g =
            (⟨[some 7], [some 2], [some ⟨some 0, some 0⟩, some ⟨some 0, some 0⟩], []⟩ :
              State Int).handle g ∧
          read_star s' g = read_star (⟨[some 7], [some 2],
            [some ⟨some 0, some 0⟩, some ⟨some 0, some 0⟩], []⟩ : State Int) g) ∧
        s'.handle 0 = none) ∧
    (∃ s', dtor (⟨[some 7], [some 1], [some ⟨some 0, some 0⟩], []⟩ : State Int) 0 = some s' ∧
        load s'.objs 0 = none ∧ load s'.cnts 0 = none ∧
        (∀ p', p' ≠ 0 → load s'.objs p' = load [some (7 : Int)] p') ∧
        (∀ c', c' ≠ 0 → load s'.cnts c' = load [some (1 : Int)] c') ∧ s'.handle 0 = none) :=
  ⟨(dtor_spec (⟨[some 7], [some 2], [some ⟨some 0, some 0⟩, some ⟨some 0, some 0⟩], []⟩ :
      State Int) 0 ⟨some 0, some 0⟩
      ⟨[.new_obj 7, .ctor_lref (some 0) true, .copy_ctor 0], rfl⟩ rfl).2.1 0 0 2 rfl rfl
      (by decide),
   (dtor_spec (⟨[some 7], [some 1], [some ⟨some 0, some 0⟩], []⟩ : State Int) 0
      ⟨some 0, some 0⟩ ⟨[.new_obj 7, .ctor_lref (some 0) true], rfl⟩ rfl).1 0 0 7 rfl rfl rfl⟩

/-! ## Copy construction -/

/-- C5 (counterexample): on the reachable state where the owner's counter
reads 2147483647, copy construction leaves the counter at -2147483648 on
both handles, not at k+1.  And after A adopts a fresh 10, B is a copy of A, B
is cloned and B is destroyed, the payload of the non-empty handle A is
deallocated: the copy C of A has the members of A, but a write through C or
through A is undefined. -/
theorem copy_at_largest_count_or_freed_payload :
    (Reachable (owner_and_two_empty (7 : Int) 2147483647) ∧
     ref_count (owner_and_two_empty (7 : Int) 2147483647) 0 = some 2147483647 ∧
     (copy_ctor (owner_and_two_empty (7 : Int) 2147483647) 0).map
        (fun x => (x.2, ref_count x.1 0, ref_count x.1 x.2))
      = some (3, some (-2147483648), some (-2147483648))) ∧
    (run (State.init Int) [.new_obj 10, .ctor_lref (some 0) true, .copy_ctor 0,
        .clone 1 true true, .dtor 1]
      = some ⟨[none], [some 1, none], [some ⟨some 0, some 0⟩, none], [⟨some 0, some 0⟩]⟩ ∧
     copy_ctor (⟨[none], [some 1, none], [some ⟨some 0, some 0⟩, none],
        [⟨some 0, some 0⟩]⟩ : State Int) 0
      = some (⟨[none], [some 2, none],
          [some ⟨some 0, some 0⟩, none, some ⟨some 0, some 0⟩], [⟨some 0, some 0⟩]⟩, 2) ∧
     write_star (⟨[none], [some 2, none],
          [some ⟨some 0, some 0⟩, none, some ⟨some 0, some 0⟩], [⟨some 0, some 0⟩]⟩ :
          State Int) 2 20 = none ∧
     write_star (⟨[none], [some 2, none],
          [some ⟨some 0, some 0⟩, none, some ⟨some 0, some 0⟩], [⟨some 0, some 0⟩]⟩ :
          State Int) 0 20 = none) := by
  refine ⟨⟨reachable_counter_max 7, rfl, rfl⟩, ⟨rfl, rfl, rfl, rfl⟩⟩

/-- C5 (amended): in a reachable state, copy-constructing from a handle with
a null payload slot gives an empty handle and changes nothing else; from a
handle with payload p, counter cell c and count k it gives a handle with the
same two members, the cell c reads k+1 in `int` arithmetic (so both report
k+1 when k is less than 2147483647, and -2147483648 when k is 2147483647),
no other counter cell, no payload cell and no other handle changes, and when
the payload is still allocated a value written through either is read
through the other. -/
theorem copy_ctor_spec (s : State T) (rhs : Nat) (r : smart_ptr) (hs : Reachable s)
    (hr : s.handle rhs = some r) :
    (r.ptr_ = none → copy_ctor s rhs =
      some (⟨s.objs, s.cnts, s.handles ++ [some ⟨none, none⟩], s.leaked⟩, s.handles.length)) ∧
    (∀ p c k, r = ⟨some p, some c⟩ → load s.cnts c = some k →
      ∃ s' d, copy_ctor s rhs = some (s', d) ∧ d ≠ rhs ∧
        s'.handle d = some ⟨some p, some c⟩ ∧ s'.handle rhs = some ⟨some p, some c⟩ ∧
        load s'.cnts c = some (wrap_int (k + 1)) ∧
        ref_count s' rhs = some (wrap_int (k + 1)) ∧
        ref_count s' d = some (wrap_int (k + 1)) ∧
        (k < 2147483647 → load s'.cnts c = some (k + 1) ∧
          ref_count s' rhs = some (k + 1) ∧ ref_count s' d = some (k + 1)) ∧
        (k = 2147483647 → ref_count s' rhs = some (-2147483648) ∧
          ref_count s' d = some (-2147483648)) ∧
        (∀ c', c' ≠ c → load s'.cnts c' = load s.cnts c') ∧ s'.objs = s.objs ∧
        (∀ g, g ≠ d → s'.handle g = s.handle g) ∧
        (∀ v0 v, load s.objs p = some v0 →
          (∃ s'', write_star s' d v = some (.ok (), s'') ∧ read_star s'' rhs = some (.ok v)) ∧
          (∃ s'', write_star s' rhs v = some (.ok (), s'') ∧ read_star s'' d = some (.ok v)))) := by
  have hlt : rhs < s.handles.length := load_lt hr
  have hrng := CellsInRange_of_reachable hs
  refine ⟨?_, ?_⟩
  · intro hp
    simp [copy_ctor, hr, copy_members, hp]
  · intro p c k ht hc
    subst ht
    have hcl := load_lt hc
    have hd : copy_ctor s rhs = some (⟨s.objs, s.cnts.set c (some (wrap_int (k + 1))),
        s.handles ++ [some ⟨some p, some c⟩], s.leaked⟩, s.handles.length) := by
      simp [copy_ctor, hr, copy_members, hc]
    have h1 : load (s.handles ++ [some (⟨some p, some c⟩ : smart_ptr)]) s.handles.length
        = some ⟨some p, some c⟩ := load_append_new _ _
    have h2 : load (s.handles ++ [some (⟨some p, some c⟩ : smart_ptr)]) rhs
        = some ⟨some p, some c⟩ := by
      rw [load_append_old _ _ hlt]; exact hr
    have h3 : load (s.cnts.set c (some (wrap_int (k + 1)))) c = some (wrap_int (k + 1)) :=
      load_set_self _ hcl
    have r1 : ref_count (⟨s.objs, s.cnts.set c (some (wrap_int (k + 1))),
        s.handles ++ [some ⟨some p, some c⟩], s.leaked⟩ : State T) rhs
        = some (wrap_int (k + 1)) := by
      simp only [ref_count, State.handle, h2, h3]
    have r2 : ref_count (⟨s.objs, s.cnts.set c (some (wrap_int (k + 1))),
        s.handles ++ [some ⟨some p, some c⟩], s.leaked⟩ : State T) s.handles.length
        = some (wrap_int (k + 1)) := by
      simp only [ref_count, State.handle, h1, h3]
    refine ⟨_, _, hd, Nat.ne_of_gt hlt, h1, h2, h3, r1, r2, ?_, ?_, ?_, rfl, ?_, ?_⟩
    · intro hk
      have hw : wrap_int (k + 1) = k + 1 :=
        wrap_int_eq (by have := (hrng c k hc).1; omega) (by omega)
      exact ⟨h3.trans (congrArg some hw), r1.trans (congrArg some hw),
        r2.trans (congrArg some hw)⟩
    · intro hk
      subst hk
      exact ⟨r1.trans (congrArg some wrap_int_max), r2.trans (congrArg some wrap_int_max)⟩
    · intro c' hc'; exact load_set_ne _ _ (Ne.symm hc')
    · intro g hg
      simp only [State.handle, load_append]
      rw [if_neg hg]
    · intro v0 v hv
      have hpl := load_lt hv
      refine ⟨⟨⟨s.objs.set p (some v), s.cnts.set c (some (wrap_int (k + 1))),
          s.handles ++ [some ⟨some p, some c⟩], s.leaked⟩, ?_, ?_⟩,
        ⟨⟨s.objs.set p (some v), s.cnts.set c (some (wrap_int (k + 1))),
          s.handles ++ [some ⟨some p, some c⟩], s.leaked⟩, ?_, ?_⟩⟩
      · simp only [write_star, operator_star, State.handle, h1, hv]
      · simp only [read_star, operator_star, State.handle, h2, load_set_self _ hpl]
      · simp only [write_star, operator_star, State.handle, h2, hv]
      · simp only [read_star, operator_star, State.handle, h1, load_set_self _ hpl]

/-- Witness of C5 (amended): copying the only handle of a fresh 7. -/
theorem copy_ctor_spec_witness :
    ∃ s' d, copy_ctor (⟨[some 7], [some 1], [some ⟨some 0, some 0⟩], []⟩ : State Int) 0
        = some (s', d) ∧ d ≠ 0 ∧
      s'.handle d = some ⟨some 0, some 0⟩ ∧ s'.handle 0 = some ⟨some 0, some 0⟩ ∧
      load s'.cnts 0 = some (wrap_int (1 + 1)) ∧
      ref_count s' 0 = some (wrap_int (1 + 1)) ∧ ref_count s' d = some (wrap_int (1 + 1)) ∧
      ((1 : Int) < 2147483647 → load s'.cnts 0 = some (1 + 1) ∧
        ref_count s' 0 = some (1 + 1) ∧ ref_count s' d = some (1 + 1)) ∧
      ((1 : Int) = 2147483647 → ref_count s' 0 = some (-2147483648) ∧
        ref_count s' d = some (-2147483648)) ∧
      (∀ c', c' ≠ 0 → load s'.cnts c' = load [some (1 : Int)] c') ∧ s'.objs = [some 7] ∧
      (∀ g, g ≠ d → s'.handle g =
        (⟨[some 7], [some 1], [some ⟨some 0, some 0⟩], []⟩ : State Int).handle g) ∧
      (∀ v0 v, load [some (7 : Int)] 0 = some v0 →
        (∃ s'', write_star s' d v = some (.ok (), s'') ∧ read_star s'' 0 = some (.ok v)) ∧
        (∃ s'', write_star s' 0 v = some (.ok (), s'') ∧ read_star s'' d = some (.ok v))) :=
  (copy_ctor_spec (⟨[some 7], [some 1], [some ⟨some 0, some 0⟩], []⟩ : State Int) 0
    ⟨some 0, some 0⟩ ⟨[.new_obj 7, .ctor_lref (some 0) true], rfl⟩ rfl).2 0 0 1 rfl rfl

/-! ## Adoption -/

/-- C6: when `new int(1)` succeeds, each adopting constructor applied to an
allocated object p with value v returns a handle with count 1 whose
`operator*` refers to p, through which v is read; `smart_ptr(T*&)` leaves the
caller's pointer equal to p and `smart_ptr(T*&&)` leaves it null. -/
theorem adopt_spec (s : State T) (p : Nat) (v : T) (hp : load s.objs p = some v) :
    (∃ h, (ctor_lref s (some p) true).result = .ok h ∧
      ref_count (ctor_lref s (some p) true).state h = some 1 ∧
      operator_star (ctor_lref s (some p) true).state h = some (.ok p) ∧
      read_star (ctor_lref s (some p) true).state h = some (.ok v) ∧
      (ctor_lref s (some p) true).raw_ptr = some p) ∧
    (∃ a h, ctor_rref s (some p) true = some a ∧ a.result = .ok h ∧
      ref_count a.state h = some 1 ∧
      operator_star a.state h = some (.ok p) ∧
      read_star a.state h = some (.ok v) ∧
      a.raw_ptr = none) := by
  have h1 : load (s.handles ++ [some (⟨some p, some s.cnts.length⟩ : smart_ptr)])
      s.handles.length = some ⟨some p, some s.cnts.length⟩ := load_append_new _ _
  have h2 : load (s.cnts ++ [some (1 : Int)]) s.cnts.length = some 1 := load_append_new _ _
  refine ⟨⟨s.handles.length, rfl, ?_, ?_, ?_, rfl⟩, ⟨_, s.handles.length, rfl, rfl, ?_, ?_, ?_, rfl⟩⟩
  all_goals simp [ctor_lref, ref_count, operator_star, read_star, State.handle, h1, h2, hp]

/-- Witness of C6: adopting a fresh object with value 10. -/
theorem adopt_spec_witness :
    (∃ h, (ctor_lref (new_obj (State.init Int) 10).1 (some 0) true).result = .ok h ∧
      ref_count (ctor_lref (new_obj (State.init Int) 10).1 (some 0) true).state h = some 1 ∧
      operator_star (ctor_lref (new_obj (State.init Int) 10).1 (some 0) true).state h
        = some (.ok 0) ∧
      read_star (ctor_lref (new_obj (State.init Int) 10).1 (some 0) true).state h
        = some (.ok 10) ∧
      (ctor_lref (new_obj (State.init Int) 10).1 (some 0) true).raw_ptr = some 0) ∧
    (∃ a h, ctor_rref (new_obj (State.init Int) 10).1 (some 0) true = some a ∧
      a.result = .ok h ∧ ref_count a.state h = some 1 ∧
      operator_star a.state h = some (.ok 0) ∧
      read_star a.state h = some (.ok 10) ∧
      a.raw_ptr = none) :=
  adopt_spec (new_obj (State.init Int) 10).1 0 10 rfl

/-! ## Move construction -/

/-- C7 (counterexample): a handle that adopted a null pointer has count 1
(a counter is allocated) but a null payload slot; the handle move-constructed
from it has both members null and count 0, not 1. -/
theorem move_ctor_null_adoption_drops_count :
    ref_count (ctor_lref (State.init Int) none true).state 0 = some 1 ∧
    move_ctor (ctor_lref (State.init Int) none true).state 0
      = some (⟨[], [some 1], [some ⟨none, none⟩, some ⟨none, none⟩], []⟩, 1) ∧
    ref_count (⟨[], [some 1], [some ⟨none, none⟩, some ⟨none, none⟩], []⟩ : State Int) 1
      = some 0 := by
  refine ⟨rfl, rfl, rfl⟩

/-- C7 (amended): move-constructing d from a source with members r modifies
no counter cell and no payload cell and leaves the source with both members
null (count 0, `operator*` and `operator->` throw); when the payload slot of
r is not null d has the members r and reports the count the source reported;
when it is null d has both members null and count 0. -/
theorem move_ctor_spec (s : State T) (rhs : Nat) (r : smart_ptr)
    (hr : s.handle rhs = some r) :
    ∃ s' d, move_ctor s rhs = some (s', d) ∧ d ≠ rhs ∧
      s'.cnts = s.cnts ∧ s'.objs = s.objs ∧
      s'.handle rhs = some ⟨none, none⟩ ∧ ref_count s' rhs = some 0 ∧
      operator_star s' rhs = some (.error .null_ptr_exception) ∧
      operator_arrow s' rhs = some (.error .null_ptr_exception) ∧
      (r.ptr_ ≠ none → s'.handle d = some r ∧ ref_count s' d = ref_count s rhs) ∧
      (r.ptr_ = none → s'.handle d = some ⟨none, none⟩ ∧ ref_count s' d = some 0) := by
  have hlt : rhs < s.handles.length := load_lt hr
  have hne : s.handles.length ≠ rhs := Nat.ne_of_gt hlt
  obtain ⟨rp, rc⟩ := r
  have h2 : ∀ t : smart_ptr, load ((s.handles.set rhs (some ⟨none, none⟩)) ++ [some t]) rhs
      = some ⟨none, none⟩ := by
    intro t
    rw [load_append_old _ _ (by simpa using hlt)]
    exact load_set_self _ hlt
  have h1 : ∀ t : smart_ptr,
      load ((s.handles.set rhs (some ⟨none, none⟩)) ++ [some t]) s.handles.length = some t := by
    intro t
    have := load_append_new (s.handles.set rhs (some ⟨none, none⟩)) (some t)
    simpa using this
  cases rp with
  | none =>
    refine ⟨⟨s.objs, s.cnts, (s.handles.set rhs (some ⟨none, none⟩)) ++ [some ⟨none, none⟩],
      s.leaked⟩, s.handles.length, ?_, hne, rfl, rfl, h2 _, ?_, ?_, ?_, ?_, ?_⟩
    · simp [move_ctor, hr]
    · simp only [ref_count, State.handle, h2]
    · simp only [operator_star, State.handle, h2]
    · simp [operator_arrow, State.handle, h2]
    · intro h; exact absurd rfl h
    · intro _; exact ⟨h1 _, by simp only [ref_count, State.handle, h1]⟩
  | some p =>
    refine ⟨⟨s.objs, s.cnts, (s.handles.set rhs (some ⟨none, none⟩)) ++ [some ⟨some p, rc⟩],
      s.leaked⟩, s.handles.length, ?_, hne, rfl, rfl, h2 _, ?_, ?_, ?_, ?_, ?_⟩
    · simp [move_ctor, hr]
    · simp only [ref_count, State.handle, h2]
    · simp only [operator_star, State.handle, h2]
    · simp [operator_arrow, State.handle, h2]
    · intro _
      refine ⟨h1 _, ?_⟩
      have hr' : load s.handles rhs = some ⟨some p, rc⟩ := hr
      simp only [ref_count, State.handle, h1, hr']
    · intro h; cases h

/-- Witness of C7 (amended): moving from one of two handles that share an
object with count 2. -/
theorem move_ctor_spec_witness :
    ∃ s' d, move_ctor (⟨[some 7], [some 2], [some ⟨some 0, some 0⟩, some ⟨some 0, some 0⟩],
        []⟩ : State Int) 1 = some (s', d) ∧ d ≠ 1 ∧
      s'.cnts = [some 2] ∧ s'.objs = [some 7] ∧
      s'.handle 1 = some ⟨none, none⟩ ∧ ref_count s' 1 = some 0 ∧
      operator_star s' 1 = some (.error .null_ptr_exception) ∧
      operator_arrow s' 1 = some (.error .null_ptr_exception) ∧
      ((⟨some 0, some 0⟩ : smart_ptr).ptr_ ≠ none → s'.handle d = some ⟨some 0, some 0⟩ ∧
        ref_count s' d = ref_count (⟨[some 7], [some 2],
          [some ⟨some 0, some 0⟩, some ⟨some 0, some 0⟩], []⟩ : State Int) 1) ∧
      ((⟨some 0, some 0⟩ : smart_ptr).ptr_ = none → s'.handle d = some ⟨none, none⟩ ∧
        ref_count s' d = some 0) :=
  move_ctor_spec (⟨[some 7], [some 2], [some ⟨some 0, some 0⟩, some ⟨some 0, some 0⟩], []⟩ :
    State Int) 1 ⟨some 0, some 0⟩ rfl

/-! ## Copy assignment onto the same payload -/

/-- C9: copy-assigning between two handles (possibly the same handle) whose
payload slots are equal, both null included, returns the state unchanged, so
no member, counter cell or payload cell changes and nothing is deallocated;
assigning a second time gives the same result as assigning once. -/
theorem copy_assign_same_payload (s : State T) (h g : Nat) (th tg : smart_ptr)
    (hh : s.handle h = some th) (hg : s.handle g = some tg) (heq : th.ptr_ = tg.ptr_) :
    copy_assign s h g = some s ∧
    (copy_assign s h g).bind (fun s1 => copy_assign s1 h g) = copy_assign s h g := by
  have h1 : copy_assign s h g = some s := by
    simp [copy_assign, hh, hg, heq]
  refine ⟨h1, ?_⟩
  rw [h1]
  simp [h1]

/-- Witness of C9: alias assignment between two handles sharing an object,
and self-assignment of one of them. -/
theorem copy_assign_same_payload_witness :
    (copy_assign (⟨[some 7], [some 2], [some ⟨some 0, some 0⟩, some ⟨some 0, some 0⟩], []⟩ :
        State Int) 0 1
      = some ⟨[some 7], [some 2], [some ⟨some 0, some 0⟩, some ⟨some 0, some 0⟩], []⟩) ∧
    (copy_assign (⟨[some 7], [some 2], [some ⟨some 0, some 0⟩, some ⟨some 0, some 0⟩], []⟩ :
        State Int) 0 0
      = some ⟨[some 7], [some 2], [some ⟨some 0, some 0⟩, some ⟨some 0, some 0⟩], []⟩) :=
  ⟨(copy_assign_same_payload (⟨[some 7], [some 2],
      [some ⟨some 0, some 0⟩, some ⟨some 0, some 0⟩], []⟩ : State Int) 0 1
      ⟨some 0, some 0⟩ ⟨some 0, some 0⟩ rfl rfl rfl).1,
   (copy_assign_same_payload (⟨[some 7], [some 2],
      [some ⟨some 0, some 0⟩, some ⟨some 0, some 0⟩], []⟩ : State Int) 0 0
      ⟨some 0, some 0⟩ ⟨some 0, some 0⟩ rfl rfl rfl).1⟩

/-! ## Move assignment -/

/-- C10 (counterexample): a handle that is the only holder of an object
(count 1) is move-assigned to itself; rhs was not empty, yet afterwards the
handle has both members null and reports 0 instead of holding the former
members of rhs and reporting 1. -/
theorem self_move_assign_empties :
    run (State.init Int) [.new_obj 7, .ctor_lref (some 0) true]
      = some ⟨[some 7], [some 1], [some ⟨some 0, some 0⟩], []⟩ ∧
    ref_count (⟨[some 7], [some 1], [some ⟨some 0, some 0⟩], []⟩ : State Int) 0 = some 1 ∧
    move_assign (⟨[some 7], [some 1], [some ⟨some 0, some 0⟩], []⟩ : State Int) 0 0
      = some ⟨[some 7], [some 1], [some ⟨none, none⟩], []⟩ ∧
    ref_count (⟨[some 7], [some 1], [some ⟨none, none⟩], []⟩ : State Int) 0 = some 0 := by
  refine ⟨rfl, rfl, rfl, rfl⟩

/-- C10 (amended): for two distinct handles, after `lhs = move(rhs)` the
handle rhs has both members null; lhs has both members null when the payload
slot of rhs was null and otherwise has the former members of rhs and reports
the count rhs reported; no counter cell and no payload cell is modified, so
the counter of the payload lhs held before is not decremented and nothing is
deallocated; no other handle changes. -/
theorem move_assign_spec (s : State T) (lhs rhs : Nat) (l r : smart_ptr)
    (hl : s.handle lhs = some l) (hr : s.handle rhs = some r) (hne : lhs ≠ rhs) :
    ∃ s', move_assign s lhs rhs = some s' ∧
      s'.handle rhs = some ⟨none, none⟩ ∧
      (r.ptr_ = none → s'.handle lhs = some ⟨none, none⟩) ∧
      (r.ptr_ ≠ none → s'.handle lhs = some r ∧ ref_count s' lhs = ref_count s rhs) ∧
      s'.cnts = s.cnts ∧ s'.objs = s.objs ∧
      (∀ g, g ≠ lhs → g ≠ rhs → s'.handle g = s.handle g) := by
  have hllt : lhs < s.handles.length := load_lt hl
  have hrlt : rhs < s.handles.length := load_lt hr
  obtain ⟨rp, rc⟩ := r
  have h2 : ∀ t : smart_ptr,
      load ((s.handles.set lhs (some t)).set rhs (some ⟨none, none⟩)) rhs
        = some ⟨none, none⟩ := by
    intro t; exact load_set_self _ (by simpa using hrlt)
  have h1 : ∀ t : smart_ptr,
      load ((s.handles.set lhs (some t)).set rhs (some ⟨none, none⟩)) lhs = some t := by
    intro t
    rw [load_set_ne _ _ (Ne.symm hne)]
    exact load_set_self _ hllt
  have h3 : ∀ (t : smart_ptr) (g : Nat), g ≠ lhs → g ≠ rhs →
      load ((s.handles.set lhs (some t)).set rhs (some ⟨none, none⟩)) g = load s.handles g := by
    intro t g g1 g2
    rw [load_set_ne _ _ (Ne.symm g2), load_set_ne _ _ (Ne.symm g1)]
  cases rp with
  | none =>
    refine ⟨⟨s.objs, s.cnts, (s.handles.set lhs (some ⟨none, none⟩)).set rhs (some ⟨none, none⟩),
      s.leaked⟩, ?_, h2 _, ?_, ?_, rfl, rfl, h3 _⟩
    · simp [move_assign, hl, hr]
    · intro _; exact h1 _
    · intro h; exact absurd rfl h
  | some p =>
    refine ⟨⟨s.objs, s.cnts, (s.handles.set lhs (some ⟨some p, rc⟩)).set rhs (some ⟨none, none⟩),
      s.leaked⟩, ?_, h2 _, ?_, ?_, rfl, rfl, h3 _⟩
    · simp [move_assign, hl, hr]
    · intro h; cases h
    · intro _
      refine ⟨h1 _, ?_⟩
      have hr' : load s.handles rhs = some ⟨some p, rc⟩ := hr
      simp only [ref_count, State.handle, h1, hr']

/-- Witness of C10 (amended): lhs is one of two holders of an object (count 2), rhs is
the only holder of another; afterwards the first counter still reads 2. -/
theorem move_assign_spec_witness :
    ∃ s', move_assign (⟨[some 7, some 8], [some 2, some 1],
        [some ⟨some 0, some 0⟩, some ⟨some 0, some 0⟩, some ⟨some 1, some 1⟩], []⟩ : State Int)
        1 2 = some s' ∧
      s'.handle 2 = some ⟨none, none⟩ ∧
      ((⟨some 1, some 1⟩ : smart_ptr).ptr_ = none → s'.handle 1 = some ⟨none, none⟩) ∧
      ((⟨some 1, some 1⟩ : smart_ptr).ptr_ ≠ none → s'.handle 1 = some ⟨some 1, some 1⟩ ∧
        ref_count s' 1 = ref_count (⟨[some 7, some 8], [some 2, some 1],
          [some ⟨some 0, some 0⟩, some ⟨some 0, some 0⟩, some ⟨some 1, some 1⟩], []⟩ :
          State Int) 2) ∧
      s'.cnts = [some 2, some 1] ∧ s'.objs = [some 7, some 8] ∧
      (∀ g, g ≠ 1 → g ≠ 2 → s'.handle g = (⟨[some 7, some 8], [some 2, some 1],
          [some ⟨some 0, some 0⟩, some ⟨some 0, some 0⟩, some ⟨some 1, some 1⟩], []⟩ :
          State Int).handle g) :=
  move_assign_spec (⟨[some 7, some 8], [some 2, some 1],
    [some ⟨some 0, some 0⟩, some ⟨some 0, some 0⟩, some ⟨some 1, some 1⟩], []⟩ : State Int)
    1 2 ⟨some 0, some 0⟩ ⟨some 1, some 1⟩ rfl rfl (by decide)

/-! ## The invariant kept by every program -/

theorem WF_init : WF (State.init T) := by
  constructor <;> intro i t <;> simp [State.init, State.handle, load]

/-- Changing one slot of the handle table keeps the invariant when the new
handle, if any, has a counter whenever it has a payload, and its counter is
allocated, reads 1 if the payload is null, and is shared only with handles of
the same, non-null, payload. -/
theorem WF.update {s : State T} (w : WF s) (hs' : List (Option smart_ptr)) (i : Nat)
    (x : Option smart_ptr) (objs' : List (Option T)) (leaked' : List smart_ptr)
    (hoth : ∀ g, g ≠ i → load hs' g = load s.handles g)
    (hi : load hs' i = x)
    (hx : ∀ t, x = some t → (t.ptr_ ≠ none → t.ref_ ≠ none) ∧
      ∀ c, t.ref_ = some c → c < s.cnts.length ∧ (t.ptr_ = none → load s.cnts c = some 1) ∧
        ∀ j tj, j ≠ i → s.handle j = some tj → tj.ref_ = some c →
          (tj.ptr_ = t.ptr_ ∧ t.ptr_ ≠ none)) :
    WF (⟨objs', s.cnts, hs', leaked'⟩ : State T) := by
  constructor
  · intro g t hg
    by_cases hgi : g = i
    · subst hgi
      exact (hx t (hi.symm.trans hg)).1
    · exact w.has_counter g t ((hoth g hgi).symm.trans hg)
  · intro g1 g2 t1 t2 c h1 h2 hc1 hc2
    by_cases e1 : g1 = i <;> by_cases e2 : g2 = i
    · subst e1; subst e2
      have : t1 = t2 := Option.some.inj (h1.symm.trans h2)
      subst this
      exact ⟨rfl, fun _ => rfl⟩
    · subst e1
      have hx1 := ((hx t1 (hi.symm.trans h1)).2 c hc1).2.2 g2 t2 e2
        ((hoth g2 e2).symm.trans h2) hc2
      exact ⟨hx1.1.symm, fun h => absurd h hx1.2⟩
    · subst e2
      have hx2 := ((hx t2 (hi.symm.trans h2)).2 c hc2).2.2 g1 t1 e1
        ((hoth g1 e1).symm.trans h1) hc1
      exact ⟨hx2.1, fun h => absurd (hx2.1 ▸ h) hx2.2⟩
    · exact w.same_counter g1 g2 t1 t2 c ((hoth g1 e1).symm.trans h1)
        ((hoth g2 e2).symm.trans h2) hc1 hc2
  · intro g t c hg hc
    by_cases hgi : g = i
    · subst hgi
      exact ((hx t (hi.symm.trans hg)).2 c hc).1
    · exact w.counter_bound g t c ((hoth g hgi).symm.trans hg) hc
  · intro g t c hg hp hc
    by_cases hgi : g = i
    · subst hgi
      exact ((hx t (hi.symm.trans hg)).2 c hc).2.1 hp
    · exact w.null_count g t c ((hoth g hgi).symm.trans hg) hp hc

/-- Writing or releasing a counter cell keeps the invariant when every
holder of the cell has a payload. -/
theorem WF.cnts_set {s : State T} (w : WF s) (c : Nat) (v : Option Int)
    (objs' : List (Option T)) (leaked' : List smart_ptr)
    (hc : ∀ i t, s.handle i = some t → t.ref_ = some c → t.ptr_ ≠ none) :
    WF (⟨objs', s.cnts.set c v, s.handles, leaked'⟩ : State T) := by
  constructor
  · exact w.has_counter
  · exact w.same_counter
  · intro g t c' hg hc'
    simpa using w.counter_bound g t c' hg hc'
  · intro g t c' hg hp hc'
    have hne : c ≠ c' := by
      rintro rfl
      exact hc g t hg hc' hp
    show load (s.cnts.set c v) c' = some 1
    rw [load_set_ne _ _ hne]
    exact w.null_count g t c' hg hp hc'

/-- Allocating a counter cell keeps the invariant. -/
theorem WF.cnts_append {s : State T} (w : WF s) (v : Option Int)
    (objs' : List (Option T)) (leaked' : List smart_ptr) :
    WF (⟨objs', s.cnts ++ [v], s.handles, leaked'⟩ : State T) := by
  constructor
  · exact w.has_counter
  · exact w.same_counter
  · intro g t c' hg hc'
    have := w.counter_bound g t c' hg hc'
    simp; omega
  · intro g t c' hg hp hc'
    show load (s.cnts ++ [v]) c' = some 1
    rw [load_append_old _ _ (w.counter_bound g t c' hg hc')]
    exact w.null_count g t c' hg hp hc'

/-- Changing payload cells or the list of abandoned handles keeps the
invariant. -/
theorem WF.frame {s : State T} (w : WF s) (objs' : List (Option T))
    (leaked' : List smart_ptr) : WF (⟨objs', s.cnts, s.handles, leaked'⟩ : State T) :=
  ⟨w.has_counter, w.same_counter, w.counter_bound, w.null_count⟩

/-- Every holder of the counter of a handle with a payload has a payload. -/
theorem WF.holder_has_payload {s : State T} (w : WF s) {j : Nat} {p c : Nat} {rc : Option Nat}
    (hj : s.handle j = some ⟨some p, rc⟩) (hrc : rc = some c) :
    ∀ i t, s.handle i = some t → t.ref_ = some c → t.ptr_ = some p := by
  intro i t hi hc
  exact (w.same_counter i j t ⟨some p, rc⟩ c hi hj hc hrc).1

theorem load_append_ne {α : Type} (m : List (Option α)) (x : Option α) :
    ∀ g, g ≠ m.length → load (m ++ [x]) g = load m g := by
  intro g hg; simp [load_append, hg]

theorem load_set_other {α : Type} (m : List (Option α)) (i : Nat) (x : Option α) :
    ∀ g, g ≠ i → load (m.set i x) g = load m g := by
  intro g hg; exact load_set_ne _ _ (Ne.symm hg)

/-- Conditions of `WF.update` for a handle with both members null. -/
theorem WF.empty_ok {s : State T} (i : Nat) :
    ∀ t, some (⟨none, none⟩ : smart_ptr) = some t → (t.ptr_ ≠ none → t.ref_ ≠ none) ∧
      ∀ c, t.ref_ = some c → c < s.cnts.length ∧ (t.ptr_ = none → load s.cnts c = some 1) ∧
        ∀ j tj, j ≠ i → s.handle j = some tj → tj.ref_ = some c →
          (tj.ptr_ = t.ptr_ ∧ t.ptr_ ≠ none) := by
  intro t ht
  cases ht
  exact ⟨fun h => absurd rfl h, fun c hc => by cases hc⟩

/-- Conditions of `WF.update` for the end of a lifetime. -/
theorem WF.dead_ok {s : State T} (i : Nat) :
    ∀ t, (none : Option smart_ptr) = some t → (t.ptr_ ≠ none → t.ref_ ≠ none) ∧
      ∀ c, t.ref_ = some c → c < s.cnts.length ∧ (t.ptr_ = none → load s.cnts c = some 1) ∧
        ∀ j tj, j ≠ i → s.handle j = some tj → tj.ref_ = some c →
          (tj.ptr_ = t.ptr_ ∧ t.ptr_ ≠ none) := by
  intro t ht
  cases ht

/-- Conditions of `WF.update` for the members of a living handle `j` that
has a payload. -/
theorem WF.copy_ok {s : State T} (w : WF s) (i : Nat) {j p : Nat} {rc : Option Nat}
    (hj : s.handle j = some ⟨some p, rc⟩) :
    ∀ t, some (⟨some p, rc⟩ : smart_ptr) = some t → (t.ptr_ ≠ none → t.ref_ ≠ none) ∧
      ∀ c, t.ref_ = some c → c < s.cnts.length ∧ (t.ptr_ = none → load s.cnts c = some 1) ∧
        ∀ j tj, j ≠ i → s.handle j = some tj → tj.ref_ = some c →
          (tj.ptr_ = t.ptr_ ∧ t.ptr_ ≠ none) := by
  intro t ht
  cases ht
  refine ⟨fun _ => w.has_counter j _ hj (by simp), fun c hc => ⟨?_, ?_, ?_⟩⟩
  · exact w.counter_bound j _ c hj hc
  · intro h; cases h
  · intro g tg _ hg hgc
    exact ⟨w.holder_has_payload hj hc g tg hg hgc, by simp⟩

/-- Conditions of `WF.update` for a handle whose counter is the cell just
allocated with value 1. -/
theorem WF.fresh_ok {s : State T} (w : WF s) (i : Nat) (raw : Option Nat)
    (objs' : List (Option T)) (leaked' : List smart_ptr) :
    ∀ t, some (⟨raw, some s.cnts.length⟩ : smart_ptr) = some t →
      (t.ptr_ ≠ none → t.ref_ ≠ none) ∧
      ∀ c, t.ref_ = some c →
        c < (⟨objs', s.cnts ++ [some 1], s.handles, leaked'⟩ : State T).cnts.length ∧
        (t.ptr_ = none →
          load (⟨objs', s.cnts ++ [some 1], s.handles, leaked'⟩ : State T).cnts c = some 1) ∧
        ∀ j tj, j ≠ i →
          (⟨objs', s.cnts ++ [some 1], s.handles, leaked'⟩ : State T).handle j = some tj →
          tj.ref_ = some c → (tj.ptr_ = t.ptr_ ∧ t.ptr_ ≠ none) := by
  intro t ht
  cases ht
  refine ⟨fun _ => by simp, fun c hc => ?_⟩
  cases hc
  refine ⟨by simp, fun _ => load_append_new _ _, ?_⟩
  intro j tj _ hj hjc
  exact absurd (w.counter_bound j tj _ hj hjc) (lt_irrefl _)

theorem WF_new_obj {s : State T} (w : WF s) (v : T) : WF (new_obj s v).1 :=
  w.frame _ _

theorem WF_default_ctor {s : State T} (w : WF s) : WF (default_ctor s).1 :=
  w.update _ s.handles.length (some ⟨none, none⟩) _ _ (load_append_ne _ _)
    (load_append_new _ _) (WF.empty_ok _)

theorem WF_adopt {s : State T} (w : WF s) (raw : Option Nat) :
    WF (⟨s.objs, s.cnts ++ [some 1], s.handles ++ [some ⟨raw, some s.cnts.length⟩],
      s.leaked⟩ : State T) :=
  (w.cnts_append (some 1) s.objs s.leaked).update _ s.handles.length
    (some ⟨raw, some s.cnts.length⟩) _ _ (load_append_ne _ _) (load_append_new _ _)
    (w.fresh_ok _ raw _ _)

theorem WF_ctor_lref {s : State T} (w : WF s) (raw : Option Nat) (ok : Bool) :
    WF (ctor_lref s raw ok).state := by
  cases ok
  · exact w
  · exact WF_adopt w raw

theorem WF_ctor_rref {s : State T} (w : WF s) (raw : Option Nat) (ok : Bool) (a : Adopted T)
    (h : ctor_rref s raw ok = some a) : WF a.state := by
  cases ok
  · simp only [ctor_rref, Bool.false_eq_true, if_false] at h
    split at h
    · cases h
    · cases h
      exact w.frame _ _
  · simp only [ctor_rref, if_true] at h
    cases h
    exact WF_adopt w raw

theorem WF_copy_ctor {s : State T} (w : WF s) (rhs : Nat) (x : State T × Nat)
    (h : copy_ctor s rhs = some x) : WF x.1 := by
  unfold copy_ctor at h
  split at h
  · cases h
  · next r hr =>
    obtain ⟨rp, rc⟩ := r
    unfold copy_members at h
    cases rp with
    | none =>
      simp only at h
      cases h
      exact w.update _ s.handles.length (some ⟨none, none⟩) _ _ (load_append_ne _ _)
        (load_append_new _ _) (WF.empty_ok _)
    | some p =>
      cases rc with
      | none => simp at h
      | some c =>
        cases hk : load s.cnts c with
        | none => simp [hk] at h
        | some k =>
          simp only [hk] at h
          cases h
          have w1 := w.cnts_set c (some (wrap_int (k + 1))) s.objs s.leaked
            (fun i t hi hc => by rw [w.holder_has_payload hr rfl i t hi hc]; simp)
          exact w1.update _ s.handles.length (some ⟨some p, some c⟩) _ _ (load_append_ne _ _)
            (load_append_new _ _) (w1.copy_ok _ hr)

theorem WF_move_ctor {s : State T} (w : WF s) (rhs : Nat) (x : State T × Nat)
    (h : move_ctor s rhs = some x) : WF x.1 := by
  unfold move_ctor at h
  split at h
  · cases h
  · next r hr =>
    have hlt : rhs < s.handles.length := load_lt hr
    cases h
    obtain ⟨rp, rc⟩ := r
    have key : ∀ t : smart_ptr,
        WF (⟨s.objs, s.cnts, s.handles ++ [some t], s.leaked⟩ : State T) →
        WF (⟨s.objs, s.cnts, (s.handles.set rhs (some ⟨none, none⟩)) ++ [some t], s.leaked⟩ :
          State T) := by
      intro t w1
      refine w1.update _ rhs (some ⟨none, none⟩) _ _ ?_ ?_ (WF.empty_ok _)
      · intro g hg
        simp only [load_append, List.length_set]
        split
        · rfl
        · exact load_set_ne _ _ (Ne.symm hg)
      · rw [load_append_old _ _ (by simpa using hlt)]
        exact load_set_self _ hlt
    cases rp with
    | none =>
      exact key _ (w.update _ s.handles.length (some ⟨none, none⟩) _ _ (load_append_ne _ _)
        (load_append_new _ _) (WF.empty_ok _))
    | some p =>
      exact key _ (w.update _ s.handles.length (some ⟨some p, rc⟩) _ _ (load_append_ne _ _)
        (load_append_new _ _) (w.copy_ok _ hr))

theorem WF_move_assign {s : State T} (w : WF s) (lhs rhs : Nat) (s' : State T)
    (h : move_assign s lhs rhs = some s') : WF s' := by
  unfold move_assign at h
  split at h
  · next l r hl hr =>
    cases h
    obtain ⟨rp, rc⟩ := r
    have key : ∀ t : smart_ptr,
        WF (⟨s.objs, s.cnts, s.handles.set lhs (some t), s.leaked⟩ : State T) →
        WF (⟨s.objs, s.cnts, (s.handles.set lhs (some t)).set rhs (some ⟨none, none⟩),
          s.leaked⟩ : State T) := by
      intro t w1
      refine w1.update _ rhs (some ⟨none, none⟩) _ _ (load_set_other _ _ _) ?_ (WF.empty_ok _)
      exact load_set_self _ (by simpa using load_lt hr)
    cases rp with
    | none =>
      exact key _ (w.update _ lhs (some ⟨none, none⟩) _ _ (load_set_other _ _ _)
        (load_set_self _ (load_lt hl)) (WF.empty_ok _))
    | some p =>
      exact key _ (w.update _ lhs (some ⟨some p, rc⟩) _ _ (load_set_other _ _ _)
        (load_set_self _ (load_lt hl)) (w.copy_ok _ hr))
  · cases h

theorem WF_copy_assign {s : State T} (w : WF s) (lhs rhs : Nat) (s' : State T)
    (h : copy_assign s lhs rhs = some s') : WF s' := by
  unfold copy_assign at h
  split at h
  · next l r hl hr =>
    split at h
    · cases h; exact w
    · -- the detach step
      have hdec : ∀ cnts1, (match l.ptr_ with
          | none => some s.cnts
          | some _ =>
            match l.ref_ with
            | none => none
            | some c =>
              match load s.cnts c with
              | none => none
              | some k => some (s.cnts.set c (some (wrap_int (k - 1))))) = some cnts1 →
          WF (⟨s.objs, cnts1, s.handles, s.leaked⟩ : State T) := by
        intro cnts1 hc
        obtain ⟨lp, lc⟩ := l
        cases lp with
        | none => simp only at hc; cases hc; exact w
        | some p =>
          cases lc with
          | none => simp at hc
          | some c =>
            cases hk : load s.cnts c with
            | none => simp [hk] at hc
            | some k =>
              simp only [hk] at hc
              cases hc
              exact w.cnts_set c _ _ _
                (fun i t hi hc => by rw [w.holder_has_payload hl rfl i t hi hc]; simp)
      simp only at h
      split at h
      · cases h
      · next cnts1 hc1 =>
        have w1 := hdec cnts1 hc1
        have hr1 : (⟨s.objs, cnts1, s.handles, s.leaked⟩ : State T).handle rhs = some r := hr
        obtain ⟨rp, rc⟩ := r
        cases rp with
        | none =>
          simp only at h
          cases h
          exact w1.update _ lhs (some ⟨none, none⟩) _ _ (load_set_other _ _ _)
            (load_set_self _ (load_lt hl)) (WF.empty_ok _)
        | some p =>
          cases rc with
          | none => simp at h
          | some c =>
            cases hk : load cnts1 c with
            | none => simp [hk] at h
            | some k =>
              simp only [hk] at h
              cases h
              have w2 := w1.cnts_set c (some (wrap_int (k + 1))) s.objs s.leaked
                (fun i t hi hc => by rw [w1.holder_has_payload hr1 rfl i t hi hc]; simp)
              exact w2.update _ lhs (some ⟨some p, some c⟩) _ _ (load_set_other _ _ _)
                (load_set_self _ (load_lt hl)) (w2.copy_ok _ hr1)
  · cases h

theorem WF_write_star {s : State T} (w : WF s) (h : Nat) (v : T) (x : Outcome Unit × State T)
    (hx : write_star s h v = some x) : WF x.2 := by
  unfold write_star at hx
  split at hx
  · cases hx
  · cases hx; exact w
  · split at hx
    · cases hx
    · cases hx; exact w.frame _ _

theorem WF_clone {s : State T} (w : WF s) (h : Nat) (a1 a2 : Bool) (x : Outcome Bool × State T)
    (hx : clone s h a1 a2 = some x) : WF x.2 := by
  unfold clone at hx
  split at hx
  · cases hx
  · next t ht =>
    obtain ⟨tp, tc⟩ := t
    cases tp with
    | none => simp only at hx; cases hx; exact w
    | some p =>
      cases tc with
      | none => simp at hx
      | some c =>
        cases hk : load s.cnts c with
        | none => simp [hk] at hx
        | some k =>
          have hcl := load_lt hk
          have hc1 : load (s.cnts.set c (some (wrap_int (k + 1)))) c = some (wrap_int (k + 1)) := load_set_self _ hcl
          simp only [hk, copy_members, hc1] at hx
          split at hx
          · cases hx; exact w
          · split at hx
            · cases hx; exact w
            · have hp : ∀ i t, s.handle i = some t → t.ref_ = some c → t.ptr_ ≠ none :=
                fun i t hi hc => by rw [w.holder_has_payload ht rfl i t hi hc]; simp
              have w1 := w.cnts_set c (some (wrap_int (k + 1))) s.objs s.leaked hp
              have w2 := w1.cnts_set c (some (wrap_int (wrap_int (k + 1) - 2))) s.objs (s.leaked ++ [⟨some p, some c⟩]) hp
              have hlen : ((s.cnts.set c (some (wrap_int (k + 1)))).set c (some (wrap_int (wrap_int (k + 1) - 2)))).length
                  = s.cnts.length := by simp
              split at hx
              · cases hx
                exact w2.update _ h (some ⟨some p, some c⟩) _ _ (load_set_other _ _ _)
                  (load_set_self _ (load_lt ht)) (w2.copy_ok _ ht)
              · cases hx
                exact (w2.cnts_append (some 1) s.objs (s.leaked ++ [⟨some p, some c⟩])).update
                  _ h (some ⟨some p, some _⟩) _ _ (load_set_other _ _ _)
                  (load_set_self _ (load_lt ht))
                  (w2.fresh_ok h (some p) s.objs (s.leaked ++ [⟨some p, some c⟩]))

theorem WF_dtor {s : State T} (w : WF s) (h : Nat) (s' : State T)
    (hx : dtor s h = some s') : WF s' := by
  unfold dtor at hx
  split at hx
  · cases hx
  · next t ht =>
    have hlt := load_lt ht
    have wd : ∀ objs', WF (⟨objs', s.cnts, s.handles.set h none, s.leaked⟩ : State T) :=
      fun objs' => w.update _ h none _ _ (load_set_other _ _ _) (load_set_self _ hlt)
        (WF.dead_ok _)
    obtain ⟨tp, tc⟩ := t
    split at hx
    · -- a member is null
      unfold free at hx
      cases tc with
      | none =>
        simp only at hx
        split at hx
        · cases hx
        · cases hx; exact wd _
      | some c =>
        cases tp with
        | some p => simp_all
        | none =>
          cases hk : load s.cnts c with
          | none => simp [hk] at hx
          | some k =>
            simp only [hk] at hx
            cases hx
            refine (wd s.objs).cnts_set c none _ _ ?_
            intro i t hi hc
            by_cases hih : i = h
            · subst hih
              have : load (s.handles.set i none) i = some t := hi
              rw [load_set_self _ hlt] at this
              cases this
            · have hi' : s.handle i = some t := by
                have : load (s.handles.set h none) i = some t := hi
                rwa [load_set_ne _ _ (Ne.symm hih)] at this
              have := (w.same_counter h i _ t c ht hi' rfl hc).2 rfl
              exact absurd this.symm hih
    · cases tc with
      | none => simp_all
      | some c =>
        cases tp with
        | none => simp_all
        | some p =>
          have hp : ∀ i t, (⟨s.objs, s.cnts, s.handles.set h none, s.leaked⟩ : State T).handle i
              = some t → t.ref_ = some c → t.ptr_ ≠ none := by
            intro i t hi hc
            by_cases hih : i = h
            · subst hih
              have : load (s.handles.set i none) i = some t := hi
              rw [load_set_self _ hlt] at this
              cases this
            · have hi' : s.handle i = some t := by
                have : load (s.handles.set h none) i = some t := hi
                rwa [load_set_ne _ _ (Ne.symm hih)] at this
              rw [w.holder_has_payload ht rfl i t hi' hc]; simp
          cases hk : load s.cnts c with
          | none => simp [hk] at hx
          | some k =>
            simp only [hk, free] at hx
            split at hx
            · cases hx
              exact (wd s.objs).cnts_set c _ _ _ hp
            · split at hx
              · cases hx
              · cases hx
                exact (wd s.objs).cnts_set c _ _ _ hp

/-- Every call keeps the invariant. -/
theorem WF_exec {s s' : State T} (w : WF s) (o : Op T) (h : exec s o = some s') : WF s' := by
  cases o with
  | new_obj v => cases h; exact WF_new_obj w v
  | default_ctor => cases h; exact WF_default_ctor w
  | ctor_lref raw ok => cases h; exact WF_ctor_lref w raw ok
  | ctor_rref raw ok =>
    simp only [exec, Option.map_eq_some'] at h
    obtain ⟨a, ha, rfl⟩ := h
    exact WF_ctor_rref w raw ok a ha
  | copy_ctor rhs =>
    simp only [exec, Option.map_eq_some'] at h
    obtain ⟨a, ha, rfl⟩ := h
    exact WF_copy_ctor w rhs a ha
  | move_ctor rhs =>
    simp only [exec, Option.map_eq_some'] at h
    obtain ⟨a, ha, rfl⟩ := h
    exact WF_move_ctor w rhs a ha
  | copy_assign lhs rhs => exact WF_copy_assign w lhs rhs s' h
  | move_assign lhs rhs => exact WF_move_assign w lhs rhs s' h
  | clone g a1 a2 =>
    simp only [exec, Option.map_eq_some'] at h
    obtain ⟨a, ha, rfl⟩ := h
    exact WF_clone w g a1 a2 a ha
  | write_star g v =>
    simp only [exec, Option.map_eq_some'] at h
    obtain ⟨a, ha, rfl⟩ := h
    exact WF_write_star w g v a ha
  | dtor g => exact WF_dtor w g s' h

theorem WF_run {s s' : State T} (w : WF s) (ops : List (Op T)) (h : run s ops = some s') :
    WF s' := by
  induction ops generalizing s with
  | nil => cases h; exact w
  | cons o os ih =>
    simp only [run] at h
    split at h
    · cases h
    · next s1 h1 => exact ih (WF_exec w o h1) h

/-- Every reachable state satisfies the invariant. -/
theorem WF_of_reachable {s : State T} (h : Reachable s) : WF s := by
  obtain ⟨ops, hops⟩ := h
  exact WF_run WF_init ops hops

/-! ## Clone on a shared handle -/

/-- C8 (counterexample): on the reachable state where the counter of rhs
reads 2147483647, copy-assigning it to an empty lhs leaves both handles
reporting -2147483648, not the former count plus one.  And after A adopts a
fresh 10, B is a copy of A, a clone of B fails on its second allocation, A is
destroyed and C is default-constructed, the handles C and B have different
payload members, the counter of B is deallocated, and `C = B` reads it: the
call is undefined. -/
theorem copy_assign_at_largest_count_or_freed_counter :
    (Reachable (owner_and_two_empty (7 : Int) 2147483647) ∧
     ref_count (owner_and_two_empty (7 : Int) 2147483647) 0 = some 2147483647 ∧
     (copy_assign (owner_and_two_empty (7 : Int) 2147483647) 1 0).map
        (fun x => (x.handle 1, ref_count x 1, ref_count x 0))
      = some (some ⟨some 0, some 0⟩, some (-2147483648), some (-2147483648))) ∧
    (run (State.init Int) [.new_obj 10, .ctor_lref (some 0) true, .copy_ctor 0,
        .clone 1 true false, .dtor 0, .default_ctor]
      = some ⟨[none], [none], [none, some ⟨some 0, some 0⟩, some ⟨none, none⟩],
          [⟨some 0, some 0⟩]⟩ ∧
     copy_assign (⟨[none], [none], [none, some ⟨some 0, some 0⟩, some ⟨none, none⟩],
          [⟨some 0, some 0⟩]⟩ : State Int) 2 1 = none) := by
  refine ⟨⟨reachable_counter_max 7, rfl, rfl⟩, ⟨rfl, rfl⟩⟩

/-- C8 (amended): in a reachable state, for living handles lhs and rhs whose
payload members differ, copy-assigning `lhs = rhs` is undefined when the
counter of a non-empty lhs or of a non-empty rhs is deallocated.  When those
counters are readable, with values kl and kr, it leaves every payload cell
alone, releases no counter cell, makes the counter of a non-empty lhs read
kl-1 in `int` arithmetic (exactly kl-1, 0 included, unless kl is
-2147483648), changes no counter cell other than that one and the one of a
non-empty rhs, and leaves lhs with both members null when the payload of rhs
is null, and otherwise with the members of rhs, both handles then reporting
kr+1 in `int` arithmetic (exactly kr+1 when kr is less than 2147483647). -/
theorem copy_assign_spec (s : State T) (lhs rhs : Nat) (l r : smart_ptr)
    (hs : Reachable s) (hl : s.handle lhs = some l) (hr : s.handle rhs = some r)
    (hne : l.ptr_ ≠ r.ptr_) :
    ((l.ptr_ ≠ none ∧ ref_count s lhs = none) ∨ (r.ptr_ ≠ none ∧ ref_count s rhs = none) →
      copy_assign s lhs rhs = none) ∧
    (∀ kl kr : Int, (l.ptr_ ≠ none → ref_count s lhs = some kl) →
      (r.ptr_ ≠ none → ref_count s rhs = some kr) →
      ∃ s', copy_assign s lhs rhs = some s' ∧ s'.objs = s.objs ∧
        (∀ c, (load s.cnts c).isSome → (load s'.cnts c).isSome) ∧
        (∀ cl, l.ptr_ ≠ none → l.ref_ = some cl →
          load s'.cnts cl = some (wrap_int (kl - 1)) ∧
          (-2147483648 < kl → load s'.cnts cl = some (kl - 1))) ∧
        (∀ c, (l.ptr_ = none ∨ l.ref_ ≠ some c) → (r.ptr_ = none ∨ r.ref_ ≠ some c) →
          load s'.cnts c = load s.cnts c) ∧
        (∀ g, g ≠ lhs → s'.handle g = s.handle g) ∧
        (r.ptr_ = none → s'.handle lhs = some ⟨none, none⟩) ∧
        (r.ptr_ ≠ none → s'.handle lhs = some r ∧ s'.handle rhs = some r ∧
          ref_count s' lhs = some (wrap_int (kr + 1)) ∧
          ref_count s' rhs = some (wrap_int (kr + 1)) ∧
          (kr < 2147483647 →
            ref_count s' lhs = some (kr + 1) ∧ ref_count s' rhs = some (kr + 1)))) := by
  have w := WF_of_reachable hs
  have hrng := CellsInRange_of_reachable hs
  have hllt := load_lt hl
  have hlr : lhs ≠ rhs := by
    rintro rfl
    rw [hl] at hr
    cases hr
    exact hne rfl
  have hoth : ∀ (x : Option smart_ptr) (g : Nat), g ≠ lhs →
      load (s.handles.set lhs x) g = load s.handles g :=
    fun x g hg => load_set_ne _ _ (Ne.symm hg)
  obtain ⟨lp, lc⟩ := l
  obtain ⟨rp, rc⟩ := r
  refine ⟨?_, ?_⟩
  · intro hu
    have hpp : ¬ lp = rp := hne
    cases lp with
    | none =>
      rcases hu with hu | hu
      · exact absurd rfl hu.1
      · cases rp with
        | none => exact absurd rfl hu.1
        | some p =>
          cases rc with
          | none => exact absurd rfl (w.has_counter rhs _ hr (by simp))
          | some c =>
            have hk : load s.cnts c = none := by
              simpa [ref_count, hr] using hu.2
            simp [copy_assign, hl, hr, hk]
    | some pl =>
      cases lc with
      | none => exact absurd rfl (w.has_counter lhs _ hl (by simp))
      | some cl =>
        cases hkl : load s.cnts cl with
        | none => simp [copy_assign, hl, hr, hkl, hpp]
        | some kl =>
          rcases hu with hu | hu
          · have : load s.cnts cl = none := by
              simpa [ref_count, hl] using hu.2
            rw [hkl] at this
            cases this
          · cases rp with
            | none => exact absurd rfl hu.1
            | some p =>
              cases rc with
              | none => exact absurd rfl (w.has_counter rhs _ hr (by simp))
              | some c =>
                have hk : load s.cnts c = none := by
                  simpa [ref_count, hr] using hu.2
                have hcc : cl ≠ c := by
                  rintro rfl
                  rw [hkl] at hk
                  cases hk
                have d2 : load (s.cnts.set cl (some (wrap_int (kl - 1)))) c = none := by
                  rw [load_set_ne _ _ hcc]; exact hk
                simp [copy_assign, hl, hr, hkl, hpp, d2]
  · intro kl kr hkl hkr
    cases lp with
    | none =>
      cases rp with
      | none => exact absurd rfl hne
      | some p =>
        cases rc with
        | none => exact absurd rfl (w.has_counter rhs _ hr (by simp))
        | some c =>
          have hk : load s.cnts c = some kr := by
            have := hkr (by simp)
            simpa [ref_count, hr] using this
          have hcl := load_lt hk
          have e1 : load (s.handles.set lhs (some (⟨some p, some c⟩ : smart_ptr))) lhs
              = some ⟨some p, some c⟩ := load_set_self _ hllt
          have e2 : load (s.handles.set lhs (some (⟨some p, some c⟩ : smart_ptr))) rhs
              = some ⟨some p, some c⟩ := by rw [hoth _ _ (Ne.symm hlr)]; exact hr
          have e3 : load (s.cnts.set c (some (wrap_int (kr + 1)))) c
              = some (wrap_int (kr + 1)) := load_set_self _ hcl
          have r1 : ref_count (⟨s.objs, s.cnts.set c (some (wrap_int (kr + 1))),
              s.handles.set lhs (some ⟨some p, some c⟩), s.leaked⟩ : State T) lhs
              = some (wrap_int (kr + 1)) := by
            simp only [ref_count, State.handle, e1, e3]
          have r2 : ref_count (⟨s.objs, s.cnts.set c (some (wrap_int (kr + 1))),
              s.handles.set lhs (some ⟨some p, some c⟩), s.leaked⟩ : State T) rhs
              = some (wrap_int (kr + 1)) := by
            simp only [ref_count, State.handle, e2, e3]
          refine ⟨⟨s.objs, s.cnts.set c (some (wrap_int (kr + 1))),
            s.handles.set lhs (some ⟨some p, some c⟩), s.leaked⟩,
            ?_, rfl, ?_, ?_, ?_, ?_, ?_, ?_⟩
          · simp [copy_assign, hl, hr, hk]
          · intro c' hc'
            show (load (s.cnts.set c (some (wrap_int (kr + 1)))) c').isSome = true
            rw [load_set]; split
            · rfl
            · exact hc'
          · intro cl h; exact absurd rfl h
          · intro c' _ h2
            rcases h2 with h2 | h2
            · cases h2
            · exact load_set_ne _ _ (fun e => h2 (by rw [e]))
          · exact hoth _
          · intro h; cases h
          · intro _
            refine ⟨e1, e2, r1, r2, ?_⟩
            intro hb
            have hw : wrap_int (kr + 1) = kr + 1 :=
              wrap_int_eq (by have := (hrng c kr hk).1; omega) (by omega)
            exact ⟨r1.trans (congrArg some hw), r2.trans (congrArg some hw)⟩
    | some pl =>
      cases lc with
      | none => exact absurd rfl (w.has_counter lhs _ hl (by simp))
      | some cl =>
        have hkl' : load s.cnts cl = some kl := by
          have := hkl (by simp)
          simpa [ref_count, hl] using this
        have hcll := load_lt hkl'
        have d1 : load (s.cnts.set cl (some (wrap_int (kl - 1)))) cl
            = some (wrap_int (kl - 1)) := load_set_self _ hcll
        have hwl : -2147483648 < kl → wrap_int (kl - 1) = kl - 1 :=
          fun hb => wrap_int_eq (by omega) (by have := (hrng cl kl hkl').2; omega)
        cases rp with
        | none =>
          refine ⟨⟨s.objs, s.cnts.set cl (some (wrap_int (kl - 1))),
            s.handles.set lhs (some ⟨none, none⟩), s.leaked⟩, ?_, rfl, ?_, ?_, ?_, ?_, ?_, ?_⟩
          · simp [copy_assign, hl, hr, hkl']
          · intro c' hc'
            show (load (s.cnts.set cl (some (wrap_int (kl - 1)))) c').isSome = true
            rw [load_set]; split
            · rfl
            · exact hc'
          · intro c _ hc; cases hc
            exact ⟨d1, fun hb => d1.trans (congrArg some (hwl hb))⟩
          · intro c' h1 _
            rcases h1 with h1 | h1
            · cases h1
            · exact load_set_ne _ _ (fun e => h1 (by rw [e]))
          · exact hoth _
          · intro _; exact load_set_self _ hllt
          · intro h; exact absurd rfl h
        | some p =>
          cases rc with
          | none => exact absurd rfl (w.has_counter rhs _ hr (by simp))
          | some c =>
            have hk : load s.cnts c = some kr := by
              have := hkr (by simp)
              simpa [ref_count, hr] using this
            have hcl := load_lt hk
            have hcc : cl ≠ c := by
              rintro rfl
              have := (w.same_counter lhs rhs _ _ cl hl hr rfl rfl).1
              exact hne this
            have d2 : load (s.cnts.set cl (some (wrap_int (kl - 1)))) c = some kr := by
              rw [load_set_ne _ _ hcc]; exact hk
            have e1 : load (s.handles.set lhs (some (⟨some p, some c⟩ : smart_ptr))) lhs
                = some ⟨some p, some c⟩ := load_set_self _ hllt
            have e2 : load (s.handles.set lhs (some (⟨some p, some c⟩ : smart_ptr))) rhs
                = some ⟨some p, some c⟩ := by rw [hoth _ _ (Ne.symm hlr)]; exact hr
            have e3 : load ((s.cnts.set cl (some (wrap_int (kl - 1)))).set c
                (some (wrap_int (kr + 1)))) c
                = some (wrap_int (kr + 1)) := load_set_self _ (by simpa using hcl)
            have r1 : ref_count (⟨s.objs, (s.cnts.set cl (some (wrap_int (kl - 1)))).set c
                (some (wrap_int (kr + 1))),
                s.handles.set lhs (some ⟨some p, some c⟩), s.leaked⟩ : State T) lhs
                = some (wrap_int (kr + 1)) := by
              simp only [ref_count, State.handle, e1, e3]
            have r2 : ref_count (⟨s.objs, (s.cnts.set cl (some (wrap_int (kl - 1)))).set c
                (some (wrap_int (kr + 1))),
                s.handles.set lhs (some ⟨some p, some c⟩), s.leaked⟩ : State T) rhs
                = some (wrap_int (kr + 1)) := by
              simp only [ref_count, State.handle, e2, e3]
            refine ⟨⟨s.objs, (s.cnts.set cl (some (wrap_int (kl - 1)))).set c
              (some (wrap_int (kr + 1))),
              s.handles.set lhs (some ⟨some p, some c⟩), s.leaked⟩,
              ?_, rfl, ?_, ?_, ?_, ?_, ?_, ?_⟩
            · have hpp : pl ≠ p := fun e => hne (by rw [e])
              simp [copy_assign, hl, hr, hkl', d2, hpp]
            · intro c' hc'
              show (load ((s.cnts.set cl (some (wrap_int (kl - 1)))).set c
                (some (wrap_int (kr + 1)))) c').isSome = true
              rw [load_set]; split
              · rfl
              · rw [load_set]; split
                · rfl
                · exact hc'
            · intro c0 _ hc0
              cases hc0
              have d3 : load ((s.cnts.set cl (some (wrap_int (kl - 1)))).set c
                  (some (wrap_int (kr + 1)))) cl = some (wrap_int (kl - 1)) := by
                rw [load_set_ne _ _ (Ne.symm hcc)]; exact d1
              exact ⟨d3, fun hb => d3.trans (congrArg some (hwl hb))⟩
            · intro c' h1 h2
              rcases h1 with h1 | h1
              · cases h1
              · rcases h2 with h2 | h2
                · cases h2
                · show load ((s.cnts.set cl (some (wrap_int (kl - 1)))).set c
                    (some (wrap_int (kr + 1)))) c' = _
                  rw [load_set_ne _ _ (fun e => h2 (by rw [e])),
                    load_set_ne _ _ (fun e => h1 (by rw [e]))]
            · exact hoth _
            · intro h; cases h
            · intro _
              refine ⟨e1, e2, r1, r2, ?_⟩
              intro hb
              have hw : wrap_int (kr + 1) = kr + 1 :=
                wrap_int_eq (by have := (hrng c kr hk).1; omega) (by omega)
              exact ⟨r1.trans (congrArg some hw), r2.trans (congrArg some hw)⟩

/-- Witness of C8 (amended): two handles, each the only holder of its
object; the counter of lhs drops to 0 and stays allocated. -/
theorem copy_assign_spec_witness :
    ∃ s', copy_assign (⟨[some 1, some 2], [some 1, some 1],
        [some ⟨some 0, some 0⟩, some ⟨some 1, some 1⟩], []⟩ : State Int) 0 1 = some s' ∧
      s'.objs = [some 1, some 2] ∧
      (∀ c, (load [some (1 : Int), some 1] c).isSome → (load s'.cnts c).isSome) ∧
      (∀ cl, (⟨some 0, some 0⟩ : smart_ptr).ptr_ ≠ none →
        (⟨some 0, some 0⟩ : smart_ptr).ref_ = some cl →
        load s'.cnts cl = some (wrap_int (1 - 1)) ∧
        ((-2147483648 : Int) < 1 → load s'.cnts cl = some (1 - 1))) ∧
      (∀ c, ((⟨some 0, some 0⟩ : smart_ptr).ptr_ = none ∨
          (⟨some 0, some 0⟩ : smart_ptr).ref_ ≠ some c) →
        ((⟨some 1, some 1⟩ : smart_ptr).ptr_ = none ∨
          (⟨some 1, some 1⟩ : smart_ptr).ref_ ≠ some c) →
        load s'.cnts c = load [some (1 : Int), some 1] c) ∧
      (∀ g, g ≠ 0 → s'.handle g = (⟨[some 1, some 2], [some 1, some 1],
        [some ⟨some 0, some 0⟩, some ⟨some 1, some 1⟩], []⟩ : State Int).handle g) ∧
      ((⟨some 1, some 1⟩ : smart_ptr).ptr_ = none → s'.handle 0 = some ⟨none, none⟩) ∧
      ((⟨some 1, some 1⟩ : smart_ptr).ptr_ ≠ none → s'.handle 0 = some ⟨some 1, some 1⟩ ∧
        s'.handle 1 = some ⟨some 1, some 1⟩ ∧
        ref_count s' 0 = some (wrap_int (1 + 1)) ∧ ref_count s' 1 = some (wrap_int (1 + 1)) ∧
        ((1 : Int) < 2147483647 →
          ref_count s' 0 = some (1 + 1) ∧ ref_count s' 1 = some (1 + 1))) :=
  (copy_assign_spec _ 0 1 ⟨some 0, some 0⟩ ⟨some 1, some 1⟩
    ⟨[.new_obj 1, .ctor_lref (some 0) true, .new_obj 2, .ctor_lref (some 1) true], rfl⟩
    rfl rfl (by decide)).2 1 1 (fun _ => rfl) (fun _ => rfl)

/-! ## Counting holders -/

theorem load_eq_getElem {α : Type} {m : List (Option α)} {i : Nat} (h : i < m.length) :
    load m i = m[i] := by
  unfold load
  rw [List.getElem?_eq_getElem h]
  cases hm : m[i] <;> rfl

theorem countP_append_one (P : Option smart_ptr → Bool) (hs : List (Option smart_ptr))
    (x : Option smart_ptr) :
    (hs ++ [x]).countP P = hs.countP P + (P x).toNat := by
  rw [List.countP_append]
  cases h : P x <;> simp [List.countP_cons, h]

theorem countP_set_load (P : Option smart_ptr → Bool) (hs : List (Option smart_ptr)) (i : Nat)
    (x : Option smart_ptr) (h : i < hs.length) :
    (hs.set i x).countP P + (P (load hs i)).toNat = hs.countP P + (P x).toNat := by
  rw [List.countP_set P hs i x h, load_eq_getElem h]
  have hb := List.boole_getElem_le_countP P hs i h
  by_cases h1 : P hs[i] = true
  · by_cases h2 : P x = true
    · simp only [h1, h2, if_true, Bool.toNat_true] at hb ⊢; omega
    · simp only [Bool.not_eq_true] at h2
      simp only [h1, h2, if_true, Bool.toNat_true, Bool.toNat_false, Bool.false_eq_true,
        if_false] at hb ⊢
      omega
  · simp only [Bool.not_eq_true] at h1
    by_cases h2 : P x = true
    · simp only [h1, h2, if_true, Bool.toNat_true, Bool.toNat_false, Bool.false_eq_true,
        if_false] at hb ⊢
      omega
    · simp only [Bool.not_eq_true] at h2
      simp only [h1, h2, Bool.toNat_false, Bool.false_eq_true, if_false] at hb ⊢
      omega

theorem countP_pos_of_load (P : Option smart_ptr → Bool) (hs : List (Option smart_ptr)) (i : Nat)
    (t : smart_ptr) (h : load hs i = some t) (hp : P (some t) = true) : 0 < hs.countP P := by
  have hlt := load_lt h
  rw [load_eq_getElem hlt] at h
  rw [List.countP_pos_iff]
  exact ⟨some t, h ▸ List.getElem_mem hlt, hp⟩

theorem countP_eq_zero_of (P : Option smart_ptr → Bool) (hs : List (Option smart_ptr))
    (hn : P none = false) (h : ∀ i t, load hs i = some t → P (some t) = false) :
    hs.countP P = 0 := by
  rw [List.countP_eq_zero]
  intro x hx
  obtain ⟨i, hi, rfl⟩ := List.getElem_of_mem hx
  cases hxi : hs[i] with
  | none => simp [hn]
  | some t =>
    have := h i t (by rw [load_eq_getElem hi]; exact hxi)
    simp [this]

/-- A living holder is counted. -/
theorem counter_holders_pos {s : State T} {i : Nat} {t : smart_ptr} {c : Nat}
    (hi : s.handle i = some t) (hc : t.ref_ = some c) : 0 < counter_holders s c :=
  countP_pos_of_load _ _ i t hi (by simp [holds_counter, hc])

/-- A cell that was not allocated yet has no holder. -/
theorem WF.counter_holders_fresh {s : State T} (w : WF s) {c : Nat} (hc : s.cnts.length ≤ c) :
    counter_holders s c = 0 := by
  refine countP_eq_zero_of _ _ rfl ?_
  intro i t hi
  simp only [holds_counter, decide_eq_false_iff_not]
  intro h
  exact absurd (w.counter_bound i t c hi h) (by omega)

theorem Counted_init : Counted (State.init T) := by
  intro c; left; rfl

/-- The counter of a living handle reads at least 1 when no counter
undercounts. -/
theorem Counted.held_pos {s : State T} (w : Counted s) {i : Nat} {t : smart_ptr} {c : Nat}
    {k : Int} (hi : s.handle i = some t) (hc : t.ref_ = some c) (hk : load s.cnts c = some k) :
    1 ≤ k := by
  have hp := counter_holders_pos hi hc
  rcases w c with w0 | ⟨k', hk', hle⟩
  · omega
  · rw [hk] at hk'
    cases hk'
    omega

/-- Every allocated counter is less than 2147483647 when the check
`counters_below_max` passes. -/
theorem below_max_load {s : State T} (hb : counters_below_max s = true) {c : Nat} {k : Int}
    (hk : load s.cnts c = some k) : k < 2147483647 := by
  have hlt := load_lt hk
  rw [load_eq_getElem hlt] at hk
  unfold counters_below_max at hb
  rw [List.all_eq_true] at hb
  have := hb _ (List.getElem_mem hlt)
  rw [hk] at this
  simpa using this

/-- The counting invariant carries over when, cell by cell, the cell has no
holder afterwards, or it is allocated and covers its holders afterwards, or
it had a holder before and its content moved by at least as much as the
number of its holders. -/
theorem Counted.step {s s' : State T} (w : Counted s)
    (h : ∀ c, counter_holders s' c = 0 ∨
      (∃ k', load s'.cnts c = some k' ∧ (counter_holders s' c : Int) ≤ k') ∨
      (counter_holders s c ≠ 0 ∧ ∃ d : Int,
        (counter_holders s' c : Int) ≤ counter_holders s c + d ∧
        ∀ k, load s.cnts c = some k → load s'.cnts c = some (k + d))) :
    Counted s' := by
  intro c
  rcases h c with h0 | h1 | ⟨hne, d, hd, hk⟩
  · exact Or.inl h0
  · exact Or.inr h1
  · rcases w c with w0 | ⟨k, hkc, hle⟩
    · exact absurd w0 hne
    · exact Or.inr ⟨k + d, hk k hkc, by omega⟩

/-- The counting invariant carries over when no cell gains a holder and the
cells that still have one keep their content. -/
theorem Counted.mono {s s' : State T} (w : Counted s)
    (hh : ∀ c, counter_holders s' c ≤ counter_holders s c)
    (hc : ∀ c, counter_holders s' c ≠ 0 → load s'.cnts c = load s.cnts c) :
    Counted s' := by
  refine w.step (fun c => ?_)
  by_cases h0 : counter_holders s' c = 0
  · exact Or.inl h0
  · refine Or.inr (Or.inr ⟨?_, 0, ?_, ?_⟩)
    · have := hh c; omega
    · have := hh c; omega
    · intro k hk; rw [hc c h0, hk]; simp

theorem holders_append (s : State T) (x : Option smart_ptr) (c : Nat)
    (objs' : List (Option T)) (cnts' : List (Option Int)) (leaked' : List smart_ptr) :
    counter_holders (⟨objs', cnts', s.handles ++ [x], leaked'⟩ : State T) c
      = counter_holders s c + (holds_counter c x).toNat :=
  countP_append_one _ _ _

theorem holders_set (s : State T) (i : Nat) (x : Option smart_ptr) (c : Nat)
    (hi : i < s.handles.length)
    (objs' : List (Option T)) (cnts' : List (Option Int)) (leaked' : List smart_ptr) :
    counter_holders (⟨objs', cnts', s.handles.set i x, leaked'⟩ : State T) c
        + (holds_counter c (load s.handles i)).toNat
      = counter_holders s c + (holds_counter c x).toNat :=
  countP_set_load _ _ _ _ hi

theorem holds_counter_some (c p : Option Nat) (c0 : Nat) :
    holds_counter c0 (some ⟨p, c⟩) = decide (c = some c0) := rfl

theorem holds_counter_toNat_le (c : Nat) (x : Option smart_ptr) :
    (holds_counter c x).toNat ≤ 1 := by
  cases holds_counter c x <;> simp

/-- Case of `Counted.step` for a cell that gains no holder and keeps its
content. -/
theorem step_same {s s' : State T} {c : Nat}
    (hh : counter_holders s' c ≤ counter_holders s c)
    (hc : load s'.cnts c = load s.cnts c) :
    counter_holders s' c = 0 ∨
      (∃ k', load s'.cnts c = some k' ∧ (counter_holders s' c : Int) ≤ k') ∨
      (counter_holders s c ≠ 0 ∧ ∃ d : Int,
        (counter_holders s' c : Int) ≤ counter_holders s c + d ∧
        ∀ k, load s.cnts c = some k → load s'.cnts c = some (k + d)) := by
  by_cases h0 : counter_holders s' c = 0
  · exact Or.inl h0
  · refine Or.inr (Or.inr ⟨by omega, 0, by omega, ?_⟩)
    intro k hk; rw [hc, hk]; simp

/-- Case of `Counted.step` for a held cell whose content moves by `d`. -/
theorem step_shift {s s' : State T} {c : Nat} (d k : Int)
    (h0 : 0 < counter_holders s c)
    (hh : (counter_holders s' c : Int) ≤ counter_holders s c + d)
    (hk : load s.cnts c = some k) (hk' : load s'.cnts c = some (k + d)) :
    counter_holders s' c = 0 ∨
      (∃ k', load s'.cnts c = some k' ∧ (counter_holders s' c : Int) ≤ k') ∨
      (counter_holders s c ≠ 0 ∧ ∃ d : Int,
        (counter_holders s' c : Int) ≤ counter_holders s c + d ∧
        ∀ k, load s.cnts c = some k → load s'.cnts c = some (k + d)) := by
  refine Or.inr (Or.inr ⟨by omega, d, hh, ?_⟩)
  intro k1 hk1
  rw [hk] at hk1
  cases hk1
  exact hk'

theorem Counted.frame_cells {s : State T} (w : Counted s) (objs' : List (Option T))
    (leaked' : List smart_ptr) : Counted (⟨objs', s.cnts, s.handles, leaked'⟩ : State T) :=
  fun c => w c

theorem Counted_append_empty {s : State T} (w : Counted s) :
    Counted (⟨s.objs, s.cnts, s.handles ++ [some ⟨none, none⟩], s.leaked⟩ : State T) := by
  refine w.mono (fun c => ?_) (fun c _ => rfl)
  rw [holders_append]
  simp [holds_counter]

theorem Counted_adopt {s : State T} (wf : WF s) (w : Counted s) (raw : Option Nat) :
    Counted (⟨s.objs, s.cnts ++ [some 1], s.handles ++ [some ⟨raw, some s.cnts.length⟩],
      s.leaked⟩ : State T) := by
  refine w.step (fun c => ?_)
  have e := holders_append s (some ⟨raw, some s.cnts.length⟩) c s.objs (s.cnts ++ [some 1])
    s.leaked
  by_cases hc : c = s.cnts.length
  · subst hc
    refine Or.inr (Or.inl ⟨1, load_append_new _ _, ?_⟩)
    rw [e, wf.counter_holders_fresh (le_refl _)]
    simp [holds_counter]
  · refine step_same ?_ (load_append_ne _ _ c hc)
    rw [e]
    have : holds_counter c (some ⟨raw, some s.cnts.length⟩) = false := by
      simp [holds_counter, Ne.symm hc]
    simp [this]

theorem Counted_copy_ctor {s : State T} (w : Counted s) (hb : counters_below_max s = true)
    (rhs : Nat) (x : State T × Nat) (h : copy_ctor s rhs = some x) : Counted x.1 := by
  unfold copy_ctor at h
  split at h
  · cases h
  · next r hr =>
    obtain ⟨rp, rc⟩ := r
    unfold copy_members at h
    cases rp with
    | none =>
      simp only at h
      cases h
      exact Counted_append_empty w
    | some p =>
      cases rc with
      | none => simp at h
      | some c0 =>
        cases hk : load s.cnts c0 with
        | none => simp [hk] at h
        | some k =>
          have hw : wrap_int (k + 1) = k + 1 :=
            wrap_int_eq (by have := w.held_pos hr rfl hk; omega)
              (by have := below_max_load hb hk; omega)
          simp only [hk, hw] at h
          cases h
          refine w.step (fun c => ?_)
          have e := holders_append s (some ⟨some p, some c0⟩) c s.objs
            (s.cnts.set c0 (some (k + 1))) s.leaked
          by_cases hc : c = c0
          · subst hc
            refine step_shift 1 k (counter_holders_pos hr rfl) ?_ hk
              (load_set_self _ (load_lt hk))
            rw [e]; simp [holds_counter]
          · refine step_same ?_ (load_set_ne _ _ (Ne.symm hc))
            rw [e]
            have : holds_counter c (some ⟨some p, some c0⟩) = false := by
              simp [holds_counter, Ne.symm hc]
            simp [this]

theorem holds_counter_empty (c : Nat) :
    (holds_counter c (some ⟨none, none⟩)).toNat = 0 := rfl

theorem holds_counter_dead (c : Nat) : (holds_counter c none).toNat = 0 := rfl

theorem holds_counter_self (p : Option Nat) (c : Nat) :
    (holds_counter c (some ⟨p, some c⟩)).toNat = 1 := by
  simp [holds_counter]

theorem holds_counter_other (p : Option Nat) {c c0 : Nat} (h : c ≠ c0) :
    (holds_counter c (some ⟨p, some c0⟩)).toNat = 0 := by
  simp [holds_counter, Ne.symm h]

theorem Counted_move_ctor {s : State T} (w : Counted s) (rhs : Nat) (x : State T × Nat)
    (h : move_ctor s rhs = some x) : Counted x.1 := by
  unfold move_ctor at h
  split at h
  · cases h
  · next r hr =>
    have hlt : rhs < s.handles.length := load_lt hr
    cases h
    refine w.mono (fun c => ?_) (fun c _ => rfl)
    have hr' : load s.handles rhs = some r := hr
    have e1 := holders_set s rhs (some ⟨none, none⟩) c hlt s.objs s.cnts s.leaked
    rw [hr', holds_counter_empty] at e1
    obtain ⟨rp, rc⟩ := r
    cases rp with
    | none =>
      have e2 := holders_append (⟨s.objs, s.cnts, s.handles.set rhs (some ⟨none, none⟩),
        s.leaked⟩ : State T) (some ⟨none, none⟩) c s.objs s.cnts s.leaked
      rw [holds_counter_empty] at e2
      simp only at e2 ⊢
      omega
    | some p =>
      have e2 := holders_append (⟨s.objs, s.cnts, s.handles.set rhs (some ⟨none, none⟩),
        s.leaked⟩ : State T) (some ⟨some p, rc⟩) c s.objs s.cnts s.leaked
      simp only at e2 ⊢
      omega

theorem Counted_move_assign {s : State T} (w : Counted s) (lhs rhs : Nat) (s' : State T)
    (h : move_assign s lhs rhs = some s') : Counted s' := by
  unfold move_assign at h
  split at h
  · next l r hl hr =>
    cases h
    have hl' : load s.handles lhs = some l := hl
    have hr' : load s.handles rhs = some r := hr
    have hllt := load_lt hl
    have hrlt := load_lt hr
    refine w.mono (fun c => ?_) (fun c _ => rfl)
    have key : ∀ t : smart_ptr, (holds_counter c (some t)).toNat ≤ (holds_counter c (some r)).toNat →
        counter_holders (⟨s.objs, s.cnts, (s.handles.set lhs (some t)).set rhs
          (some ⟨none, none⟩), s.leaked⟩ : State T) c ≤ counter_holders s c := by
      intro t ht
      have e1 := holders_set s lhs (some t) c hllt s.objs s.cnts s.leaked
      have e2 := holders_set (⟨s.objs, s.cnts, s.handles.set lhs (some t), s.leaked⟩ : State T)
        rhs (some ⟨none, none⟩) c (by simpa using hrlt) s.objs s.cnts s.leaked
      rw [holds_counter_empty] at e2
      rw [hl'] at e1
      simp only at e2
      by_cases hlr : lhs = rhs
      · subst hlr
        rw [load_set_self _ hllt] at e2
        omega
      · rw [load_set_ne _ _ hlr, hr'] at e2
        omega
    obtain ⟨rp, rc⟩ := r
    cases rp with
    | none => exact key _ (by rw [holds_counter_empty]; omega)
    | some p => exact key _ (le_refl _)
  · cases h

theorem Counted_write_star {s : State T} (w : Counted s) (h : Nat) (v : T)
    (x : Outcome Unit × State T) (hx : write_star s h v = some x) : Counted x.2 := by
  unfold write_star at hx
  split at hx
  · cases hx
  · cases hx; exact w
  · split at hx
    · cases hx
    · cases hx; exact w.frame_cells _ _

theorem Counted_copy_assign {s : State T} (wf : WF s) (w : Counted s)
    (hb : counters_below_max s = true) (lhs rhs : Nat)
    (s' : State T) (h : copy_assign s lhs rhs = some s') : Counted s' := by
  unfold copy_assign at h
  split at h
  · next l r hl hr =>
    have hl' : load s.handles lhs = some l := hl
    have hllt := load_lt hl
    split at h
    · cases h; exact w
    · next hne =>
      obtain ⟨lp, lc⟩ := l
      obtain ⟨rp, rc⟩ := r
      cases lp with
      | none =>
        cases rp with
        | none => exact absurd rfl hne
        | some p =>
          cases rc with
          | none => simp at h
          | some c0 =>
            cases hk : load s.cnts c0 with
            | none => simp [hk] at h
            | some k =>
              have hw : wrap_int (k + 1) = k + 1 :=
                wrap_int_eq (by have := w.held_pos hr rfl hk; omega)
                  (by have := below_max_load hb hk; omega)
              simp only [hk, hw] at h
              cases h
              refine w.step (fun c => ?_)
              have e := holders_set s lhs (some ⟨some p, some c0⟩) c hllt s.objs
                (s.cnts.set c0 (some (k + 1))) s.leaked
              by_cases hc : c = c0
              · subst hc
                refine step_shift 1 k (counter_holders_pos hr rfl) ?_ hk
                  (load_set_self _ (load_lt hk))
                rw [holds_counter_self] at e
                omega
              · refine step_same ?_ (load_set_ne _ _ (Ne.symm hc))
                rw [holds_counter_other _ hc] at e
                omega
      | some pl =>
        cases lc with
        | none => simp at h
        | some cl =>
          cases hkl : load s.cnts cl with
          | none => simp [hkl] at h
          | some kl =>
            have hcll := load_lt hkl
            have hwl : wrap_int (kl - 1) = kl - 1 :=
              wrap_int_eq (by have := w.held_pos hl rfl hkl; omega)
                (by have := below_max_load hb hkl; omega)
            simp only [hkl, hwl] at h
            cases rp with
            | none =>
              simp only at h
              cases h
              refine w.step (fun c => ?_)
              have e := holders_set s lhs (some ⟨none, none⟩) c hllt s.objs
                (s.cnts.set cl (some (kl - 1))) s.leaked
              rw [hl', holds_counter_empty] at e
              by_cases hc : c = cl
              · subst hc
                refine step_shift (-1) kl (counter_holders_pos hl rfl) ?_ hkl
                  (load_set_self _ hcll)
                rw [holds_counter_self] at e
                omega
              · refine step_same ?_ (load_set_ne _ _ (Ne.symm hc))
                omega
            | some p =>
              cases rc with
              | none => simp at h
              | some c0 =>
                have hcc : cl ≠ c0 := by
                  rintro rfl
                  exact hne (wf.same_counter lhs rhs _ _ cl hl hr rfl rfl).1
                cases hk : load s.cnts c0 with
                | none => simp [load_set_ne _ _ hcc, hk] at h
                | some k =>
                  have hw : wrap_int (k + 1) = k + 1 :=
                    wrap_int_eq (by have := w.held_pos hr rfl hk; omega)
                      (by have := below_max_load hb hk; omega)
                  simp only [load_set_ne _ _ hcc, hk, hw] at h
                  cases h
                  refine w.step (fun c => ?_)
                  have e := holders_set s lhs (some ⟨some p, some c0⟩) c hllt s.objs
                    ((s.cnts.set cl (some (kl - 1))).set c0 (some (k + 1))) s.leaked
                  rw [hl'] at e
                  by_cases hc : c = c0
                  · subst hc
                    refine step_shift 1 k (counter_holders_pos hr rfl) ?_ hk
                      (load_set_self _ (by simpa using load_lt hk))
                    rw [holds_counter_self] at e
                    omega
                  · rw [holds_counter_other _ hc] at e
                    by_cases hc' : c = cl
                    · subst hc'
                      refine step_shift (-1) kl (counter_holders_pos hl rfl) ?_ hkl ?_
                      · rw [holds_counter_self] at e
                        omega
                      · show load ((s.cnts.set c (some (kl - 1))).set c0 (some (k + 1))) c = _
                        rw [load_set_ne _ _ (Ne.symm hc)]
                        exact load_set_self _ hcll
                    · refine step_same ?_ ?_
                      · omega
                      · show load ((s.cnts.set cl (some (kl - 1))).set c0 (some (k + 1))) c = _
                        rw [load_set_ne _ _ (Ne.symm hc), load_set_ne _ _ (Ne.symm hc')]
  · cases h

theorem Counted_clone {s : State T} (wf : WF s) (w : Counted s)
    (hb : counters_below_max s = true) (h : Nat) (a1 a2 : Bool)
    (ha : ¬ (a1 = true ∧ a2 = false))
    (x : Outcome Bool × State T) (hx : clone s h a1 a2 = some x) : Counted x.2 := by
  unfold clone at hx
  split at hx
  · cases hx
  · next t ht =>
    have ht' : load s.handles h = some t := ht
    obtain ⟨tp, tc⟩ := t
    cases tp with
    | none => simp only at hx; cases hx; exact w
    | some p =>
      cases tc with
      | none => simp at hx
      | some c0 =>
        cases hk : load s.cnts c0 with
        | none => simp [hk] at hx
        | some k =>
          have hcl := load_lt hk
          have hw : wrap_int (k + 1) = k + 1 :=
            wrap_int_eq (by have := w.held_pos ht rfl hk; omega)
              (by have := below_max_load hb hk; omega)
          have hw2 : wrap_int (k + 1 - 2) = k + 1 - 2 :=
            wrap_int_eq (by have := w.held_pos ht rfl hk; omega)
              (by have := below_max_load hb hk; omega)
          have hc1 : load (s.cnts.set c0 (some (k + 1))) c0 = some (k + 1) :=
            load_set_self _ hcl
          simp only [hk, copy_members, hw, hc1, hw2] at hx
          split at hx
          · cases hx; exact w
          · split at hx
            · cases hx; exact w
            · next hn1 =>
              split at hx
              · next hn2 =>
                exact absurd ⟨by simpa using hn1, hn2⟩ ha
              · cases hx
                have hlen : ((s.cnts.set c0 (some (k + 1))).set c0 (some (k + 1 - 2))).length
                    = s.cnts.length := by simp
                refine w.step (fun c => ?_)
                have e := holders_set s h (some ⟨some p, some s.cnts.length⟩) c (load_lt ht)
                  s.objs (((s.cnts.set c0 (some (k + 1))).set c0 (some (k + 1 - 2))) ++ [some 1])
                  (s.leaked ++ [⟨some p, some c0⟩])
                rw [ht'] at e
                simp only [hlen] at e ⊢
                by_cases hc : c = s.cnts.length
                · subst hc
                  refine Or.inr (Or.inl ⟨1, ?_, ?_⟩)
                  · rw [← hlen]; exact load_append_new _ _
                  · rw [holds_counter_self, wf.counter_holders_fresh (le_refl _)] at e
                    omega
                · rw [holds_counter_other _ hc] at e
                  have hload : ∀ c', c' ≠ s.cnts.length →
                      load (((s.cnts.set c0 (some (k + 1))).set c0 (some (k + 1 - 2)))
                        ++ [some 1]) c'
                      = load ((s.cnts.set c0 (some (k + 1))).set c0 (some (k + 1 - 2))) c' :=
                    fun c' hc' => load_append_ne _ _ c' (by rw [hlen]; exact hc')
                  by_cases hc' : c = c0
                  · subst hc'
                    refine step_shift (-1) k (counter_holders_pos ht rfl) ?_ hk ?_
                    · rw [holds_counter_self] at e
                      omega
                    · show load (((s.cnts.set c (some (k + 1))).set c (some (k + 1 - 2)))
                        ++ [some 1]) c = _
                      rw [hload c hc, load_set_self _ (by simpa using hcl)]
                      congr 1; omega
                  · refine step_same ?_ ?_
                    · rw [holds_counter_other _ hc'] at e
                      omega
                    · show load (((s.cnts.set c0 (some (k + 1))).set c0 (some (k + 1 - 2)))
                        ++ [some 1]) c = _
                      rw [hload c hc, load_set_ne _ _ (Ne.symm hc'),
                        load_set_ne _ _ (Ne.symm hc')]

theorem Counted_dtor {s : State T} (wf : WF s) (w : Counted s)
    (hb : counters_below_max s = true) (h : Nat) (s' : State T)
    (hx : dtor s h = some s') : Counted s' := by
  unfold dtor at hx
  split at hx
  · cases hx
  · next t ht =>
    have ht' : load s.handles h = some t := ht
    have hlt := load_lt ht
    have e : ∀ c objs' cnts', counter_holders (⟨objs', cnts', s.handles.set h none, s.leaked⟩ :
        State T) c + (holds_counter c (some t)).toNat = counter_holders s c := by
      intro c objs' cnts'
      have := holders_set s h none c hlt objs' cnts' s.leaked
      rw [ht', holds_counter_dead] at this
      exact this
    -- the last holder releases the cell
    have last : ∀ c0 objs', t.ref_ = some c0 → load s.cnts c0 = some 1 →
        Counted (⟨objs', s.cnts.set c0 none, s.handles.set h none, s.leaked⟩ : State T) := by
      intro c0 objs' htc hk
      refine w.step (fun c => ?_)
      have ec := e c objs' (s.cnts.set c0 none)
      by_cases hc : c = c0
      · subst hc
        left
        rcases w c with w0 | ⟨k, hk', hle⟩
        · omega
        · rw [hk] at hk'
          cases hk'
          obtain ⟨tp, tc⟩ := t
          cases htc
          rw [holds_counter_self] at ec
          omega
      · exact step_same (by omega) (load_set_ne _ _ (Ne.symm hc))
    obtain ⟨tp, tc⟩ := t
    split at hx
    · unfold free at hx
      cases tc with
      | none =>
        simp only at hx
        split at hx
        · cases hx
        · cases hx
          exact w.mono (fun c => Nat.le.intro (e c _ _)) (fun c _ => rfl)
      | some c0 =>
        cases tp with
        | some p => simp_all
        | none =>
          cases hk : load s.cnts c0 with
          | none => simp [hk] at hx
          | some k =>
            simp only [hk] at hx
            cases hx
            have h1 := wf.null_count h _ c0 ht rfl rfl
            exact last c0 _ rfl h1
    · cases tc with
      | none => simp_all
      | some c0 =>
        cases tp with
        | none => simp_all
        | some p =>
          cases hk : load s.cnts c0 with
          | none => simp [hk] at hx
          | some k =>
            have hw : wrap_int (k - 1) = k - 1 :=
              wrap_int_eq (by have := w.held_pos ht rfl hk; omega)
                (by have := below_max_load hb hk; omega)
            simp only [hk, free, hw] at hx
            split at hx
            · cases hx
              refine w.step (fun c => ?_)
              have ec := e c s.objs (s.cnts.set c0 (some (k - 1)))
              by_cases hc : c = c0
              · subst hc
                refine step_shift (-1) k (counter_holders_pos ht rfl) ?_ hk
                  (load_set_self _ (load_lt hk))
                rw [holds_counter_self] at ec
                omega
              · exact step_same (by omega) (load_set_ne _ _ (Ne.symm hc))
            · next hk1 =>
              have hk1' : k = 1 := by simpa using hk1
              subst hk1'
              split at hx
              · cases hx
              · cases hx
                exact last c0 _ rfl hk

/-- Every call other than a `clone` that fails at its second allocation
keeps the counting invariant, when it is made while every counter is less
than 2147483647. -/
theorem Counted_exec {s s' : State T} (wf : WF s) (w : Counted s)
    (hb : counters_below_max s = true) (o : Op T)
    (ho : o.counts_kept = true) (h : exec s o = some s') : Counted s' := by
  cases o with
  | new_obj v => cases h; exact w.frame_cells _ _
  | default_ctor => cases h; exact Counted_append_empty w
  | ctor_lref raw ok =>
    cases h
    cases ok
    · exact w
    · exact Counted_adopt wf w raw
  | ctor_rref raw ok =>
    simp only [exec, Option.map_eq_some'] at h
    obtain ⟨a, ha, rfl⟩ := h
    cases ok
    · simp only [ctor_rref, Bool.false_eq_true, if_false] at ha
      split at ha
      · cases ha
      · cases ha
        exact w.frame_cells _ _
    · simp only [ctor_rref, if_true] at ha
      cases ha
      exact Counted_adopt wf w raw
  | copy_ctor rhs =>
    simp only [exec, Option.map_eq_some'] at h
    obtain ⟨a, ha, rfl⟩ := h
    exact Counted_copy_ctor w hb rhs a ha
  | move_ctor rhs =>
    simp only [exec, Option.map_eq_some'] at h
    obtain ⟨a, ha, rfl⟩ := h
    exact Counted_move_ctor w rhs a ha
  | copy_assign lhs rhs => exact Counted_copy_assign wf w hb lhs rhs s' h
  | move_assign lhs rhs => exact Counted_move_assign w lhs rhs s' h
  | clone g a1 a2 =>
    simp only [exec, Option.map_eq_some'] at h
    obtain ⟨a, ha, rfl⟩ := h
    refine Counted_clone wf w hb g a1 a2 ?_ a ha
    rintro ⟨rfl, rfl⟩
    simp [Op.counts_kept] at ho
  | write_star g v =>
    simp only [exec, Option.map_eq_some'] at h
    obtain ⟨a, ha, rfl⟩ := h
    exact Counted_write_star w g v a ha
  | dtor g => exact Counted_dtor wf w hb g s' h

/-! ## One counter per payload, for programs that adopt unowned objects and do not clone -/

theorem Copies.refl (s : State T) (objs' : List (Option T)) (cnts' : List (Option Int))
    (leaked' : List smart_ptr) : Copies s (⟨objs', cnts', s.handles, leaked'⟩ : State T) :=
  fun g _ hg => Or.inr ⟨g, hg⟩

/-- Changing one slot to a dead handle, a handle with a null payload or the
members of a living handle keeps `Copies`. -/
theorem Copies.update_slot {s s1 : State T} (k : Copies s s1) (hs' : List (Option smart_ptr))
    (i : Nat) (x : Option smart_ptr) (objs' : List (Option T)) (cnts' : List (Option Int))
    (leaked' : List smart_ptr)
    (hoth : ∀ g, g ≠ i → load hs' g = load s1.handles g)
    (hi : load hs' i = x)
    (hx : ∀ t, x = some t → t.ptr_ = none ∨ ∃ j, s.handle j = some t) :
    Copies s (⟨objs', cnts', hs', leaked'⟩ : State T) := by
  intro g t' hg
  by_cases hgi : g = i
  · subst hgi
    exact hx t' (hi.symm.trans hg)
  · exact k g t' ((hoth g hgi).symm.trans hg)

theorem PayloadHasOneCounter.of_copies {s s' : State T} (k : PayloadHasOneCounter s)
    (c : Copies s s') : PayloadHasOneCounter s' := by
  intro i j ti tj p hi hj hpi hpj
  rcases c i ti hi with h | ⟨i', hi'⟩
  · rw [hpi] at h; cases h
  · rcases c j tj hj with h | ⟨j', hj'⟩
    · rw [hpj] at h; cases h
    · exact k i' j' ti tj p hi' hj' hpi hpj

theorem copies_empty {s : State T} :
    ∀ t, some (⟨none, none⟩ : smart_ptr) = some t → t.ptr_ = none ∨ ∃ j, s.handle j = some t := by
  intro t ht; cases ht; exact Or.inl rfl

theorem copies_dead {s : State T} :
    ∀ t, (none : Option smart_ptr) = some t → t.ptr_ = none ∨ ∃ j, s.handle j = some t := by
  intro t ht; cases ht

theorem copies_of {s : State T} {j : Nat} {r : smart_ptr} (hj : s.handle j = some r) :
    ∀ t, some r = some t → t.ptr_ = none ∨ ∃ j, s.handle j = some t := by
  intro t ht; cases ht; exact Or.inr ⟨j, hj⟩

theorem unowned_spec {s : State T} {p : Nat} (h : unowned s p = true) :
    ∀ j tj, s.handle j = some tj → tj.ptr_ ≠ some p := by
  intro j tj hj hp
  simp only [unowned, Bool.and_eq_true, List.all_eq_true] at h
  have hlt := load_lt hj
  have hj' : load s.handles j = some tj := hj
  rw [load_eq_getElem hlt] at hj'
  have := h.2 (some tj) (hj' ▸ List.getElem_mem hlt)
  simp [holds_payload, hp] at this

theorem PayloadHasOneCounter_adopt {s : State T} (k : PayloadHasOneCounter s) {p : Nat}
    (hp : unowned s p = true) (objs' : List (Option T)) (cnts' : List (Option Int))
    (c : Option Nat) :
    PayloadHasOneCounter (⟨objs', cnts', s.handles ++ [some ⟨some p, c⟩], s.leaked⟩ : State T) := by
  intro i j ti tj q hi hj hpi hpj
  have hi' : load (s.handles ++ [some (⟨some p, c⟩ : smart_ptr)]) i = some ti := hi
  have hj' : load (s.handles ++ [some (⟨some p, c⟩ : smart_ptr)]) j = some tj := hj
  rw [load_append] at hi' hj'
  split at hi' <;> split at hj'
  · cases hi'; cases hj'; rfl
  · cases hi'
    cases hpi
    exact absurd hpj (unowned_spec hp j tj hj')
  · cases hj'
    cases hpj
    exact absurd hpi (unowned_spec hp i ti hi')
  · exact k i j ti tj q hi' hj' hpi hpj

theorem Copies_copy_ctor {s : State T} (rhs : Nat) (x : State T × Nat)
    (h : copy_ctor s rhs = some x) : Copies s x.1 := by
  unfold copy_ctor at h
  split at h
  · cases h
  · next r hr =>
    obtain ⟨rp, rc⟩ := r
    unfold copy_members at h
    cases rp with
    | none =>
      simp only at h
      cases h
      exact (Copies.refl s s.objs s.cnts s.leaked).update_slot _ s.handles.length _ _ _ _
        (load_append_ne _ _) (load_append_new _ _) copies_empty
    | some p =>
      cases rc with
      | none => simp at h
      | some c =>
        cases hk : load s.cnts c with
        | none => simp [hk] at h
        | some k =>
          simp only [hk] at h
          cases h
          exact (Copies.refl s s.objs s.cnts s.leaked).update_slot _ s.handles.length _ _ _ _
            (load_append_ne _ _) (load_append_new _ _) (copies_of hr)

theorem Copies_move_ctor {s : State T} (rhs : Nat) (x : State T × Nat)
    (h : move_ctor s rhs = some x) : Copies s x.1 := by
  unfold move_ctor at h
  split at h
  · cases h
  · next r hr =>
    have hlt : rhs < s.handles.length := load_lt hr
    cases h
    have k1 : Copies s (⟨s.objs, s.cnts, s.handles.set rhs (some ⟨none, none⟩), s.leaked⟩ :
        State T) :=
      (Copies.refl s s.objs s.cnts s.leaked).update_slot _ rhs _ _ _ _ (load_set_other _ _ _)
        (load_set_self _ hlt) copies_empty
    have key : ∀ t : smart_ptr, (t.ptr_ = none ∨ ∃ j, s.handle j = some t) →
        Copies s (⟨s.objs, s.cnts, (s.handles.set rhs (some ⟨none, none⟩)) ++ [some t],
          s.leaked⟩ : State T) := by
      intro t ht
      refine k1.update_slot _ s.handles.length (some t) _ _ _ ?_ ?_ ?_
      · intro g hg
        exact load_append_ne _ _ g (by simpa using hg)
      · have := load_append_new (s.handles.set rhs (some ⟨none, none⟩)) (some t)
        simpa using this
      · intro t' ht'; cases ht'; exact ht
    obtain ⟨rp, rc⟩ := r
    cases rp with
    | none => exact key _ (Or.inl rfl)
    | some p => exact key _ (Or.inr ⟨rhs, hr⟩)

theorem Copies_move_assign {s : State T} (lhs rhs : Nat) (s' : State T)
    (h : move_assign s lhs rhs = some s') : Copies s s' := by
  unfold move_assign at h
  split at h
  · next l r hl hr =>
    cases h
    have k1 : Copies s (⟨s.objs, s.cnts, s.handles.set lhs (some (match r.ptr_ with
        | none => ⟨none, none⟩
        | some p => ⟨some p, r.ref_⟩)), s.leaked⟩ : State T) := by
      refine (Copies.refl s s.objs s.cnts s.leaked).update_slot _ lhs _ _ _ _ (load_set_other _ _ _)
        (load_set_self _ (load_lt hl)) ?_
      obtain ⟨rp, rc⟩ := r
      cases rp with
      | none => exact copies_empty
      | some p => exact copies_of hr
    exact k1.update_slot _ rhs _ _ _ _ (load_set_other _ _ _)
      (load_set_self _ (by simpa using load_lt hr)) copies_empty
  · cases h

theorem Copies_copy_assign {s : State T} (lhs rhs : Nat) (s' : State T)
    (h : copy_assign s lhs rhs = some s') : Copies s s' := by
  unfold copy_assign at h
  split at h
  · next l r hl hr =>
    split at h
    · cases h; exact Copies.refl s _ _ _
    · simp only at h
      split at h
      · cases h
      · next cnts1 _ =>
        obtain ⟨rp, rc⟩ := r
        cases rp with
        | none =>
          simp only at h
          cases h
          exact (Copies.refl s s.objs s.cnts s.leaked).update_slot _ lhs _ _ _ _
            (load_set_other _ _ _) (load_set_self _ (load_lt hl)) copies_empty
        | some p =>
          cases rc with
          | none => simp at h
          | some c =>
            cases hk : load cnts1 c with
            | none => simp [hk] at h
            | some k =>
              simp only [hk] at h
              cases h
              exact (Copies.refl s s.objs s.cnts s.leaked).update_slot _ lhs _ _ _ _
                (load_set_other _ _ _) (load_set_self _ (load_lt hl)) (copies_of hr)
  · cases h

theorem Copies_dtor {s : State T} (h : Nat) (s' : State T)
    (hx : dtor s h = some s') : Copies s s' := by
  unfold dtor at hx
  split at hx
  · cases hx
  · next t ht =>
    have key : ∀ objs' cnts', Copies s (⟨objs', cnts', s.handles.set h none, s.leaked⟩ :
        State T) :=
      fun objs' cnts' => (Copies.refl s s.objs s.cnts s.leaked).update_slot _ h _ _ _ _
        (load_set_other _ _ _) (load_set_self _ (load_lt ht)) copies_dead
    split at hx
    · split at hx
      · cases hx
      · split at hx
        · cases hx
        · cases hx; exact key _ _
    · split at hx
      · cases hx
      · split at hx
        · cases hx
        · split at hx
          · cases hx; exact key _ _
          · split at hx
            · cases hx
            · split at hx
              · cases hx
              · cases hx; exact key _ _

/-- Every admissible call keeps one counter per payload. -/
theorem PayloadHasOneCounter_exec {s s' : State T} (k : PayloadHasOneCounter s) (o : Op T)
    (ho : admissible s o = true) (h : exec s o = some s') : PayloadHasOneCounter s' := by
  cases o with
  | new_obj v => cases h; exact k.of_copies (Copies.refl s _ _ _)
  | default_ctor =>
    cases h
    exact k.of_copies ((Copies.refl s s.objs s.cnts s.leaked).update_slot _ s.handles.length _ _ _ _
      (load_append_ne _ _) (load_append_new _ _) copies_empty)
  | ctor_lref raw ok =>
    cases h
    cases ok
    · exact k
    · cases raw with
      | none => simp [admissible] at ho
      | some p => exact PayloadHasOneCounter_adopt k ho _ _ _
  | ctor_rref raw ok =>
    simp only [exec, Option.map_eq_some'] at h
    obtain ⟨a, ha, rfl⟩ := h
    cases ok
    · simp only [ctor_rref, Bool.false_eq_true, if_false] at ha
      split at ha
      · cases ha
      · cases ha
        exact k.of_copies (Copies.refl s _ _ _)
    · simp only [ctor_rref, if_true] at ha
      cases ha
      cases raw with
      | none => simp [admissible] at ho
      | some p => exact PayloadHasOneCounter_adopt k ho _ _ _
  | copy_ctor rhs =>
    simp only [exec, Option.map_eq_some'] at h
    obtain ⟨a, ha, rfl⟩ := h
    exact k.of_copies (Copies_copy_ctor rhs a ha)
  | move_ctor rhs =>
    simp only [exec, Option.map_eq_some'] at h
    obtain ⟨a, ha, rfl⟩ := h
    exact k.of_copies (Copies_move_ctor rhs a ha)
  | copy_assign lhs rhs => exact k.of_copies (Copies_copy_assign lhs rhs s' h)
  | move_assign lhs rhs => exact k.of_copies (Copies_move_assign lhs rhs s' h)
  | clone g a1 a2 => simp [admissible] at ho
  | write_star g v =>
    simp only [exec, Option.map_eq_some'] at h
    obtain ⟨a, ha, rfl⟩ := h
    unfold write_star at ha
    split at ha
    · cases ha
    · cases ha; exact k
    · split at ha
      · cases ha
      · cases ha; exact k.of_copies (Copies.refl s _ _ _)
  | dtor g => exact k.of_copies (Copies_dtor g s' h)

theorem admissible_counts_kept {s : State T} {o : Op T} (h : admissible s o = true) :
    o.counts_kept = true := by
  cases o <;> first | rfl | simp [admissible] at h

/-- The three invariants hold after every admissible program. -/
theorem invariants_run_admissible {s s' : State T} (ops : List (Op T))
    (wf : WF s) (w : Counted s) (k : PayloadHasOneCounter s)
    (h : run_admissible s ops = some s') :
    WF s' ∧ Counted s' ∧ PayloadHasOneCounter s' := by
  induction ops generalizing s with
  | nil => cases h; exact ⟨wf, w, k⟩
  | cons o os ih =>
    simp only [run_admissible] at h
    split at h
    · next ha =>
      simp only [Bool.and_eq_true] at ha
      split at h
      · cases h
      · next s1 h1 =>
        exact ih (WF_exec wf o h1) (Counted_exec wf w ha.1 o (admissible_counts_kept ha.2) h1)
          (PayloadHasOneCounter_exec k o ha.2 h1) h
    · cases h

theorem PayloadHasOneCounter_init : PayloadHasOneCounter (State.init T) := by
  intro i j ti tj p hi
  simp [State.init, State.handle, load] at hi

/-- C3 (counterexample): three programs over the listed operations, adopting
distinct fresh objects.  After the first (no `clone`; B is move-assigned away
from the object it shared with A) the counter of A reads 2 while A is the
only living handle of its payload.  After the second (B is cloned) A and B
both have payload 0 and each reports 1, while two living handles refer to
that payload.  The third reaches the state where the only handle of a payload
has a counter that reads 2147483647 (rounds of a copy assignment to an empty
handle followed by a move assignment away from it); one more round leaves
that counter at -2147483648, which is not strictly positive. -/
theorem count_differs_from_payload_holders :
    (run_admissible (State.init Int) [.new_obj 1, .ctor_lref (some 0) true, .copy_ctor 0,
        .new_obj 2, .ctor_lref (some 1) true, .move_assign 1 2]
      = some ⟨[some 1, some 2], [some 2, some 1],
          [some ⟨some 0, some 0⟩, some ⟨some 1, some 1⟩, some ⟨none, none⟩], []⟩ ∧
     ref_count (⟨[some 1, some 2], [some 2, some 1],
          [some ⟨some 0, some 0⟩, some ⟨some 1, some 1⟩, some ⟨none, none⟩], []⟩ : State Int) 0
        = some 2 ∧
     payload_holders (⟨[some 1, some 2], [some 2, some 1],
          [some ⟨some 0, some 0⟩, some ⟨some 1, some 1⟩, some ⟨none, none⟩], []⟩ : State Int) 0
        = 1) ∧
    (run (State.init Int) [.new_obj 1, .ctor_lref (some 0) true, .copy_ctor 0,
        .clone 1 true true]
      = some ⟨[some 1], [some 1, some 1], [some ⟨some 0, some 0⟩, some ⟨some 0, some 1⟩],
          [⟨some 0, some 0⟩]⟩ ∧
     ref_count (⟨[some 1], [some 1, some 1], [some ⟨some 0, some 0⟩, some ⟨some 0, some 1⟩],
          [⟨some 0, some 0⟩]⟩ : State Int) 0 = some 1 ∧
     ref_count (⟨[some 1], [some 1, some 1], [some ⟨some 0, some 0⟩, some ⟨some 0, some 1⟩],
          [⟨some 0, some 0⟩]⟩ : State Int) 1 = some 1 ∧
     payload_holders (⟨[some 1], [some 1, some 1], [some ⟨some 0, some 0⟩, some ⟨some 0, some 1⟩],
          [⟨some 0, some 0⟩]⟩ : State Int) 0 = 2) ∧
    (Reachable (owner_and_two_empty (7 : Int) 2147483647) ∧
     run (owner_and_two_empty (7 : Int) 2147483647) [.copy_assign 1 0, .move_assign 1 2]
      = some (owner_and_two_empty (7 : Int) (-2147483648)) ∧
     (owner_and_two_empty (7 : Int) (-2147483648)).handle 0 = some ⟨some 0, some 0⟩ ∧
     ref_count (owner_and_two_empty (7 : Int) (-2147483648)) 0 = some (-2147483648) ∧
     payload_holders (owner_and_two_empty (7 : Int) (-2147483648)) 0 = 1) := by
  refine ⟨⟨rfl, rfl, rfl⟩, ⟨rfl, rfl, rfl, rfl⟩, ⟨reachable_counter_max 7, rfl, rfl, rfl, rfl⟩⟩

/-- C3 (amended): after every program made of default construction, adoption
of allocated objects that no living handle refers to, copy and move
construction, copy and move assignment, writes through a handle and
destruction (no `clone`), each call being made while every allocated counter
is less than 2147483647, each living handle with a payload has a counter
that is allocated, strictly positive and at least the number of living
handles with that payload, and that counter is the counter of every living
handle with that payload. -/
theorem counter_covers_payload_holders (s : State T) (ops : List (Op T))
    (hrun : run_admissible (State.init T) ops = some s) (h : Nat) (t : smart_ptr) (p : Nat)
    (hh : s.handle h = some t) (hp : t.ptr_ = some p) :
    ∃ c k, t.ref_ = some c ∧ load s.cnts c = some k ∧ 0 < k ∧
      (payload_holders s p : Int) ≤ k ∧
      (∀ g tg, s.handle g = some tg → tg.ptr_ = some p → tg.ref_ = some c) := by
  obtain ⟨wf, w, k1⟩ :=
    invariants_run_admissible ops WF_init Counted_init PayloadHasOneCounter_init hrun
  cases hc : t.ref_ with
  | none => exact absurd hc (wf.has_counter h t hh (by rw [hp]; simp))
  | some c =>
    have hshare : ∀ g tg, s.handle g = some tg → tg.ptr_ = some p → tg.ref_ = some c := by
      intro g tg hg hgp
      rw [k1 g h tg t p hg hh hgp hp, hc]
    have hpos : 0 < payload_holders s p :=
      countP_pos_of_load _ _ h t hh (by simp [holds_payload, hp])
    have hle : payload_holders s p ≤ counter_holders s c := by
      refine List.countP_mono_left ?_
      intro x hx hxp
      cases x with
      | none => simp [holds_payload] at hxp
      | some tx =>
        obtain ⟨i, hi, hxi⟩ := List.getElem_of_mem hx
        have hl : s.handle i = some tx := by
          show load s.handles i = some tx
          rw [load_eq_getElem hi]; exact hxi
        have hxp' : tx.ptr_ = some p := by simpa [holds_payload] using hxp
        simp [holds_counter, hshare i tx hl hxp']
    rcases w c with w0 | ⟨k, hk, hkle⟩
    · omega
    · exact ⟨c, k, rfl, hk, by omega, by omega, hshare⟩

/-- Witness of C3 (amended): the first program of the counterexample, where
the counter of A reads 2 and one living handle has its payload. -/
theorem counter_covers_payload_holders_witness :
    ∃ c k, (⟨some 0, some 0⟩ : smart_ptr).ref_ = some c ∧
      load (⟨[some 1, some 2], [some 2, some 1],
        [some ⟨some 0, some 0⟩, some ⟨some 1, some 1⟩, some ⟨none, none⟩], []⟩ :
        State Int).cnts c = some k ∧ 0 < k ∧
      (payload_holders (⟨[some 1, some 2], [some 2, some 1],
        [some ⟨some 0, some 0⟩, some ⟨some 1, some 1⟩, some ⟨none, none⟩], []⟩ :
        State Int) 0 : Int) ≤ k ∧
      (∀ g tg, (⟨[some 1, some 2], [some 2, some 1],
        [some ⟨some 0, some 0⟩, some ⟨some 1, some 1⟩, some ⟨none, none⟩], []⟩ :
        State Int).handle g = some tg → tg.ptr_ = some 0 → tg.ref_ = some c) :=
  counter_covers_payload_holders _
    [.new_obj 1, .ctor_lref (some 0) true, .copy_ctor 0, .new_obj 2,
      .ctor_lref (some 1) true, .move_assign 1 2] rfl 0 ⟨some 0, some 0⟩ 0 rfl rfl

/-! ## Clone on an empty handle or a sole owner -/

/-- C11: whatever the allocator would answer, `clone` on a handle whose
payload member is null, or whose counter reads 1, returns false and leaves
the state as it is (no member, counter cell or payload cell changes and no
cell is allocated); and when `clone` returns false the state is unchanged and
the payload member is null or the counter reads 1.  In a reachable state a
handle with a null payload member has both members null or a counter that
reads 1, so these are the only two cases. -/
theorem clone_refuses (s : State T) (h : Nat) (t : smart_ptr) (a1 a2 : Bool)
    (hh : s.handle h = some t) :
    ((t.ptr_ = none ∨ ref_count s h = some 1) → clone s h a1 a2 = some (.ok false, s)) ∧
    (∀ s', clone s h a1 a2 = some (.ok false, s') →
      s' = s ∧ (t.ptr_ = none ∨ ref_count s h = some 1)) ∧
    (Reachable s → ∀ s', clone s h a1 a2 = some (.ok false, s') →
      t = ⟨none, none⟩ ∨ ref_count s h = some 1) := by
  have conv : ∀ s', clone s h a1 a2 = some (.ok false, s') →
      s' = s ∧ (t.ptr_ = none ∨ ref_count s h = some 1) := by
    intro s' hc
    obtain ⟨tp, tc⟩ := t
    cases tp with
    | none =>
      simp only [clone, hh, Option.some.injEq, Prod.mk.injEq, true_and] at hc
      exact ⟨hc.symm, Or.inl rfl⟩
    | some p =>
      cases tc with
      | none => simp [clone, hh] at hc
      | some c =>
        cases hk : load s.cnts c with
        | none => simp [clone, hh, hk] at hc
        | some k =>
          have hcl := load_lt hk
          have hc1 : load (s.cnts.set c (some (wrap_int (k + 1)))) c
              = some (wrap_int (k + 1)) := load_set_self _ hcl
          simp only [clone, hh, hk, copy_members, hc1] at hc
          split at hc
          · next hk1 =>
            simp only [Option.some.injEq, Prod.mk.injEq, true_and] at hc
            refine ⟨hc.symm, Or.inr ?_⟩
            simp only [ref_count, hh, hk, hk1]
          · split at hc
            · simp at hc
            · split at hc <;> simp at hc
  refine ⟨?_, conv, ?_⟩
  · intro hcase
    obtain ⟨tp, tc⟩ := t
    cases tp with
    | none => simp [clone, hh]
    | some p =>
      rcases hcase with h0 | h1
      · cases h0
      · cases tc with
        | none => simp [ref_count, hh] at h1
        | some c =>
          have hk : load s.cnts c = some 1 := by simpa [ref_count, hh] using h1
          simp [clone, hh, hk]
  · intro hs s' hc
    have w := WF_of_reachable hs
    rcases (conv s' hc).2 with h0 | h1
    · obtain ⟨tp, tc⟩ := t
      cases h0
      cases tc with
      | none => exact Or.inl rfl
      | some c =>
        right
        have := w.null_count h _ c hh rfl rfl
        simp only [ref_count, hh, this]
    · exact Or.inr h1

/-- Witness of C11: the only handle of an object (count 1) is cloned. -/
theorem clone_refuses_witness :
    clone (⟨[some 7], [some 1], [some ⟨some 0, some 0⟩], []⟩ : State Int) 0 true true
      = some (.ok false, ⟨[some 7], [some 1], [some ⟨some 0, some 0⟩], []⟩) :=
  (clone_refuses (⟨[some 7], [some 1], [some ⟨some 0, some 0⟩], []⟩ : State Int) 0
    ⟨some 0, some 0⟩ true true rfl).1 (Or.inr rfl)

/-! ## Count and access -/

/-- C12 (counterexample): the handle made by adopting a null pointer has a
null payload member and a counter; `operator*` and `operator->` throw on it
and `ref_count` returns 1. -/
theorem null_adoption_counts_one_and_throws :
    (ctor_lref (State.init Int) none true).state.handle 0 = some ⟨none, some 0⟩ ∧
    ref_count (ctor_lref (State.init Int) none true).state 0 = some 1 ∧
    operator_star (ctor_lref (State.init Int) none true).state 0
      = some (.error .null_ptr_exception) ∧
    operator_arrow (ctor_lref (State.init Int) none true).state 0
      = some (.error .null_ptr_exception) := by
  refine ⟨rfl, rfl, rfl, rfl⟩

/-- C12 (amended): a default-constructed handle reports 0 and both
`operator*` and `operator->` throw `null_ptr_exception` on it; for every
handle, `ref_count` returns 0 when the counter member is null and otherwise
the content of the counter cell, and `operator*` throws `null_ptr_exception`
exactly when the payload member is null and otherwise returns the object the
payload member points to. -/
theorem observers_spec (s : State T) (h : Nat) (t : smart_ptr) (hh : s.handle h = some t) :
    (ref_count (default_ctor s).1 (default_ctor s).2 = some 0 ∧
      operator_star (default_ctor s).1 (default_ctor s).2 = some (.error .null_ptr_exception) ∧
      operator_arrow (default_ctor s).1 (default_ctor s).2
        = some (.error .null_ptr_exception)) ∧
    (t.ref_ = none → ref_count s h = some 0) ∧
    (∀ c, t.ref_ = some c → ref_count s h = load s.cnts c) ∧
    (operator_star s h = some (.error .null_ptr_exception) ↔ t.ptr_ = none) ∧
    (∀ p, t.ptr_ = some p → operator_star s h = some (.ok p) ∧
      ∀ v, load s.objs p = some v → read_star s h = some (.ok v)) := by
  have hd : load (s.handles ++ [some (⟨none, none⟩ : smart_ptr)]) s.handles.length
      = some ⟨none, none⟩ := load_append_new _ _
  obtain ⟨tp, tc⟩ := t
  refine ⟨⟨?_, ?_, ?_⟩, ?_, ?_, ?_, ?_⟩
  · simp only [ref_count, default_ctor, State.handle, hd]
  · simp only [operator_star, default_ctor, State.handle, hd]
  · simp [operator_arrow, default_ctor, State.handle, hd]
  · intro h0; cases h0; simp only [ref_count, hh]
  · intro c hc; cases hc; simp only [ref_count, hh]
  · cases tp <;> simp [operator_star, hh]
  · intro p hp
    cases hp
    refine ⟨by simp only [operator_star, hh], ?_⟩
    intro v hv
    simp only [read_star, operator_star, hh, hv]

/-- Witness of C12 (amended): one of two handles sharing an object with
value 7 and count 2. -/
theorem observers_spec_witness :
    ref_count (⟨[some 7], [some 2], [some ⟨some 0, some 0⟩, some ⟨some 0, some 0⟩], []⟩ :
      State Int) 1 = load [some (2 : Int)] 0 ∧
    (operator_star (⟨[some 7], [some 2], [some ⟨some 0, some 0⟩, some ⟨some 0, some 0⟩], []⟩ :
      State Int) 1 = some (.ok 0) ∧
     ∀ v, load [some (7 : Int)] 0 = some v →
      read_star (⟨[some 7], [some 2], [some ⟨some 0, some 0⟩, some ⟨some 0, some 0⟩], []⟩ :
        State Int) 1 = some (.ok v)) :=
  ⟨(observers_spec (⟨[some 7], [some 2], [some ⟨some 0, some 0⟩, some ⟨some 0, some 0⟩], []⟩ :
      State Int) 1 ⟨some 0, some 0⟩ rfl).2.2.1 0 rfl,
   (observers_spec (⟨[some 7], [some 2], [some ⟨some 0, some 0⟩, some ⟨some 0, some 0⟩], []⟩ :
      State Int) 1 ⟨some 0, some 0⟩ rfl).2.2.2.2 0 rfl⟩

/-! ## Failure of the consuming adoption -/

/-- C14 (counterexample): a fresh object with value 10 is handed to
`smart_ptr(T*&&)` and `new int(1)` fails: the object is deallocated,
`bad_alloc` is thrown and no handle exists, but the caller's pointer still
holds the address 0 of the deallocated object; on success it is null. -/
theorem failed_adoption_keeps_raw_ptr :
    ctor_rref (new_obj (State.init Int) 10).1 (some 0) false
      = some ⟨.error .bad_alloc, some 0, ⟨[none], [], [], []⟩⟩ ∧
    (ctor_rref (new_obj (State.init Int) 10).1 (some 0) true).map (fun a => a.raw_ptr)
      = some none := by
  refine ⟨rfl, rfl⟩

/-- C14 (amended): when `new int(1)` fails inside `smart_ptr(T*&&)` applied
to an allocated object p, the object is deallocated, `bad_alloc` is thrown,
no handle is produced and no counter cell changes, and the caller's pointer
is left as it was, holding the address of the deallocated object. -/
theorem ctor_rref_failure_spec (s : State T) (p : Nat) (v : T) (hp : load s.objs p = some v) :
    ∃ a, ctor_rref s (some p) false = some a ∧ a.result = .error .bad_alloc ∧
      a.raw_ptr = some p ∧ load a.state.objs p = none ∧
      (∀ q, q ≠ p → load a.state.objs q = load s.objs q) ∧
      a.state.cnts = s.cnts ∧ a.state.handles = s.handles ∧ a.state.leaked = s.leaked := by
  refine ⟨⟨.error .bad_alloc, some p, ⟨s.objs.set p none, s.cnts, s.handles, s.leaked⟩⟩,
    ?_, rfl, rfl, ?_, ?_, rfl, rfl, rfl⟩
  · simp [ctor_rref, free, hp]
  · exact load_set_self _ (load_lt hp)
  · intro q hq; exact load_set_ne _ _ (Ne.symm hq)

/-- Witness of C14 (amended): the object adopted is a fresh 10. -/
theorem ctor_rref_failure_spec_witness :
    ∃ a, ctor_rref (new_obj (State.init Int) 10).1 (some 0) false = some a ∧
      a.result = .error .bad_alloc ∧
      a.raw_ptr = some 0 ∧ load a.state.objs 0 = none ∧
      (∀ q, q ≠ 0 → load a.state.objs q = load (new_obj (State.init Int) 10).1.objs q) ∧
      a.state.cnts = (new_obj (State.init Int) 10).1.cnts ∧
      a.state.handles = (new_obj (State.init Int) 10).1.handles ∧
      a.state.leaked = (new_obj (State.init Int) 10).1.leaked :=
  ctor_rref_failure_spec (new_obj (State.init Int) 10).1 0 10 rfl

/-! ## The two access operators agree -/

/-- C17: in a reachable state every handle with a payload has a counter, so
`operator->` has the outcome of `operator*`: both throw
`null_ptr_exception`, or both return the address of the same object. -/
theorem arrow_agrees_with_star (s : State T) (h : Nat) (t : smart_ptr) (hs : Reachable s)
    (hh : s.handle h = some t) :
    (t.ptr_ ≠ none → t.ref_ ≠ none) ∧ operator_arrow s h = operator_star s h ∧
    (operator_arrow s h = some (.error .null_ptr_exception) ↔
      operator_star s h = some (.error .null_ptr_exception)) ∧
    (∀ p, operator_star s h = some (.ok p) → operator_arrow s h = some (.ok p)) := by
  have w := WF_of_reachable hs
  have hc := w.has_counter h t hh
  have heq : operator_arrow s h = operator_star s h := by
    obtain ⟨tp, tc⟩ := t
    cases tp with
    | none => simp [operator_arrow, operator_star, hh]
    | some p =>
      cases tc with
      | none => exact absurd rfl (hc (by simp))
      | some c => simp [operator_arrow, operator_star, hh]
  refine ⟨hc, heq, by rw [heq], ?_⟩
  intro p hp
  rw [heq]; exact hp

/-- Witness of C17: the copy of a handle that adopted a fresh 10. -/
theorem arrow_agrees_with_star_witness :
    ((⟨some 0, some 0⟩ : smart_ptr).ptr_ ≠ none → (⟨some 0, some 0⟩ : smart_ptr).ref_ ≠ none) ∧
    operator_arrow (⟨[some 10], [some 2], [some ⟨some 0, some 0⟩, some ⟨some 0, some 0⟩], []⟩ :
      State Int) 1
      = operator_star (⟨[some 10], [some 2], [some ⟨some 0, some 0⟩, some ⟨some 0, some 0⟩],
          []⟩ : State Int) 1 ∧
    (operator_arrow (⟨[some 10], [some 2], [some ⟨some 0, some 0⟩, some ⟨some 0, some 0⟩], []⟩ :
      State Int) 1 = some (.error .null_ptr_exception) ↔
      operator_star (⟨[some 10], [some 2], [some ⟨some 0, some 0⟩, some ⟨some 0, some 0⟩],
          []⟩ : State Int) 1 = some (.error .null_ptr_exception)) ∧
    (∀ p, operator_star (⟨[some 10], [some 2], [some ⟨some 0, some 0⟩, some ⟨some 0, some 0⟩],
          []⟩ : State Int) 1 = some (.ok p) →
      operator_arrow (⟨[some 10], [some 2], [some ⟨some 0, some 0⟩, some ⟨some 0, some 0⟩],
          []⟩ : State Int) 1 = some (.ok p)) :=
  arrow_agrees_with_star _ 1 ⟨some 0, some 0⟩
    ⟨[.new_obj 10, .ctor_lref (some 0) true, .copy_ctor 0], rfl⟩ rfl

/-! ## Move assignment of a handle to itself -/

/-- C19: move-assigning a handle with payload p, counter cell c and count k
to itself leaves it with both members null (it reports 0 and `operator*`
throws) while no counter cell and no payload cell changes: the cell c still
reads k and nothing is deallocated; no other handle changes. -/
theorem self_move_assign_spec (s : State T) (h p c : Nat) (k : Int)
    (hh : s.handle h = some ⟨some p, some c⟩) (hk : load s.cnts c = some k) :
    ∃ s', move_assign s h h = some s' ∧ s'.handle h = some ⟨none, none⟩ ∧
      ref_count s' h = some 0 ∧ operator_star s' h = some (.error .null_ptr_exception) ∧
      load s'.cnts c = some k ∧ s'.cnts = s.cnts ∧ s'.objs = s.objs ∧
      (∀ g, g ≠ h → s'.handle g = s.handle g) := by
  have hlt := load_lt hh
  have e : load ((s.handles.set h (some (⟨some p, some c⟩ : smart_ptr))).set h
      (some ⟨none, none⟩)) h = some ⟨none, none⟩ := load_set_self _ (by simpa using hlt)
  refine ⟨⟨s.objs, s.cnts, (s.handles.set h (some ⟨some p, some c⟩)).set h
    (some ⟨none, none⟩), s.leaked⟩, ?_, e, ?_, ?_, hk, rfl, rfl, ?_⟩
  · simp [move_assign, hh]
  · simp only [ref_count, State.handle, e]
  · simp only [operator_star, State.handle, e]
  · intro g hg
    show load _ g = load s.handles g
    rw [load_set_ne _ _ (Ne.symm hg), load_set_ne _ _ (Ne.symm hg)]

/-- Witness of C19: one of two handles sharing an object with count 2. -/
theorem self_move_assign_spec_witness :
    ∃ s', move_assign (⟨[some 7], [some 2], [some ⟨some 0, some 0⟩, some ⟨some 0, some 0⟩],
        []⟩ : State Int) 1 1 = some s' ∧ s'.handle 1 = some ⟨none, none⟩ ∧
      ref_count s' 1 = some 0 ∧ operator_star s' 1 = some (.error .null_ptr_exception) ∧
      load s'.cnts 0 = some 2 ∧ s'.cnts = [some 2] ∧ s'.objs = [some 7] ∧
      (∀ g, g ≠ 1 → s'.handle g = (⟨[some 7], [some 2],
        [some ⟨some 0, some 0⟩, some ⟨some 0, some 0⟩], []⟩ : State Int).handle g) :=
  self_move_assign_spec (⟨[some 7], [some 2], [some ⟨some 0, some 0⟩, some ⟨some 0, some 0⟩],
    []⟩ : State Int) 1 0 0 2 rfl rfl

/-! ## How clone ends -/

/-- C16 (counterexample): an object is adopted and copied twice (count 3);
`clone` on the last copy throws `bad_alloc` when the first allocation fails,
and also when only the second one fails.  And after A adopts a fresh 10, B is
a copy of A, a clone of B fails on its second allocation and A is destroyed,
the counter of the living handle B is deallocated: `clone` on B reads it, so
the call is undefined and completes with no result. -/
theorem clone_propagates_bad_alloc :
    (run (State.init Int) [.new_obj 5, .ctor_rref (some 0) true, .copy_ctor 0, .copy_ctor 0]
      = some ⟨[some 5], [some 3],
          [some ⟨some 0, some 0⟩, some ⟨some 0, some 0⟩, some ⟨some 0, some 0⟩], []⟩ ∧
    (clone (⟨[some 5], [some 3],
        [some ⟨some 0, some 0⟩, some ⟨some 0, some 0⟩, some ⟨some 0, some 0⟩], []⟩ : State Int)
        2 false false).map (fun x => x.1) = some (.error .bad_alloc) ∧
    (clone (⟨[some 5], [some 3],
        [some ⟨some 0, some 0⟩, some ⟨some 0, some 0⟩, some ⟨some 0, some 0⟩], []⟩ : State Int)
        2 true false).map (fun x => x.1) = some (.error .bad_alloc)) ∧
    (run (State.init Int) [.new_obj 10, .ctor_lref (some 0) true, .copy_ctor 0,
        .clone 1 true false, .dtor 0]
      = some ⟨[none], [none], [none, some ⟨some 0, some 0⟩], [⟨some 0, some 0⟩]⟩ ∧
     clone (⟨[none], [none], [none, some ⟨some 0, some 0⟩], [⟨some 0, some 0⟩]⟩ : State Int)
        1 true true = none ∧
     clone (⟨[none], [none], [none, some ⟨some 0, some 0⟩], [⟨some 0, some 0⟩]⟩ : State Int)
        1 false false = none) := by
  refine ⟨⟨rfl, rfl, rfl⟩, ⟨rfl, rfl, rfl⟩⟩

/-- C16 (amended): on a living handle whose payload member is non-null and
whose counter is not readable (null or deallocated), `clone` is undefined.
On every other living handle (payload member null, or counter readable)
`clone` always ends, and never with `null_ptr_exception`: it returns false
exactly when the payload member is null or the counter reads 1, it returns
true exactly when neither is the case and both allocations succeed, and it
throws `bad_alloc` exactly when neither is the case and one of the two
allocations fails; when the first allocation fails the state is unchanged. -/
theorem clone_outcome (s : State T) (h : Nat) (t : smart_ptr) (a1 a2 : Bool)
    (hh : s.handle h = some t) :
    (¬ (t.ptr_ = none ∨ ∃ c k, t.ref_ = some c ∧ load s.cnts c = some k) →
      clone s h a1 a2 = none) ∧
    ((t.ptr_ = none ∨ ∃ c k, t.ref_ = some c ∧ load s.cnts c = some k) →
      ∃ res s', clone s h a1 a2 = some (res, s') ∧
        (res = .ok false ↔ (t.ptr_ = none ∨ ref_count s h = some 1)) ∧
        (res = .ok true ↔
          (t.ptr_ ≠ none ∧ ref_count s h ≠ some 1 ∧ a1 = true ∧ a2 = true)) ∧
        (res = .error .bad_alloc ↔
          (t.ptr_ ≠ none ∧ ref_count s h ≠ some 1 ∧ (a1 = false ∨ a2 = false))) ∧
        res ≠ .error .null_ptr_exception ∧
        (a1 = false → s' = s)) := by
  obtain ⟨tp, tc⟩ := t
  refine ⟨?_, ?_⟩
  · intro hn
    cases tp with
    | none => exact absurd (Or.inl rfl) hn
    | some p =>
      cases tc with
      | none => simp [clone, hh]
      | some c =>
        cases hk : load s.cnts c with
        | none => simp [clone, hh, hk]
        | some k => exact absurd (Or.inr ⟨c, k, rfl, hk⟩) hn
  · intro hd
    cases tp with
    | none =>
      refine ⟨.ok false, s, by simp [clone, hh], ?_, ?_, ?_, ?_, fun _ => rfl⟩ <;> simp
    | some p =>
      rcases hd with h0 | ⟨c, k, hc, hk⟩
      · cases h0
      · cases hc
        have hcl := load_lt hk
        have hc1 : load (s.cnts.set c (some (wrap_int (k + 1)))) c
            = some (wrap_int (k + 1)) := load_set_self _ hcl
        have hrc : ref_count s h = some k := by simp only [ref_count, hh, hk]
        by_cases hk1 : k = 1
        · subst hk1
          refine ⟨.ok false, s, by simp [clone, hh, hk], ?_, ?_, ?_, ?_, fun _ => rfl⟩ <;>
            simp [hrc]
        · have hrc1 : ref_count s h ≠ some 1 := by
            rw [hrc]; intro e; exact hk1 (Option.some.inj e)
          cases a1 with
          | false =>
            refine ⟨.error .bad_alloc, s, by simp [clone, hh, hk, hk1], ?_, ?_, ?_, ?_,
              fun _ => rfl⟩ <;> simp [hrc1]
          | true =>
            cases a2 with
            | false =>
              refine ⟨.error .bad_alloc, _,
                by simp [clone, hh, hk, hk1, copy_members, hc1]; rfl,
                ?_, ?_, ?_, ?_, fun e => by cases e⟩ <;> simp [hrc1]
            | true =>
              refine ⟨.ok true, _, by simp [clone, hh, hk, hk1, copy_members, hc1]; rfl,
                ?_, ?_, ?_, ?_, fun e => by cases e⟩ <;> simp [hrc1]

/-- Witness of C16 (amended): the last of three handles sharing an object,
with the second allocation failing; and the handle whose counter was
deallocated by the destruction of the other holder. -/
theorem clone_outcome_witness :
    (∃ res s', clone (⟨[some 5], [some 3],
        [some ⟨some 0, some 0⟩, some ⟨some 0, some 0⟩, some ⟨some 0, some 0⟩], []⟩ : State Int)
        2 true false = some (res, s') ∧
      (res = .ok false ↔ ((⟨some 0, some 0⟩ : smart_ptr).ptr_ = none ∨
        ref_count (⟨[some 5], [some 3],
          [some ⟨some 0, some 0⟩, some ⟨some 0, some 0⟩, some ⟨some 0, some 0⟩], []⟩ :
          State Int) 2 = some 1)) ∧
      (res = .ok true ↔ ((⟨some 0, some 0⟩ : smart_ptr).ptr_ ≠ none ∧
        ref_count (⟨[some 5], [some 3],
          [some ⟨some 0, some 0⟩, some ⟨some 0, some 0⟩, some ⟨some 0, some 0⟩], []⟩ :
          State Int) 2 ≠ some 1 ∧ true = true ∧ false = true)) ∧
      (res = .error .bad_alloc ↔ ((⟨some 0, some 0⟩ : smart_ptr).ptr_ ≠ none ∧
        ref_count (⟨[some 5], [some 3],
          [some ⟨some 0, some 0⟩, some ⟨some 0, some 0⟩, some ⟨some 0, some 0⟩], []⟩ :
          State Int) 2 ≠ some 1 ∧ (true = false ∨ false = false))) ∧
      res ≠ .error .null_ptr_exception ∧
      (true = false → s' = (⟨[some 5], [some 3],
          [some ⟨some 0, some 0⟩, some ⟨some 0, some 0⟩, some ⟨some 0, some 0⟩], []⟩ :
          State Int))) ∧
    clone (⟨[none], [none], [none, some ⟨some 0, some 0⟩], [⟨some 0, some 0⟩]⟩ : State Int)
      1 true true = none :=
  ⟨(clone_outcome (⟨[some 5], [some 3],
      [some ⟨some 0, some 0⟩, some ⟨some 0, some 0⟩, some ⟨some 0, some 0⟩], []⟩ : State Int)
      2 ⟨some 0, some 0⟩ true false rfl).2 (Or.inr ⟨0, 3, rfl, rfl⟩),
   (clone_outcome (⟨[none], [none], [none, some ⟨some 0, some 0⟩], [⟨some 0, some 0⟩]⟩ :
      State Int) 1 ⟨some 0, some 0⟩ true true rfl).1 (by
        rintro (h | ⟨c, k, hc, hk⟩)
        · cases h
        · cases hc
          cases hk)⟩

/-! ## One owner and N copies -/

theorem load_append_replicate {α : Type} (l : List (Option α)) (x : α) (n i : Nat)
    (h : i < n) : load (l ++ List.replicate n (some x)) (l.length + i) = some x := by
  unfold load
  rw [List.getElem?_append_right (Nat.le_add_right _ _), Nat.add_sub_cancel_left,
    List.getElem?_replicate_of_lt h]

theorem wrap_int_succ (x : Int) : wrap_int (wrap_int x + 1) = wrap_int (x + 1) := by
  unfold wrap_int
  omega

theorem wrap_int_one : wrap_int 1 = 1 := rfl

/-- After `k` copies of an owner with payload p and counter cell `cs.length`,
`m` more copies give `k + m` copies and the count `k + m + 1` in `int`
arithmetic. -/
theorem run_copies (objs : List (Option T)) (cs : List (Option Int))
    (hs : List (Option smart_ptr)) (lk : List smart_ptr) (p : Nat) (m : Nat) :
    ∀ k : Nat,
      run (⟨objs, cs ++ [some (wrap_int ((k : Int) + 1))],
          hs ++ List.replicate (k + 1) (some ⟨some p, some cs.length⟩), lk⟩ : State T)
        (List.replicate m (.copy_ctor hs.length))
      = some ⟨objs, cs ++ [some (wrap_int (((k + m : Nat) : Int) + 1))],
          hs ++ List.replicate (k + m + 1) (some ⟨some p, some cs.length⟩), lk⟩ := by
  induction m with
  | zero => intro k; rfl
  | succ m ih =>
    intro k
    have h0 : load (hs ++ List.replicate (k + 1) (some (⟨some p, some cs.length⟩ : smart_ptr)))
        hs.length = some ⟨some p, some cs.length⟩ := by
      have := load_append_replicate hs (⟨some p, some cs.length⟩ : smart_ptr) (k + 1) 0
        (Nat.succ_pos _)
      simpa using this
    have hc : load (cs ++ [some (wrap_int ((k : Int) + 1))]) cs.length
        = some (wrap_int ((k : Int) + 1)) := load_append_new _ _
    have hw : wrap_int (wrap_int ((k : Int) + 1) + 1) = wrap_int (((k + 1 : Nat) : Int) + 1) := by
      rw [wrap_int_succ]
      push_cast
      rfl
    have hstep : exec (⟨objs, cs ++ [some (wrap_int ((k : Int) + 1))],
          hs ++ List.replicate (k + 1) (some ⟨some p, some cs.length⟩), lk⟩ : State T)
        (.copy_ctor hs.length)
        = some ⟨objs, cs ++ [some (wrap_int (((k + 1 : Nat) : Int) + 1))],
          hs ++ List.replicate (k + 1 + 1) (some ⟨some p, some cs.length⟩), lk⟩ := by
      have hA : ∀ a b : Option Int, (cs ++ [a]).set cs.length b = cs ++ [b] := by
        intro a b
        rw [List.set_append_right _ _ (le_refl _)]
        simp
      have hB : hs ++ List.replicate (k + 1) (some (⟨some p, some cs.length⟩ : smart_ptr))
          ++ [some ⟨some p, some cs.length⟩]
          = hs ++ List.replicate (k + 1 + 1) (some ⟨some p, some cs.length⟩) := by
        rw [List.replicate_succ' (k + 1), List.append_assoc]
      simp only [exec, copy_ctor, State.handle, h0, copy_members, hc, Option.map_some', hw,
        hA, hB]
    have e : List.replicate (m + 1) (Op.copy_ctor hs.length : Op T)
        = .copy_ctor hs.length :: List.replicate m (.copy_ctor hs.length) := rfl
    have hk : k + 1 + m = k + (m + 1) := by omega
    rw [e]
    simp only [run, hstep]
    rw [ih (k + 1), hk]

/-- State after a handle adopts a fresh object with value v and N handles are
copy-constructed from it. -/
theorem run_owner_and_copies (s : State T) (v : T) (N : Nat) :
    run s ([.new_obj v, .ctor_lref (some s.objs.length) true]
        ++ List.replicate N (.copy_ctor s.handles.length))
      = some ⟨s.objs ++ [some v], s.cnts ++ [some (wrap_int ((N : Int) + 1))],
          s.handles ++ List.replicate (N + 1) (some ⟨some s.objs.length, some s.cnts.length⟩),
          s.leaked⟩ := by
  have hrun := run_copies (s.objs ++ [some v]) s.cnts s.handles s.leaked s.objs.length N 0
  simp only [Nat.zero_add, Nat.cast_zero, zero_add, wrap_int_one] at hrun
  rw [run_append]
  have h2 : run s [.new_obj v, .ctor_lref (some s.objs.length) true]
      = some ⟨s.objs ++ [some v], s.cnts ++ [some 1],
        s.handles ++ List.replicate 1 (some ⟨some s.objs.length, some s.cnts.length⟩),
        s.leaked⟩ := rfl
  rw [h2]
  exact hrun

/-- Count reported by the owner (i = 0) and by the copies (i = 1..N) in the
state of `run_owner_and_copies`. -/
theorem count_of_owner_and_copies (s : State T) (v : T) (N i : Nat) (hi : i ≤ N) (k : Int) :
    ref_count (⟨s.objs ++ [some v], s.cnts ++ [some k],
        s.handles ++ List.replicate (N + 1) (some ⟨some s.objs.length, some s.cnts.length⟩),
        s.leaked⟩ : State T) (s.handles.length + i) = some k := by
  have hh : load (s.handles ++ List.replicate (N + 1)
      (some (⟨some s.objs.length, some s.cnts.length⟩ : smart_ptr))) (s.handles.length + i)
      = some ⟨some s.objs.length, some s.cnts.length⟩ :=
    load_append_replicate _ _ _ _ (by omega)
  have hc : load (s.cnts ++ [some k]) s.cnts.length = some k := load_append_new _ _
  simp only [ref_count, State.handle, hh, hc]

/-- C15 (counterexample): one owner adopts a fresh object and N = 1 handle is
copy-constructed from it; the copy reports 2, not N = 1.  And with
N = 2147483647 copies the owner and the last copy report -2147483648. -/
theorem one_copy_counts_two :
    (run (State.init Int) ([.new_obj 5, .ctor_lref (some 0) true]
        ++ List.replicate 1 (.copy_ctor 0))
      = some ⟨[some 5], [some 2], [some ⟨some 0, some 0⟩, some ⟨some 0, some 0⟩], []⟩ ∧
    ref_count (⟨[some 5], [some 2], [some ⟨some 0, some 0⟩, some ⟨some 0, some 0⟩], []⟩ :
      State Int) 1 = some 2) ∧
    (∃ s', run (State.init Int) ([.new_obj 5, .ctor_lref (some 0) true]
        ++ List.replicate 2147483647 (.copy_ctor 0)) = some s' ∧
      ref_count s' 0 = some (-2147483648) ∧
      ref_count s' 2147483647 = some (-2147483648)) := by
  refine ⟨⟨rfl, rfl⟩, ⟨_, run_owner_and_copies (State.init Int) 5 2147483647, ?_, ?_⟩⟩
  · exact count_of_owner_and_copies (State.init Int) 5 2147483647 0 (Nat.zero_le _) _
  · have h := count_of_owner_and_copies (State.init Int) 5 2147483647 2147483647
      (Nat.le_refl _) (-2147483648)
    rw [show (State.init Int).handles.length + 2147483647 = 2147483647 from Nat.zero_add _] at h
    exact h

/-- C15 (amended): in any state, after a handle adopts a fresh object with
value v and N handles are copy-constructed from it, the owner (i = 0) and
every copy (i = 1..N) have the same payload and counter members and report
N + 1 in `int` arithmetic, which is N + 1 when N is less than 2147483647,
and a value written through any of them is read through each of them. -/
theorem copies_of_owner (s : State T) (v : T) (N : Nat) :
    ∃ s', run s ([.new_obj v, .ctor_lref (some s.objs.length) true]
        ++ List.replicate N (.copy_ctor s.handles.length)) = some s' ∧
      (∀ i, i ≤ N →
        s'.handle (s.handles.length + i) = some ⟨some s.objs.length, some s.cnts.length⟩ ∧
        ref_count s' (s.handles.length + i) = some (wrap_int ((N : Int) + 1)) ∧
        (N < 2147483647 → ref_count s' (s.handles.length + i) = some ((N : Int) + 1))) ∧
      (∀ i j w, i ≤ N → j ≤ N →
        ∃ s'', write_star s' (s.handles.length + i) w = some (.ok (), s'') ∧
          read_star s'' (s.handles.length + j) = some (.ok w)) := by
  have hh : ∀ i, i ≤ N → load (s.handles ++ List.replicate (N + 1)
      (some (⟨some s.objs.length, some s.cnts.length⟩ : smart_ptr))) (s.handles.length + i)
      = some ⟨some s.objs.length, some s.cnts.length⟩ :=
    fun i hi => load_append_replicate _ _ _ _ (by omega)
  have hp : load (s.objs ++ [some v]) s.objs.length = some v := load_append_new _ _
  refine ⟨_, run_owner_and_copies s v N, ?_, ?_⟩
  · intro i hi
    have hr := count_of_owner_and_copies s v N i hi (wrap_int ((N : Int) + 1))
    refine ⟨hh i hi, hr, ?_⟩
    intro hN
    have hw : wrap_int ((N : Int) + 1) = (N : Int) + 1 :=
      wrap_int_eq (by omega) (by omega)
    exact hr.trans (congrArg some hw)
  · intro i j w hi hj
    refine ⟨⟨(s.objs ++ [some v]).set s.objs.length (some w),
      s.cnts ++ [some (wrap_int ((N : Int) + 1))],
      s.handles ++ List.replicate (N + 1) (some ⟨some s.objs.length, some s.cnts.length⟩),
      s.leaked⟩, ?_, ?_⟩
    · simp only [write_star, operator_star, State.handle, hh i hi, hp]
    · simp only [read_star, operator_star, State.handle, hh j hj]
      rw [load_set_self _ (by simp)]

/-- Witness of C15 (amended): an owner of a fresh 5 and N = 2 copies, from
the empty state. -/
theorem copies_of_owner_witness :
    ∃ s', run (State.init Int) ([.new_obj 5, .ctor_lref (some 0) true]
        ++ List.replicate 2 (.copy_ctor 0)) = some s' ∧
      (∀ i, i ≤ 2 →
        s'.handle (0 + i) = some ⟨some 0, some 0⟩ ∧
        ref_count s' (0 + i) = some (wrap_int (((2 : Nat) : Int) + 1)) ∧
        (2 < 2147483647 → ref_count s' (0 + i) = some (((2 : Nat) : Int) + 1))) ∧
      (∀ i j w, i ≤ 2 → j ≤ 2 →
        ∃ s'', write_star s' (0 + i) w = some (.ok (), s'') ∧
          read_star s'' (0 + j) = some (.ok w)) :=
  copies_of_owner (State.init Int) 5 2

/-! ## The two members of a handle -/

theorem Lockstep_init : Lockstep (State.init T) := by
  intro i t hi
  simp [State.init, State.handle, load] at hi

/-- Changing one slot of the handle table to a dead handle or to a handle
whose members are null together keeps `Lockstep`. -/
theorem Lockstep.update_at {s : State T} (ls : Lockstep s) (hs' : List (Option smart_ptr))
    (i : Nat) (x : Option smart_ptr) (objs' : List (Option T)) (cnts' : List (Option Int))
    (leaked' : List smart_ptr)
    (hoth : ∀ g, g ≠ i → load hs' g = load s.handles g)
    (hi : load hs' i = x)
    (hx : ∀ t, x = some t → (t.ptr_ = none ↔ t.ref_ = none)) :
    Lockstep (⟨objs', cnts', hs', leaked'⟩ : State T) := by
  intro g t' hg
  by_cases hgi : g = i
  · subst hgi
    exact hx t' (hi.symm.trans hg)
  · exact ls g t' ((hoth g hgi).symm.trans hg)

theorem Lockstep.cells {s : State T} (ls : Lockstep s) (objs' : List (Option T))
    (cnts' : List (Option Int)) (leaked' : List smart_ptr) :
    Lockstep (⟨objs', cnts', s.handles, leaked'⟩ : State T) :=
  fun i t hi => ls i t hi

theorem lockstep_empty :
    ∀ t, some (⟨none, none⟩ : smart_ptr) = some t → (t.ptr_ = none ↔ t.ref_ = none) := by
  intro t ht; cases ht; simp

theorem lockstep_dead :
    ∀ t, (none : Option smart_ptr) = some t → (t.ptr_ = none ↔ t.ref_ = none) := by
  intro t ht; cases ht

theorem lockstep_both (p c : Nat) :
    ∀ t, some (⟨some p, some c⟩ : smart_ptr) = some t → (t.ptr_ = none ↔ t.ref_ = none) := by
  intro t ht; cases ht; simp

theorem lockstep_of {s : State T} (ls : Lockstep s) {j : Nat} {r : smart_ptr}
    (hj : s.handle j = some r) :
    ∀ t, some r = some t → (t.ptr_ = none ↔ t.ref_ = none) := by
  intro t ht; cases ht; exact ls j r hj

theorem Lockstep_copy_ctor {s : State T} (ls : Lockstep s) (rhs : Nat) (x : State T × Nat)
    (h : copy_ctor s rhs = some x) : Lockstep x.1 := by
  unfold copy_ctor at h
  split at h
  · cases h
  · next r hr =>
    obtain ⟨rp, rc⟩ := r
    unfold copy_members at h
    cases rp with
    | none =>
      simp only at h
      cases h
      exact ls.update_at _ s.handles.length _ _ _ _
        (load_append_ne _ _) (load_append_new _ _) lockstep_empty
    | some p =>
      cases rc with
      | none => simp at h
      | some c =>
        cases hk : load s.cnts c with
        | none => simp [hk] at h
        | some k =>
          simp only [hk] at h
          cases h
          exact ls.update_at _ s.handles.length _ _ _ _
            (load_append_ne _ _) (load_append_new _ _) (lockstep_of ls hr)

theorem Lockstep_move_ctor {s : State T} (ls : Lockstep s) (rhs : Nat) (x : State T × Nat)
    (h : move_ctor s rhs = some x) : Lockstep x.1 := by
  unfold move_ctor at h
  split at h
  · cases h
  · next r hr =>
    have hlt : rhs < s.handles.length := load_lt hr
    cases h
    have k1 : Lockstep (⟨s.objs, s.cnts, s.handles.set rhs (some ⟨none, none⟩), s.leaked⟩ :
        State T) :=
      ls.update_at _ rhs _ _ _ _ (load_set_other _ _ _) (load_set_self _ hlt) lockstep_empty
    have key : ∀ t : smart_ptr, (t.ptr_ = none ↔ t.ref_ = none) →
        Lockstep (⟨s.objs, s.cnts, (s.handles.set rhs (some ⟨none, none⟩)) ++ [some t],
          s.leaked⟩ : State T) := by
      intro t ht
      refine k1.update_at _ s.handles.length (some t) _ _ _ ?_ ?_ ?_
      · intro g hg
        exact load_append_ne _ _ g (by simpa using hg)
      · have := load_append_new (s.handles.set rhs (some ⟨none, none⟩)) (some t)
        simpa using this
      · intro t' ht'; cases ht'; exact ht
    have hr' := ls rhs r hr
    obtain ⟨rp, rc⟩ := r
    cases rp with
    | none => exact key _ (by simp)
    | some p => exact key _ hr'

theorem Lockstep_move_assign {s : State T} (ls : Lockstep s) (lhs rhs : Nat) (s' : State T)
    (h : move_assign s lhs rhs = some s') : Lockstep s' := by
  unfold move_assign at h
  split at h
  · next l r hl hr =>
    cases h
    have k1 : Lockstep (⟨s.objs, s.cnts, s.handles.set lhs (some (match r.ptr_ with
        | none => ⟨none, none⟩
        | some p => ⟨some p, r.ref_⟩)), s.leaked⟩ : State T) := by
      refine ls.update_at _ lhs _ _ _ _ (load_set_other _ _ _)
        (load_set_self _ (load_lt hl)) ?_
      obtain ⟨rp, rc⟩ := r
      cases rp with
      | none => exact lockstep_empty
      | some p => exact lockstep_of ls hr
    exact k1.update_at _ rhs _ _ _ _ (load_set_other _ _ _)
      (load_set_self _ (by simpa using load_lt hr)) lockstep_empty
  · cases h

theorem Lockstep_copy_assign {s : State T} (ls : Lockstep s) (lhs rhs : Nat) (s' : State T)
    (h : copy_assign s lhs rhs = some s') : Lockstep s' := by
  unfold copy_assign at h
  split at h
  · next l r hl hr =>
    split at h
    · cases h; exact ls
    · simp only at h
      split at h
      · cases h
      · next cnts1 _ =>
        obtain ⟨rp, rc⟩ := r
        cases rp with
        | none =>
          simp only at h
          cases h
          exact ls.update_at _ lhs _ _ _ _
            (load_set_other _ _ _) (load_set_self _ (load_lt hl)) lockstep_empty
        | some p =>
          cases rc with
          | none => simp at h
          | some c =>
            cases hk : load cnts1 c with
            | none => simp [hk] at h
            | some k =>
              simp only [hk] at h
              cases h
              exact ls.update_at _ lhs _ _ _ _
                (load_set_other _ _ _) (load_set_self _ (load_lt hl)) (lockstep_of ls hr)
  · cases h

theorem Lockstep_dtor {s : State T} (ls : Lockstep s) (h : Nat) (s' : State T)
    (hx : dtor s h = some s') : Lockstep s' := by
  unfold dtor at hx
  split at hx
  · cases hx
  · next t ht =>
    have key : ∀ objs' cnts', Lockstep (⟨objs', cnts', s.handles.set h none, s.leaked⟩ :
        State T) :=
      fun objs' cnts' => ls.update_at _ h _ _ _ _
        (load_set_other _ _ _) (load_set_self _ (load_lt ht)) lockstep_dead
    split at hx
    · split at hx
      · cases hx
      · split at hx
        · cases hx
        · cases hx; exact key _ _
    · split at hx
      · cases hx
      · split at hx
        · cases hx
        · split at hx
          · cases hx; exact key _ _
          · split at hx
            · cases hx
            · split at hx
              · cases hx
              · cases hx; exact key _ _

theorem Lockstep_clone {s : State T} (ls : Lockstep s) (h : Nat) (a1 a2 : Bool)
    (x : Outcome Bool × State T) (hx : clone s h a1 a2 = some x) : Lockstep x.2 := by
  unfold clone at hx
  split at hx
  · cases hx
  · next t ht =>
    obtain ⟨tp, tc⟩ := t
    cases tp with
    | none => simp only at hx; cases hx; exact ls
    | some p =>
      cases tc with
      | none => simp at hx
      | some c =>
        cases hk : load s.cnts c with
        | none => simp [hk] at hx
        | some k =>
          have hcl := load_lt hk
          have hc1 : load (s.cnts.set c (some (wrap_int (k + 1)))) c = some (wrap_int (k + 1)) := load_set_self _ hcl
          simp only [hk, copy_members, hc1] at hx
          split at hx
          · cases hx; exact ls
          · split at hx
            · cases hx; exact ls
            · split at hx
              · cases hx
                exact ls.update_at _ h _ _ _ _ (load_set_other _ _ _)
                  (load_set_self _ (load_lt ht)) (lockstep_both p c)
              · cases hx
                exact ls.update_at _ h _ _ _ _ (load_set_other _ _ _)
                  (load_set_self _ (load_lt ht)) (lockstep_both p _)

/-- Every call other than the adoption of a null pointer keeps the two
members of every handle null together. -/
theorem Lockstep_exec {s s' : State T} (ls : Lockstep s) (o : Op T)
    (ho : o.adopts_null = false) (h : exec s o = some s') : Lockstep s' := by
  cases o with
  | new_obj v => cases h; exact ls.cells _ _ _
  | default_ctor =>
    cases h
    exact ls.update_at _ s.handles.length _ _ _ _
      (load_append_ne _ _) (load_append_new _ _) lockstep_empty
  | ctor_lref raw ok =>
    cases h
    cases ok
    · exact ls
    · cases raw with
      | none => simp [Op.adopts_null] at ho
      | some p =>
        exact ls.update_at _ s.handles.length _ _ _ _
          (load_append_ne _ _) (load_append_new _ _) (lockstep_both p _)
  | ctor_rref raw ok =>
    simp only [exec, Option.map_eq_some'] at h
    obtain ⟨a, ha, rfl⟩ := h
    cases ok
    · simp only [ctor_rref, Bool.false_eq_true, if_false] at ha
      split at ha
      · cases ha
      · cases ha
        exact ls.cells _ _ _
    · simp only [ctor_rref, if_true] at ha
      cases ha
      cases raw with
      | none => simp [Op.adopts_null] at ho
      | some p =>
        exact ls.update_at _ s.handles.length _ _ _ _
          (load_append_ne _ _) (load_append_new _ _) (lockstep_both p _)
  | copy_ctor rhs =>
    simp only [exec, Option.map_eq_some'] at h
    obtain ⟨a, ha, rfl⟩ := h
    exact Lockstep_copy_ctor ls rhs a ha
  | move_ctor rhs =>
    simp only [exec, Option.map_eq_some'] at h
    obtain ⟨a, ha, rfl⟩ := h
    exact Lockstep_move_ctor ls rhs a ha
  | copy_assign lhs rhs => exact Lockstep_copy_assign ls lhs rhs s' h
  | move_assign lhs rhs => exact Lockstep_move_assign ls lhs rhs s' h
  | clone g a1 a2 =>
    simp only [exec, Option.map_eq_some'] at h
    obtain ⟨a, ha, rfl⟩ := h
    exact Lockstep_clone ls g a1 a2 a ha
  | write_star g v =>
    simp only [exec, Option.map_eq_some'] at h
    obtain ⟨a, ha, rfl⟩ := h
    unfold write_star at ha
    split at ha
    · cases ha
    · cases ha; exact ls
    · split at ha
      · cases ha
      · cases ha; exact ls.cells _ _ _
  | dtor g => exact Lockstep_dtor ls g s' h

theorem Lockstep_run {s s' : State T} (ls : Lockstep s) (ops : List (Op T))
    (ho : ∀ o ∈ ops, o.adopts_null = false) (h : run s ops = some s') : Lockstep s' := by
  induction ops generalizing s with
  | nil => cases h; exact ls
  | cons o os ih =>
    simp only [run] at h
    split at h
    · cases h
    · next s1 h1 =>
      exact ih (Lockstep_exec ls o (ho o (List.mem_cons_self _ _)) h1)
        (fun o' ho' => ho o' (List.mem_cons_of_mem _ ho')) h

/-- C13 (counterexample): adopting a null pointer, with either adopting
constructor, produces a handle whose payload member is null and whose counter
member is not. -/
theorem null_adoption_breaks_lockstep :
    run (State.init Int) [.ctor_lref none true]
      = some ⟨[], [some 1], [some ⟨none, some 0⟩], []⟩ ∧
    run (State.init Int) [.ctor_rref none true]
      = some ⟨[], [some 1], [some ⟨none, some 0⟩], []⟩ := by
  refine ⟨rfl, rfl⟩

/-- C13 (amended): after every program, a living handle with a payload has a
counter, and a living handle with a null payload and a counter is the only
holder of that counter, which reads 1; after a program that never hands a
null pointer to an adopting constructor, the payload member of every living
handle is null if and only if its counter member is null. -/
theorem members_in_reachable_states (s : State T) (ops : List (Op T)) (h : Nat)
    (t : smart_ptr) (hrun : run (State.init T) ops = some s) (hh : s.handle h = some t) :
    (t.ptr_ ≠ none → t.ref_ ≠ none) ∧
    (∀ c, t.ptr_ = none → t.ref_ = some c →
      load s.cnts c = some 1 ∧
      ∀ g tg, s.handle g = some tg → tg.ref_ = some c → g = h) ∧
    ((∀ o ∈ ops, o.adopts_null = false) → (t.ptr_ = none ↔ t.ref_ = none)) := by
  have w := WF_run WF_init ops hrun
  refine ⟨w.has_counter h t hh, ?_, ?_⟩
  · intro c hp hc
    refine ⟨w.null_count h t c hh hp hc, ?_⟩
    intro g tg hg hgc
    exact ((w.same_counter h g t tg c hh hg hc hgc).2 hp).symm
  · intro ho
    exact Lockstep_run Lockstep_init ops ho hrun h t hh

/-- Witness of C13 (amended): A adopts a fresh 10, B is a copy of A, and A is
moved into C; B has a payload and a counter, and the program adopts no null
pointer, so the members of B are null together.  And the handle made by
adopting a null pointer has a null payload member and a counter of its own
that reads 1. -/
theorem members_in_reachable_states_witness :
    (((⟨some 0, some 0⟩ : smart_ptr).ptr_ ≠ none → (⟨some 0, some 0⟩ : smart_ptr).ref_ ≠ none) ∧
    (∀ c, (⟨some 0, some 0⟩ : smart_ptr).ptr_ = none →
      (⟨some 0, some 0⟩ : smart_ptr).ref_ = some c →
      load (⟨[some 10], [some 2],
        [some ⟨none, none⟩, some ⟨some 0, some 0⟩, some ⟨some 0, some 0⟩], []⟩ :
        State Int).cnts c = some 1 ∧
      ∀ g tg, (⟨[some 10], [some 2],
        [some ⟨none, none⟩, some ⟨some 0, some 0⟩, some ⟨some 0, some 0⟩], []⟩ :
        State Int).handle g = some tg → tg.ref_ = some c → g = 1) ∧
    ((∀ o ∈ ([.new_obj 10, .ctor_lref (some 0) true, .copy_ctor 0, .move_ctor 0] :
        List (Op Int)), o.adopts_null = false) →
      ((⟨some 0, some 0⟩ : smart_ptr).ptr_ = none ↔
        (⟨some 0, some 0⟩ : smart_ptr).ref_ = none))) ∧
    (((⟨none, some 0⟩ : smart_ptr).ptr_ ≠ none → (⟨none, some 0⟩ : smart_ptr).ref_ ≠ none) ∧
    (∀ c, (⟨none, some 0⟩ : smart_ptr).ptr_ = none →
      (⟨none, some 0⟩ : smart_ptr).ref_ = some c →
      load (⟨[], [some 1], [some ⟨none, some 0⟩], []⟩ : State Int).cnts c = some 1 ∧
      ∀ g tg, (⟨[], [some 1], [some ⟨none, some 0⟩], []⟩ : State Int).handle g = some tg →
        tg.ref_ = some c → g = 0) ∧
    ((∀ o ∈ ([.ctor_lref none true] : List (Op Int)), o.adopts_null = false) →
      ((⟨none, some 0⟩ : smart_ptr).ptr_ = none ↔
        (⟨none, some 0⟩ : smart_ptr).ref_ = none))) :=
  ⟨members_in_reachable_states _
    [.new_obj 10, .ctor_lref (some 0) true, .copy_ctor 0, .move_ctor 0] 1 ⟨some 0, some 0⟩
    rfl rfl,
   members_in_reachable_states _ [.ctor_lref none true] 0 ⟨none, some 0⟩ rfl rfl⟩

/-! ## Counters and the number of their holders -/

/-- Programs in which no `clone` fails at its second allocation, and in
which each call is made while every counter is less than 2147483647, keep the
counting invariant. -/
theorem Counted_run {s s' : State T} (wf : WF s) (w : Counted s) (ops : List (Op T))
    (h : run_counting s ops = some s') : Counted s' := by
  induction ops generalizing s with
  | nil => cases h; exact w
  | cons o os ih =>
    simp only [run_counting] at h
    split at h
    · next ha =>
      simp only [Bool.and_eq_true] at ha
      split at h
      · cases h
      · next s1 h1 =>
        exact ih (WF_exec wf o h1) (Counted_exec wf w ha.1 o ha.2 h1) h
    · cases h

/-- After a program in which no `clone` fails at its second allocation and
each call is made while every counter is less than 2147483647, the counter of
every living handle is allocated and reads at least the number of its living
holders, hence at least 1. -/
theorem counters_cover_holders (s : State T) (ops : List (Op T)) (h : Nat) (t : smart_ptr)
    (c : Nat) (hrun : run_counting (State.init T) ops = some s)
    (hh : s.handle h = some t) (hc : t.ref_ = some c) :
    ∃ k, load s.cnts c = some k ∧ (counter_holders s c : Int) ≤ k ∧ 1 ≤ k := by
  have w := Counted_run WF_init Counted_init ops hrun
  have hpos := counter_holders_pos hh hc
  rcases w c with w0 | ⟨k, hk, hle⟩
  · omega
  · exact ⟨k, hk, hle, by omega⟩

/-- C18 (evaluation of the code): A adopts a fresh 10, B is a copy of A, and
`clone` on B throws `bad_alloc` at `new int(1)`.  The counter cell then reads
1 while two living handles hold it; destroying A finds the count 1 and
deallocates the payload and the counter cell, although the living handle B
still refers to both. -/
theorem failed_clone_undercounts :
    run (State.init Int) [.new_obj 10, .ctor_lref (some 0) true, .copy_ctor 0,
        .clone 1 true false]
      = some ⟨[some 10], [some 1], [some ⟨some 0, some 0⟩, some ⟨some 0, some 0⟩],
          [⟨some 0, some 0⟩]⟩ ∧
    counter_holders (⟨[some 10], [some 1], [some ⟨some 0, some 0⟩, some ⟨some 0, some 0⟩],
          [⟨some 0, some 0⟩]⟩ : State Int) 0 = 2 ∧
    ref_count (⟨[some 10], [some 1], [some ⟨some 0, some 0⟩, some ⟨some 0, some 0⟩],
          [⟨some 0, some 0⟩]⟩ : State Int) 1 = some 1 ∧
    dtor (⟨[some 10], [some 1], [some ⟨some 0, some 0⟩, some ⟨some 0, some 0⟩],
          [⟨some 0, some 0⟩]⟩ : State Int) 0
      = some ⟨[none], [none], [none, some ⟨some 0, some 0⟩], [⟨some 0, some 0⟩]⟩ ∧
    counter_holders (⟨[none], [none], [none, some ⟨some 0, some 0⟩], [⟨some 0, some 0⟩]⟩ :
      State Int) 0 = 1 := by
  refine ⟨rfl, rfl, rfl, rfl, rfl⟩

/-! ## Copy, then destroy the copy -/

/-- In a reachable state, copy-constructing from a handle with payload p and
a counter that reads k ≠ 0, then destroying the copy, leaves every payload
cell, every counter cell, every handle and the list of abandoned handles as
they were. -/
theorem copy_then_destroy_restores (s : State T) (h p c : Nat) (k : Int) (hs : Reachable s)
    (hh : s.handle h = some ⟨some p, some c⟩) (hk : load s.cnts c = some k) (hk0 : k ≠ 0) :
    ∃ s1 d s2, copy_ctor s h = some (s1, d) ∧ dtor s1 d = some s2 ∧
      s2.objs = s.objs ∧ (∀ c', load s2.cnts c' = load s.cnts c') ∧
      (∀ g, s2.handle g = s.handle g) ∧ s2.leaked = s.leaked := by
  have hcl := load_lt hk
  have hr := CellsInRange_of_reachable hs c k hk
  have h1 : load (s.handles ++ [some (⟨some p, some c⟩ : smart_ptr)]) s.handles.length
      = some ⟨some p, some c⟩ := load_append_new _ _
  have h3 : load (s.cnts.set c (some (wrap_int (k + 1)))) c = some (wrap_int (k + 1)) :=
    load_set_self _ hcl
  have hk1 : wrap_int (k + 1) ≠ 1 := fun e => hk0 ((wrap_int_succ_eq_one hr.1 hr.2).1 e)
  have hback : wrap_int (wrap_int (k + 1) - 1) = k := wrap_int_add_sub_one hr.1 hr.2
  refine ⟨(⟨s.objs, s.cnts.set c (some (wrap_int (k + 1))),
      s.handles ++ [some (⟨some p, some c⟩ : smart_ptr)], s.leaked⟩ : State T),
    s.handles.length,
    (⟨s.objs, (s.cnts.set c (some (wrap_int (k + 1)))).set c (some k),
      (s.handles ++ [some (⟨some p, some c⟩ : smart_ptr)]).set s.handles.length none,
      s.leaked⟩ : State T),
    ?_, ?_, rfl, ?_, ?_, rfl⟩
  · simp [copy_ctor, hh, copy_members, hk]
  · simp [dtor, State.handle, h1, h3, hk1, hback]
  · intro c'
    show load ((s.cnts.set c (some (wrap_int (k + 1)))).set c (some k)) c' = load s.cnts c'
    by_cases hc : c = c'
    · subst hc
      rw [load_set_self _ (by simpa using hcl), hk]
    · rw [load_set_ne _ _ hc, load_set_ne _ _ hc]
  · intro g
    show load ((s.handles ++ [some (⟨some p, some c⟩ : smart_ptr)]).set s.handles.length none) g
      = load s.handles g
    by_cases hg : s.handles.length = g
    · subst hg
      rw [load_set_self _ (by simp)]
      unfold load
      rw [List.getElem?_eq_none (le_refl _)]
    · rw [load_set_ne _ _ hg, load_append_ne _ _ g (Ne.symm hg)]

/-- C20 (evaluation of the code): A adopts a fresh 1, B is a copy of A,
`clone` on B throws `bad_alloc` at `new int(1)` (the counter now reads 1 with
A and B attached), and A is copy-assigned from a default-constructed handle,
which lowers the counter to 0.  B is then a living non-empty handle whose
counter reads 0: copy-constructing C from B raises it to 1, and destroying C
finds 1 and deallocates the payload and the counter of B. -/
theorem copy_then_destroy_after_failed_clone :
    run (State.init Int) [.new_obj 1, .ctor_lref (some 0) true, .copy_ctor 0,
        .clone 1 true false, .default_ctor, .copy_assign 0 2]
      = some ⟨[some 1], [some 0],
          [some ⟨none, none⟩, some ⟨some 0, some 0⟩, some ⟨none, none⟩],
          [⟨some 0, some 0⟩]⟩ ∧
    copy_ctor (⟨[some 1], [some 0],
          [some ⟨none, none⟩, some ⟨some 0, some 0⟩, some ⟨none, none⟩],
          [⟨some 0, some 0⟩]⟩ : State Int) 1
      = some (⟨[some 1], [some 1],
          [some ⟨none, none⟩, some ⟨some 0, some 0⟩, some ⟨none, none⟩,
            some ⟨some 0, some 0⟩], [⟨some 0, some 0⟩]⟩, 3) ∧
    dtor (⟨[some 1], [some 1],
          [some ⟨none, none⟩, some ⟨some 0, some 0⟩, some ⟨none, none⟩,
            some ⟨some 0, some 0⟩], [⟨some 0, some 0⟩]⟩ : State Int) 3
      = some ⟨[none], [none],
          [some ⟨none, none⟩, some ⟨some 0, some 0⟩, some ⟨none, none⟩, none],
          [⟨some 0, some 0⟩]⟩ := by
  refine ⟨rfl, rfl, rfl⟩

end SmartPtr
